import Mathlib

/-! # Personal-finance API: derived-metrics controllers

A shallow embedding of the controllers of the finance tracker
(`budgetController.js`, `goalController.js`, `reportController.js`,
`dashboardController.js`, `notificationController.js`,
`transactionController.js`) together with the Mongoose models they read.

Modelling conventions.

* A JavaScript Number is a double.  A finite Number is carried as the rational
  it denotes, and every `+`, `-`, `*` and `/` is the exact result rounded to the
  nearest double (`toDouble`: ties to the even significand, an infinity from
  `2 ^ 1024` on); the zero with a minus sign is not told apart from zero.  A
  stored Number is a finite double; only `Goal.savedAmount`, which
  `autoAllocateSavings` computes and saves, is kept as a `JsNum`.
* A Date is its time value: integer milliseconds since the epoch.  Stored dates
  are valid Dates, and the local time zone of the server is UTC.  A handler
  reads the clock once: `now` is a parameter.
* A collection of the record store is the list of its documents in natural
  (insertion) order; `find` filters it and `sort` is a stable sort.  Document
  ids are unique in a collection; theorems that need it say so.
* A JavaScript object whose keys are month keys or goal categories is an
  association list in insertion order (`Dict`).  An object whose keys are
  transaction categories, which are free text, also answers for the members
  it inherits from `Object.prototype` (`addToCategory`, `objectKeys`).
* A query parameter or a route parameter is a string or absent.
* Only the outcome of the `try` block is modelled; a failing record store is
  outside the model, and a query that carries an Invalid Date is answered with
  status 500.
-/

namespace FinTrack

/-! ## JavaScript numbers -/

/-- A JavaScript Number: a finite value or one of the three non-finite ones.
A finite Number is a double, carried as the rational it denotes; the zero with
a minus sign is not told apart from zero. -/
inductive JsNum where
  | fin (q : ℚ)
  | posInf
  | negInf
  | nan
  deriving DecidableEq

instance (n : ℕ) : OfNat JsNum n := ⟨JsNum.fin n⟩

/-- The result of `Math.round`, `Math.ceil` or `Math.floor`: an integer, or the
non-finite argument passed through. -/
inductive JsInt where
  | int (z : ℤ)
  | posInf
  | negInf
  | nan
  deriving DecidableEq

/-- The power `2 ^ e` of an integer exponent. -/
def pow2 (e : ℤ) : ℚ :=
  if 0 ≤ e then ((2 ^ e.toNat : ℕ) : ℚ) else 1 / ((2 ^ (-e).toNat : ℕ) : ℚ)

/-- The position of the leading binary digit of `n`, found in at most `fuel`
halvings. -/
def log2Fuel : ℕ → ℕ → ℕ
  | 0, _ => 0
  | fuel + 1, n => if 2 ≤ n then log2Fuel fuel (n / 2) + 1 else 0

/-- The position of the leading binary digit of a natural number. -/
def log2 (n : ℕ) : ℕ := log2Fuel n n

/-- The exponent `e` with `2 ^ e ≤ a < 2 ^ (e + 1)` of a positive rational. -/
def binade (a : ℚ) : ℤ :=
  if pow2 ((log2 a.num.natAbs : ℤ) - (log2 a.den : ℤ)) ≤ a then
    (log2 a.num.natAbs : ℤ) - (log2 a.den : ℤ)
  else (log2 a.num.natAbs : ℤ) - (log2 a.den : ℤ) - 1

/-- The integer nearest to a rational, a tie going to the even one. -/
def roundHalfEven (x : ℚ) : ℤ :=
  if x - ⌊x⌋ < 1 / 2 then ⌊x⌋
  else if 1 / 2 < x - ⌊x⌋ then ⌊x⌋ + 1
  else if ⌊x⌋ % 2 = 0 then ⌊x⌋ else ⌊x⌋ + 1

/-- The exponent of the spacing of the doubles around a positive rational: 52
binary places below the leading digit, and not below the spacing of the
subnormal doubles. -/
def quantum (a : ℚ) : ℤ := max (binade a - 52) (-1074)

/-- The double nearest to a positive rational, a tie going to the even
significand, as if the exponent had no upper limit. -/
def nearest (a : ℚ) : ℚ := roundHalfEven (a / pow2 (quantum a)) * pow2 (quantum a)

/-- The Number that a real result is rounded to: the nearest double, and an
infinity from `2 ^ 1024` on. -/
def toDouble (q : ℚ) : JsNum :=
  if q = 0 then .fin 0
  else if 0 < q then (if nearest q < pow2 1024 then .fin (nearest q) else .posInf)
  else (if nearest (-q) < pow2 1024 then .fin (-nearest (-q)) else .negInf)

namespace JsNum

/-- The operator `a + b`. -/
def add : JsNum → JsNum → JsNum
  | fin a, fin b => toDouble (a + b)
  | fin _, posInf => posInf
  | fin _, negInf => negInf
  | posInf, fin _ => posInf
  | negInf, fin _ => negInf
  | posInf, posInf => posInf
  | negInf, negInf => negInf
  | _, _ => nan

/-- The operator `a - b`. -/
def sub : JsNum → JsNum → JsNum
  | fin a, fin b => toDouble (a - b)
  | fin _, posInf => negInf
  | fin _, negInf => posInf
  | posInf, fin _ => posInf
  | negInf, fin _ => negInf
  | posInf, negInf => posInf
  | negInf, posInf => negInf
  | _, _ => nan

/-- The operator `a * b`. -/
def mul : JsNum → JsNum → JsNum
  | fin a, fin b => toDouble (a * b)
  | fin a, posInf => if a = 0 then nan else if 0 < a then posInf else negInf
  | fin a, negInf => if a = 0 then nan else if 0 < a then negInf else posInf
  | posInf, fin b => if b = 0 then nan else if 0 < b then posInf else negInf
  | negInf, fin b => if b = 0 then nan else if 0 < b then negInf else posInf
  | posInf, posInf => posInf
  | negInf, negInf => posInf
  | posInf, negInf => negInf
  | negInf, posInf => negInf
  | _, _ => nan

/-- The operator `a / b`. -/
def div : JsNum → JsNum → JsNum
  | fin a, fin b =>
    if b = 0 then (if a = 0 then nan else if 0 < a then posInf else negInf)
    else toDouble (a / b)
  | fin _, posInf => fin 0
  | fin _, negInf => fin 0
  | posInf, fin b => if 0 ≤ b then posInf else negInf
  | negInf, fin b => if 0 ≤ b then negInf else posInf
  | _, _ => nan

/-- The comparison `a < b`; false as soon as one side is `NaN`. -/
def lt : JsNum → JsNum → Bool
  | fin a, fin b => decide (a < b)
  | fin _, posInf => true
  | negInf, fin _ => true
  | negInf, posInf => true
  | _, _ => false

/-- The comparison `a > b`. -/
def gt (a b : JsNum) : Bool := lt b a

/-- The comparison `a >= b`; false as soon as one side is `NaN`. -/
def ge : JsNum → JsNum → Bool
  | fin a, fin b => decide (b ≤ a)
  | posInf, fin _ => true
  | fin _, negInf => true
  | posInf, posInf => true
  | negInf, negInf => true
  | posInf, negInf => true
  | _, _ => false

/-- The comparison `a <= b`. -/
def le (a b : JsNum) : Bool := ge b a

/-- The function `Math.min` on two Numbers. -/
def min : JsNum → JsNum → JsNum
  | nan, _ => nan
  | _, nan => nan
  | negInf, _ => negInf
  | _, negInf => negInf
  | posInf, b => b
  | a, posInf => a
  | fin a, fin b => fin (Min.min a b)

end JsNum

/-- The reduction `list.reduce((sum, x) => sum + x, 0)` over stored Numbers. -/
def jsSum (amounts : List ℚ) : JsNum :=
  amounts.foldl (fun sum x => JsNum.add sum (JsNum.fin x)) 0

/-- The Number that a decimal literal denotes. -/
def literal (q : ℚ) : ℚ :=
  match toDouble q with
  | .fin r => r
  | _ => 0

namespace JsMath

/-- The function `Math.round`: the nearest integer, a tie going up. -/
def round : JsNum → JsInt
  | .fin q => .int ⌊q + 1 / 2⌋
  | .posInf => .posInf
  | .negInf => .negInf
  | .nan => .nan

/-- The function `Math.ceil`. -/
def ceil : JsNum → JsInt
  | .fin q => .int ⌈q⌉
  | .posInf => .posInf
  | .negInf => .negInf
  | .nan => .nan

/-- The function `Math.floor`. -/
def floor : JsNum → JsInt
  | .fin q => .int ⌊q⌋
  | .posInf => .posInf
  | .negInf => .negInf
  | .nan => .nan

end JsMath

/-! ## Numbers as text (`Number::toString`, `toFixed`) -/

/-- The power `10 ^ e` of an integer exponent. -/
def pow10 (e : ℤ) : ℚ :=
  if 0 ≤ e then ((10 ^ e.toNat : ℕ) : ℚ) else 1 / ((10 ^ (-e).toNat : ℕ) : ℚ)

/-- The number of decimal digits of a natural number. -/
def decimalLength (n : ℕ) : ℕ := (Nat.repr n).length

/-- The exponent `n` with `10 ^ (n - 1) ≤ x < 10 ^ n` of a positive rational. -/
def decade (x : ℚ) : ℤ :=
  if 1 ≤ x then (decimalLength ⌊x⌋.toNat : ℤ)
  else if x = pow10 (1 - (decimalLength ⌊1 / x⌋.toNat : ℤ)) then
    2 - (decimalLength ⌊1 / x⌋.toNat : ℤ)
  else 1 - (decimalLength ⌊1 / x⌋.toNat : ℤ)

/-- The search for the shortest digits of a positive double `x` of decade `n`:
with `k` digits, the two neighbours `s` of `x / 10 ^ (n - k)` are tried, and
the first `k` for which `s * 10 ^ (n - k)` is read back as `x` wins, the nearer
neighbour when both are.  The result is the integer `s` and the exponent
`n - k`. -/
def shortestFrom (x : ℚ) (n : ℤ) : ℕ → ℕ → ℤ × ℤ
  | 0, k => (⌊x / pow10 (n - k)⌋, n - k)
  | more + 1, k =>
    let scale := pow10 (n - k)
    let low := ⌊x / scale⌋
    let lowFits := decide (toDouble (low * scale) = .fin x)
    let highFits := decide (toDouble ((low + 1) * scale) = .fin x)
    if lowFits && highFits then
      (if x - low * scale ≤ (low + 1) * scale - x then (low, n - k) else (low + 1, n - k))
    else if lowFits then (low, n - k)
    else if highFits then (low + 1, n - k)
    else shortestFrom x n more (k + 1)

/-- The digits without trailing zeros: zeros at the end of `s` move into the
exponent. -/
def stripZeros : ℕ → ℤ × ℤ → ℤ × ℤ
  | 0, r => r
  | fuel + 1, (s, e) => if s ≠ 0 ∧ s % 10 = 0 then stripZeros fuel (s / 10, e + 1) else (s, e)

/-- The text of `Number::toString` for a positive double. -/
def positiveToString (x : ℚ) : String :=
  let r := stripZeros 20 (shortestFrom x (decade x) 17 1)
  let digits := Nat.repr r.1.toNat
  let k : ℤ := digits.length
  let n : ℤ := r.2 + k
  if k ≤ n ∧ n ≤ 21 then digits ++ String.mk (List.replicate (n - k).toNat (Char.ofNat 48))
  else if 0 < n ∧ n ≤ 21 then
    String.mk (digits.toList.take n.toNat) ++ "." ++ String.mk (digits.toList.drop n.toNat)
  else if -6 < n ∧ n ≤ 0 then
    "0." ++ String.mk (List.replicate (-n).toNat (Char.ofNat 48)) ++ digits
  else
    (if k = 1 then digits
      else String.mk (digits.toList.take 1) ++ "." ++ String.mk (digits.toList.drop 1))
      ++ "e" ++ (if 0 ≤ n - 1 then "+" else "-") ++ Nat.repr (n - 1).natAbs

/-- The text that a template literal prints for a finite double
(`Number::toString`). -/
def numberToString (x : ℚ) : String :=
  if x = 0 then "0"
  else if x < 0 then "-" ++ positiveToString (-x)
  else positiveToString x

/-- The text that a template literal prints for a Number. -/
def JsNum.toString : JsNum → String
  | .fin q => numberToString q
  | .posInf => "Infinity"
  | .negInf => "-Infinity"
  | .nan => "NaN"

/-- The text that a template literal prints for an integral Number. -/
def JsInt.toString : JsInt → String
  | .int z => numberToString z
  | .posInf => "Infinity"
  | .negInf => "-Infinity"
  | .nan => "NaN"

/-- The method `x.toFixed(0)`: below `10 ^ 21` the nearest integer, a tie going
away from zero, with the sign of a negative `x` in front; from `10 ^ 21` on the
text of `Number::toString`. -/
def JsNum.toFixed0 : JsNum → String
  | .fin q =>
    if pow10 21 ≤ |q| then numberToString q
    else (if q < 0 then "-" else "") ++ Nat.repr ⌊|q| + 1 / 2⌋.toNat
  | .posInf => "Infinity"
  | .negInf => "-Infinity"
  | .nan => "NaN"

/-! ## Data model (`models/*.js`) -/

/-- An ObjectId of the record store. -/
abbrev ObjectId := ℕ

/-- The enum of `Transaction.type`. -/
inductive TxType where
  | income
  | expense
  deriving DecidableEq

/-- The enum of `Transaction.recurrencePattern`. -/
inductive Recurrence where
  | daily
  | weekly
  | monthly
  deriving DecidableEq

/-- A document of `models/Transaction.js`. -/
structure Transaction where
  _id : ObjectId
  user : ObjectId
  type : TxType
  amount : ℚ
  category : String
  description : Option String
  date : ℤ
  tags : List String
  isRecurring : Bool
  recurrencePattern : Option Recurrence
  recurrenceEndDate : Option ℤ
  deriving DecidableEq

/-- The enum of `Budget.period`. -/
inductive Period where
  | monthly
  | weekly
  | daily
  deriving DecidableEq

/-- A document of `models/Budget.js`. -/
structure Budget where
  _id : ObjectId
  user : ObjectId
  category : String
  amount : ℚ
  period : Period
  spent : ℚ
  alertThreshold : ℚ
  recommendations : String
  deriving DecidableEq

/-- The enum of `Goal.category`. -/
inductive GoalCategory where
  | Car
  | Home
  | Education
  | Vacation
  | Emergency
  | Retirement
  | Other
  deriving DecidableEq

/-- A document of `models/Goal.js`. -/
structure Goal where
  _id : ObjectId
  user : ObjectId
  title : String
  targetAmount : ℚ
  savedAmount : JsNum
  deadline : ℤ
  autoAllocate : Bool
  allocationPercentage : ℚ
  category : Option GoalCategory
  priority : ℚ
  deriving DecidableEq

/-- The record store: one list of documents per collection. -/
structure Store where
  transactions : List Transaction
  budgets : List Budget
  goals : List Goal
  deriving DecidableEq

/-- A response that carries a status code and a `message` body. -/
structure MessageResponse where
  status : ℕ
  message : String
  deriving DecidableEq

/-! ## Dates (the runtime's `Date`, local time zone UTC) -/

/-- Milliseconds in a day. -/
def msPerDay : ℤ := 86400000

/-- The year, month (1 to 12) and day of month of a day number counted from
1970-01-01, in the proleptic Gregorian calendar. -/
def civilFromDays (day : ℤ) : ℤ × ℤ × ℤ :=
  let z := day + 719468
  let era := z / 146097
  let doe := z % 146097
  let yoe := (doe - doe / 1460 + doe / 36524 - doe / 146096) / 365
  let doy := doe - (365 * yoe + yoe / 4 - yoe / 100)
  let mp := (5 * doy + 2) / 153
  let d := doy - (153 * mp + 2) / 5 + 1
  let m := if mp < 10 then mp + 3 else mp - 9
  (yoe + era * 400 + (if m ≤ 2 then 1 else 0), m, d)

/-- The day number of a year, month (1 to 12) and day of month. -/
def daysFromCivil (year month day : ℤ) : ℤ :=
  let y := if month ≤ 2 then year - 1 else year
  let era := y / 400
  let yoe := y % 400
  let doy := (153 * (if 2 < month then month - 3 else month + 9) + 2) / 5 + day - 1
  let doe := yoe * 365 + yoe / 4 - yoe / 100 + doy
  era * 146097 + doe - 719468

/-- The abstract operation `MakeDay(year, month, date)` with a month index
counted from 0 that may lie outside 0 to 11 and a day that may lie outside the
month. -/
def makeDay (year monthIndex date : ℤ) : ℤ :=
  daysFromCivil (year + monthIndex / 12) (monthIndex % 12 + 1) 1 + date - 1

/-- The constructor call `new Date(year, monthIndex, date)`: midnight of that
day, a year from 0 to 99 standing for 1900 + year. -/
def dateOfYMD (year monthIndex date : ℤ) : ℤ :=
  makeDay (if 0 ≤ year ∧ year ≤ 99 then 1900 + year else year) monthIndex date * msPerDay

/-- The statement `d.setMonth(d.getMonth() - 3)`. -/
def threeMonthsBefore (now : ℤ) : ℤ :=
  let ymd := civilFromDays (now / msPerDay)
  makeDay ymd.1 (ymd.2.1 - 1 - 3) ymd.2.2 * msPerDay + now % msPerDay

/-- A natural number in decimal, padded with zeros on the left to a width. -/
def padZero (width n : ℕ) : String :=
  String.join (List.replicate (width - (toString n).length) "0") ++ toString n

/-- The expression `date.toISOString().slice(0, 7)`: `YYYY-MM` for the years 0
to 9999, and the sign with six year digits for the others. -/
def isoMonth (date : ℤ) : String :=
  let ymd := civilFromDays (date / msPerDay)
  let year :=
    if 0 ≤ ymd.1 ∧ ymd.1 ≤ 9999 then padZero 4 ymd.1.toNat
    else (if ymd.1 < 0 then "-" else "+") ++ padZero 6 ymd.1.natAbs
  (year ++ "-" ++ padZero 2 ymd.2.1.toNat).take 7

/-! ## Objects used as dictionaries -/

/-- A JavaScript object keyed by strings, in insertion order. -/
abbrev Dict (β : Type) := List (String × β)

/-- The read `obj[key]`; `none` stands for `undefined`. -/
def Dict.get? {β : Type} : Dict β → String → Option β
  | [], _ => none
  | (k, v) :: rest, key => if k = key then some v else Dict.get? rest key

/-- The write `obj[key] = value`: in place for a key that exists, at the end
for a new key. -/
def Dict.set {β : Type} : Dict β → String → β → Dict β
  | [], key, value => [(key, value)]
  | (k, v) :: rest, key, value =>
    if k = key then (key, value) :: rest else (k, v) :: Dict.set rest key value

/-! ## Objects keyed by a transaction category -/

/-- The value of a property of `spending` or of a side of `categorySummary`: a
Number, or the text that `+=` leaves when the value it reads is not a Number. -/
inductive Cell where
  | number (value : JsNum)
  | text (value : String)
  deriving DecidableEq

/-- The text that `+` makes of the member of `Object.prototype` that a key
names: the source text of a built-in function, and `[object Object]` for the
prototype itself under `__proto__`; `none` for a key that names no member. -/
def inheritedText (key : String) : Option String :=
  if key = "constructor" then some "function Object() \x7b [native code] \x7d"
  else if key = "__proto__" then some "[object Object]"
  else if key ∈ ["toString", "toLocaleString", "valueOf", "hasOwnProperty", "isPrototypeOf",
      "propertyIsEnumerable", "__defineGetter__", "__defineSetter__", "__lookupGetter__",
      "__lookupSetter__"] then
    some ("function " ++ key ++ "() \x7b [native code] \x7d")
  else none

/-- Whether a Number is truthy: neither 0 nor `NaN`. -/
def JsNum.truthy : JsNum → Bool
  | .fin q => decide (q ≠ 0)
  | .nan => false
  | _ => true

/-- The statements `if (!obj[key]) obj[key] = 0; obj[key] += amount` on an
object created as `\x7b\x7d`.  A key that the object does not own and that names
a member of `Object.prototype` reads as that member, which is truthy: nothing is
reset, and `+=` concatenates the member's text with the amount; the assignment
creates the property, except under `__proto__`, whose setter ignores a
string. -/
def addToCategory (summary : Dict Cell) (category : String) (amount : ℚ) : Dict Cell :=
  match summary.get? category with
  | some (.number value) =>
    summary.set category
      (.number (JsNum.add (if value.truthy then value else 0) (JsNum.fin amount)))
  | some (.text value) =>
    if value = "" then summary.set category (.number (JsNum.add 0 (JsNum.fin amount)))
    else summary.set category (.text (value ++ numberToString amount))
  | none =>
    match inheritedText category with
    | none => summary.set category (.number (JsNum.add 0 (JsNum.fin amount)))
    | some member =>
      if category = "__proto__" then summary
      else summary.set category (.text (member ++ numberToString amount))

/-- The array index that a property key is, if it is one: the decimal form,
without leading zeros, of a natural number below `2 ^ 32 - 1`. -/
def arrayIndex (key : String) : Option ℕ :=
  match key.toNat? with
  | some n => if Nat.repr n = key ∧ n < 4294967295 then some n else none
  | none => none

/-- The function `Object.keys`: the keys that are array indices in ascending
order, then the other keys in the order of their creation. -/
def objectKeys {β : Type} (obj : Dict β) : List String :=
  (((obj.map Prod.fst).filterMap arrayIndex).insertionSort (fun a b => a ≤ b)).map Nat.repr
    ++ (obj.map Prod.fst).filter (fun key => (arrayIndex key).isNone)

/-! ## `controllers/budgetController.js` -/

/-- The query `Transaction.find` on user, category and type "expense". -/
def findExpenses (s : Store) (uid : ObjectId) (category : String) : List Transaction :=
  s.transactions.filter
    (fun t => decide (t.user = uid) && decide (t.category = category) && decide (t.type = TxType.expense))

/-- The reduction `transactions.reduce((sum, transaction) => sum + transaction.amount, 0)`. -/
def sumAmounts (transactions : List Transaction) : JsNum :=
  transactions.foldl (fun sum transaction => JsNum.add sum (JsNum.fin transaction.amount)) 0

/-- The expression `(totalSpent / budget.amount) * 100`. -/
def percentUsed (totalSpent : JsNum) (budget : Budget) : JsNum :=
  JsNum.mul (JsNum.div totalSpent (JsNum.fin budget.amount)) 100

/-- The alert text of `checkBudgetStatus`. -/
def alertMessage (percent : JsInt) (category : String) : String :=
  "Alert: You have spent " ++ percent.toString ++ "% of your budget for " ++ category ++ "."

/-- The `for (let budget of budgets)` loop of `checkBudgetStatus` and the
response that follows it. -/
def checkBudgetStatusLoop (s : Store) (uid : ObjectId) : List Budget → MessageResponse
  | [] => ⟨200, "All budgets are within limits."⟩
  | budget :: rest =>
    let totalSpent := sumAmounts (findExpenses s uid budget.category)
    if JsNum.ge (percentUsed totalSpent budget) (JsNum.fin budget.alertThreshold) then
      ⟨200, alertMessage (JsMath.round (percentUsed totalSpent budget)) budget.category⟩
    else checkBudgetStatusLoop s uid rest

/-- The query `Budget.find` on user. -/
def findBudgets (s : Store) (uid : ObjectId) : List Budget :=
  s.budgets.filter (fun b => decide (b.user = uid))

/-- The handler `checkBudgetStatus`. -/
def checkBudgetStatus (s : Store) (uid : ObjectId) : MessageResponse :=
  checkBudgetStatusLoop s uid (findBudgets s uid)

/-- An entry of the `recommendations` array. -/
structure Recommendation where
  category : String
  recommendation : String
  currentBudget : ℚ
  averageSpending : JsNum
  percentOfBudget : JsInt
  deriving DecidableEq

/-- The query `Transaction.find` on user, category, type "expense" and
`date` at or after a bound. -/
def findExpensesSince (s : Store) (uid : ObjectId) (category : String) (since : ℤ) :
    List Transaction :=
  s.transactions.filter
    (fun t => decide (t.user = uid) && decide (t.category = category)
      && decide (t.type = TxType.expense) && decide (since ≤ t.date))

/-- The text of the branch `percentOfBudget > 110`. -/
def increaseText (category : String) (percent : JsInt) : String :=
  "Consider increasing your " ++ category ++ " budget by " ++ percent.toString
    ++ "% based on your 3-month average spending."

/-- The text of the branch `percentOfBudget < 70`. -/
def reduceText (category : String) (percent : JsInt) : String :=
  "You might be able to reduce your " ++ category ++ " budget by " ++ percent.toString
    ++ "% based on your 3-month spending patterns."

/-- The text of the last branch. -/
def alignedText (category : String) : String :=
  "Your " ++ category ++ " budget is well-aligned with your spending habits."

/-- The call `Budget.findByIdAndUpdate` that sets `recommendations` on the
document with the given id. -/
def updateRecommendations (s : Store) (id : ObjectId) (recommendation : String) : Store :=
  { s with
    budgets := List.map
      (fun x => if x._id = id then { x with recommendations := recommendation } else x)
      s.budgets }

/-- The entry that one pass of the loop body of `getBudgetRecommendations`
pushes for a budget. -/
def recommendationFor (now : ℤ) (s : Store) (uid : ObjectId) (budget : Budget) :
    Recommendation :=
  let threeMonthsAgo := threeMonthsBefore now
  let transactions := findExpensesSince s uid budget.category threeMonthsAgo
  let totalSpent := sumAmounts transactions
  let monthlyAverage := JsNum.div totalSpent 3
  let percentOfBudget := JsNum.mul (JsNum.div monthlyAverage (JsNum.fin budget.amount)) 100
  let recommendation :=
    if JsNum.gt percentOfBudget 110 then
      increaseText budget.category (JsMath.ceil (JsNum.sub percentOfBudget 100))
    else if JsNum.lt percentOfBudget 70 then
      reduceText budget.category (JsMath.floor (JsNum.sub 100 percentOfBudget))
    else alignedText budget.category
  { category := budget.category
    recommendation := recommendation
    currentBudget := budget.amount
    averageSpending := monthlyAverage
    percentOfBudget := JsMath.round percentOfBudget }

/-- The `for (let budget of budgets)` loop of `getBudgetRecommendations`,
threading the store and the `recommendations` array. -/
def recommendLoop (now : ℤ) (uid : ObjectId) :
    List Budget → Store → List Recommendation → Store × List Recommendation
  | [], s, recommendations => (s, recommendations)
  | budget :: rest, s, recommendations =>
    let entry := recommendationFor now s uid budget
    recommendLoop now uid rest (updateRecommendations s budget._id entry.recommendation)
      (recommendations ++ [entry])

/-- The handler `getBudgetRecommendations`: the `recommendations` of the
response and the store it leaves. -/
def getBudgetRecommendations (now : ℤ) (s : Store) (uid : ObjectId) :
    List Recommendation × Store :=
  let result := recommendLoop now uid (findBudgets s uid) s []
  (result.2, result.1)

/-! ## `controllers/goalController.js` -/

/-- The function `Math.min` on two rounded values. -/
def JsInt.min : JsInt → JsInt → JsInt
  | .nan, _ => .nan
  | _, .nan => .nan
  | .negInf, _ => .negInf
  | _, .negInf => .negInf
  | .posInf, b => b
  | a, .posInf => a
  | .int a, .int b => .int (Min.min a b)

/-- The virtual `progress` of the Goal schema:
`Math.min(100, Math.round((this.savedAmount / this.targetAmount) * 100))`. -/
def Goal.progress (g : Goal) : JsInt :=
  JsInt.min (.int 100)
    (JsMath.round (JsNum.mul (JsNum.div g.savedAmount (JsNum.fin g.targetAmount)) 100))

/-- An entry of the `allocations` array. -/
structure Allocation where
  goalId : ObjectId
  goalTitle : String
  amount : JsNum
  newProgress : JsInt
  deriving DecidableEq

/-- The body of the successful response of `autoAllocateSavings`. -/
structure AllocationSummary where
  message : String
  totalAllocated : JsNum
  allocations : List Allocation
  deriving DecidableEq

/-- The response of `autoAllocateSavings`: an error status with its message,
the status of the `catch` branch (its message is the one of the error thrown),
or the summary. -/
inductive AllocateResponse where
  | error (status : ℕ) (message : String)
  | thrown (status : ℕ)
  | ok (body : AllocationSummary)
  deriving DecidableEq

/-- The call `goal.save()` after `goal.savedAmount` was assigned: the modified
path is written to the document that carries the goal's id. -/
def saveSavedAmount (s : Store) (id : ObjectId) (savedAmount : JsNum) : Store :=
  { s with
    goals := List.map (fun x => if x._id = id then { x with savedAmount := savedAmount } else x)
      s.goals }

/-- The expression `goal.allocationPercentage || 10`. -/
def allocationPercent (goal : Goal) : ℚ :=
  if goal.allocationPercentage = 0 then 10 else goal.allocationPercentage

/-- The constant `actualAllocation` of the loop body:
`Math.min(allocationAmount, remainingNeeded)`. -/
def actualAllocation (totalIncome : JsNum) (goal : Goal) : JsNum :=
  let allocationAmount :=
    JsNum.mul totalIncome (JsNum.div (JsNum.fin (allocationPercent goal)) 100)
  let remainingNeeded := JsNum.sub (JsNum.fin goal.targetAmount) goal.savedAmount
  JsNum.min allocationAmount remainingNeeded

/-- The value of `goal.savedAmount` after `goal.savedAmount += actualAllocation`. -/
def increasedSavedAmount (totalIncome : JsNum) (goal : Goal) : JsNum :=
  JsNum.add goal.savedAmount (actualAllocation totalIncome goal)

/-- The entry pushed for a goal that receives its `actualAllocation`. -/
def allocationEntry (totalIncome : JsNum) (goal : Goal) : Allocation :=
  { goalId := goal._id
    goalTitle := goal.title
    amount := actualAllocation totalIncome goal
    newProgress :=
      Goal.progress { goal with savedAmount := increasedSavedAmount totalIncome goal } }

/-- The `for (let goal of goals)` loop of `autoAllocateSavings`, threading the
store and the `allocations` array.  A `savedAmount` of `NaN` is not cast to
Number: `goal.save()` rejects, the loop is left for the `catch` branch (`none`)
and the goals saved before stay saved. -/
def allocateLoop (totalIncome : JsNum) :
    List Goal → Store → List Allocation → Store × Option (List Allocation)
  | [], s, allocations => (s, some allocations)
  | goal :: rest, s, allocations =>
    if JsNum.gt (actualAllocation totalIncome goal) 0 then
      if increasedSavedAmount totalIncome goal = JsNum.nan then (s, none)
      else
        allocateLoop totalIncome rest
          (saveSavedAmount s goal._id (increasedSavedAmount totalIncome goal))
          (allocations ++ [allocationEntry totalIncome goal])
    else allocateLoop totalIncome rest s allocations

/-- The query `Goal.find` on user and `autoAllocate: true`, sorted by ascending
priority. -/
def findAutoGoals (s : Store) (uid : ObjectId) : List Goal :=
  (s.goals.filter (fun g => decide (g.user = uid) && g.autoAllocate)).insertionSort
    (fun a b => a.priority ≤ b.priority)

/-- The query `Transaction.find` on user and type "income". -/
def findIncome (s : Store) (uid : ObjectId) : List Transaction :=
  s.transactions.filter (fun t => decide (t.user = uid) && decide (t.type = TxType.income))

/-- The handler `autoAllocateSavings`: the response and the store it leaves. -/
def autoAllocateSavings (s : Store) (uid : ObjectId) : AllocateResponse × Store :=
  let goals := findAutoGoals s uid
  if goals.length = 0 then
    (.error 404 "No goals with auto-allocation enabled", s)
  else
    let totalIncome := sumAmounts (findIncome s uid)
    let result := allocateLoop totalIncome goals s []
    match result.2 with
    | none => (.thrown 500, result.1)
    | some allocations =>
      (.ok
        { message := "Savings automatically allocated to goals."
          totalAllocated := allocations.foldl (fun sum a => JsNum.add sum a.amount) 0
          allocations := allocations },
        result.1)

/-- The store after `n` consecutive calls of `autoAllocateSavings`. -/
def allocateTimes (uid : ObjectId) : ℕ → Store → Store
  | 0, s => s
  | n + 1, s => allocateTimes uid n (autoAllocateSavings s uid).2

/-! ## Goal statistics (`models/Goal.js`, `getGoalStatistics`) -/

/-- The comparison `a < b` on rounded values; false as soon as one side is
`NaN`. -/
def JsInt.lt : JsInt → JsInt → Bool
  | .int a, .int b => decide (a < b)
  | .int _, .posInf => true
  | .negInf, .int _ => true
  | .negInf, .posInf => true
  | _, _ => false

/-- The comparison `a >= b` on rounded values; false as soon as one side is
`NaN`. -/
def JsInt.ge : JsInt → JsInt → Bool
  | .int a, .int b => decide (b ≤ a)
  | .posInf, .int _ => true
  | .int _, .negInf => true
  | .posInf, .posInf => true
  | .negInf, .negInf => true
  | .posInf, .negInf => true
  | _, _ => false

/-- The virtual `daysRemaining` of the Goal schema:
`Math.max(0, Math.ceil(timeDiff / (1000 * 60 * 60 * 24)))` with
`timeDiff = this.deadline - today`. -/
def Goal.daysRemaining (now : ℤ) (g : Goal) : ℤ :=
  let timeDiff := g.deadline - now
  max 0 ⌈(timeDiff : ℚ) / (1000 * 60 * 60 * 24)⌉

/-- The value kept per category in `categoryStats`. -/
structure CategoryStats where
  count : ℕ
  saved : JsNum
  target : JsNum
  deriving DecidableEq

/-- The property key that `goal.category` gives; a goal without category gives
the key "undefined". -/
def categoryKey : Option GoalCategory → String
  | some GoalCategory.Car => "Car"
  | some GoalCategory.Home => "Home"
  | some GoalCategory.Education => "Education"
  | some GoalCategory.Vacation => "Vacation"
  | some GoalCategory.Emergency => "Emergency"
  | some GoalCategory.Retirement => "Retirement"
  | some GoalCategory.Other => "Other"
  | none => "undefined"

/-- The body of the `goals.forEach` callback that fills `categoryStats`. -/
def addToCategoryStats (categoryStats : Dict CategoryStats) (goal : Goal) :
    Dict CategoryStats :=
  let key := categoryKey goal.category
  let categoryStats :=
    if (categoryStats.get? key).isNone then categoryStats.set key ⟨0, 0, 0⟩ else categoryStats
  let entry := (categoryStats.get? key).getD ⟨0, 0, 0⟩
  categoryStats.set key
    { count := entry.count + 1
      saved := JsNum.add entry.saved goal.savedAmount
      target := JsNum.add entry.target (JsNum.fin goal.targetAmount) }

/-- An entry of `upcomingDeadlines`. -/
structure DeadlineEntry where
  id : ObjectId
  title : String
  daysRemaining : ℤ
  progress : JsInt
  deriving DecidableEq

/-- The goals behind `upcomingDeadlines`: those with `progress < 100` and
`daysRemaining > 0`, sorted by ascending deadline, the first five. -/
def upcomingGoals (now : ℤ) (goals : List Goal) : List Goal :=
  ((goals.filter
    (fun g => JsInt.lt g.progress (.int 100) && decide (0 < g.daysRemaining now))).insertionSort
    (fun a b => a.deadline ≤ b.deadline)).take 5

/-- The body of the response of `getGoalStatistics`. -/
structure GoalStatistics where
  overallProgress : JsInt
  totalSaved : JsNum
  totalTarget : JsNum
  totalGoals : ℕ
  completedGoals : ℕ
  categoryDistribution : Dict CategoryStats
  upcomingDeadlines : List DeadlineEntry
  deriving DecidableEq

/-- The statistics computed from the goals found. -/
def goalStatistics (now : ℤ) (goals : List Goal) : GoalStatistics :=
  let totalSaved := goals.foldl (fun sum goal => JsNum.add sum goal.savedAmount) 0
  let totalTarget := goals.foldl (fun sum goal => JsNum.add sum (JsNum.fin goal.targetAmount)) 0
  let overallProgress :=
    if JsNum.gt totalTarget 0 then
      JsMath.round (JsNum.mul (JsNum.div totalSaved totalTarget) 100)
    else JsInt.int 0
  { overallProgress := overallProgress
    totalSaved := totalSaved
    totalTarget := totalTarget
    totalGoals := goals.length
    completedGoals := (goals.filter (fun g => JsInt.ge g.progress (.int 100))).length
    categoryDistribution := goals.foldl addToCategoryStats []
    upcomingDeadlines :=
      (upcomingGoals now goals).map
        (fun g => ⟨g._id, g.title, g.daysRemaining now, g.progress⟩) }

/-- The handler `getGoalStatistics`: the statistics of the caller's goals. -/
def getGoalStatistics (now : ℤ) (s : Store) (uid : ObjectId) : GoalStatistics :=
  goalStatistics now (s.goals.filter (fun g => decide (g.user = uid)))

/-! ## `controllers/reportController.js` -/

/-- The pair of totals kept per month. -/
structure MonthTotals where
  income : JsNum
  expense : JsNum
  deriving DecidableEq

/-- The body of the `forEach` callback that fills a month mapping: create the
month's entry when it is missing, then add the amount on the side of the
transaction's type. -/
def addToMonth (months : Dict MonthTotals) (transaction : Transaction) : Dict MonthTotals :=
  let month := isoMonth transaction.date
  let months :=
    if (months.get? month).isNone then months.set month ⟨0, 0⟩ else months
  let entry := (months.get? month).getD ⟨0, 0⟩
  if transaction.type = TxType.income then
    months.set month
      { entry with income := JsNum.add entry.income (JsNum.fin transaction.amount) }
  else
    months.set month
      { entry with expense := JsNum.add entry.expense (JsNum.fin transaction.amount) }

/-- The query `Transaction.find` on user, sorted by ascending date. -/
def findByDate (s : Store) (uid : ObjectId) : List Transaction :=
  (s.transactions.filter (fun t => decide (t.user = uid))).insertionSort
    (fun a b => a.date ≤ b.date)

/-- The handler `getSpendingTrends`: the `trends` object of the response. -/
def getSpendingTrends (s : Store) (uid : ObjectId) : Dict MonthTotals :=
  (findByDate s uid).foldl addToMonth []

/-- The object `categorySummary`. -/
structure CategorySummary where
  income : Dict Cell
  expense : Dict Cell
  deriving DecidableEq

/-- The variables that the `forEach` of `getVisualizationData` updates. -/
structure VizTotals where
  totalIncome : JsNum
  totalExpenses : JsNum
  categorySummary : CategorySummary
  monthlyData : Dict MonthTotals
  deriving DecidableEq

/-- The body of the `forEach` callback of `getVisualizationData`. -/
def vizStep (acc : VizTotals) (transaction : Transaction) : VizTotals :=
  let acc :=
    if transaction.type = TxType.income then
      { acc with
        totalIncome := JsNum.add acc.totalIncome (JsNum.fin transaction.amount)
        categorySummary :=
          { acc.categorySummary with
            income :=
              addToCategory acc.categorySummary.income transaction.category transaction.amount } }
    else
      { acc with
        totalExpenses := JsNum.add acc.totalExpenses (JsNum.fin transaction.amount)
        categorySummary :=
          { acc.categorySummary with
            expense :=
              addToCategory acc.categorySummary.expense transaction.category transaction.amount } }
  { acc with monthlyData := addToMonth acc.monthlyData transaction }

/-- The body of the response of `getVisualizationData`. -/
structure VizBody where
  totalIncome : JsNum
  totalExpenses : JsNum
  balance : JsNum
  categorySummary : CategorySummary
  monthlyData : Dict MonthTotals
  period : String
  deriving DecidableEq

/-- The totals computed from the transactions found, and the response body
built from them. -/
def visualize (transactions : List Transaction) (period : String) : VizBody :=
  let acc := transactions.foldl vizStep ⟨0, 0, ⟨[], []⟩, []⟩
  { totalIncome := acc.totalIncome
    totalExpenses := acc.totalExpenses
    balance := JsNum.sub acc.totalIncome acc.totalExpenses
    categorySummary := acc.categorySummary
    monthlyData := acc.monthlyData
    period := period }

/-- The query parameters read by `getVisualizationData`; `none` stands for a
parameter that is absent. -/
structure VizQuery where
  period : Option String
  startDate : Option String
  endDate : Option String
  deriving DecidableEq

/-- Truthiness of a query parameter: present and not the empty string. -/
def truthy (value : Option String) : Bool :=
  match value with
  | none => false
  | some v => decide (v ≠ "")

/-- The `date` entry of `filters`: `none` when no date filter is set, otherwise
the two bounds, each `none` for an Invalid Date.  The constructor
`new Date(string)` is the parameter `parseDate`. -/
def vizDateFilter (parseDate : String → Option ℤ) (now : ℤ) (q : VizQuery) :
    Option (Option ℤ × Option ℤ) :=
  if truthy q.startDate && truthy q.endDate then
    some (parseDate (q.startDate.getD ""), parseDate (q.endDate.getD ""))
  else if q.period = some "month" then
    let ymd := civilFromDays (now / msPerDay)
    some (some (dateOfYMD ymd.1 (ymd.2.1 - 1) 1), some (dateOfYMD ymd.1 (ymd.2.1 - 1 + 1) 0))
  else if q.period = some "year" then
    let ymd := civilFromDays (now / msPerDay)
    some (some (dateOfYMD ymd.1 0 1), some (dateOfYMD ymd.1 11 31))
  else none

/-- The label `period || (startDate && endDate ? "custom" : "all")`. -/
def vizPeriodLabel (q : VizQuery) : String :=
  if truthy q.period then q.period.getD ""
  else if truthy q.startDate && truthy q.endDate then "custom" else "all"

/-- The query `Transaction.find(filters)` sorted by ascending date; `none` when
a bound of the date filter is an Invalid Date, which the query rejects. -/
def vizFind (parseDate : String → Option ℤ) (now : ℤ) (s : Store) (uid : ObjectId)
    (q : VizQuery) : Option (List Transaction) :=
  match vizDateFilter parseDate now q with
  | none => some (findByDate s uid)
  | some (some lo, some hi) =>
    some ((s.transactions.filter
      (fun t => decide (t.user = uid) && decide (lo ≤ t.date) && decide (t.date ≤ hi))).insertionSort
      (fun a b => a.date ≤ b.date))
  | some _ => none

/-- The response of `getVisualizationData`: the body, or status 500 when the
query throws. -/
inductive VizResponse where
  | error (status : ℕ)
  | ok (body : VizBody)
  deriving DecidableEq

/-- The handler `getVisualizationData`. -/
def getVisualizationData (parseDate : String → Option ℤ) (now : ℤ) (s : Store)
    (uid : ObjectId) (q : VizQuery) : VizResponse :=
  match vizFind parseDate now s uid q with
  | none => .error 500
  | some transactions => .ok (visualize transactions (vizPeriodLabel q))

/-! ## `controllers/dashboardController.js` -/

/-- The test that the stage `$match` makes for `user: userId`, where `userId`
is the string `req.user.id`: `Model.aggregate` does not cast a pipeline to the
schema, and the ObjectId stored in `user` is never equal to a string. -/
def matchesUncast (_stored _userId : ObjectId) : Bool := false

/-- The pipeline `$match` on user and type, then `$group` on `_id: null` with
a `total` that sums `amount`: no group when nothing matches, otherwise one. -/
def aggregateTotal (s : Store) (userId : ObjectId) (type : TxType) : List JsNum :=
  let matched :=
    s.transactions.filter (fun t => matchesUncast t.user userId && decide (t.type = type))
  if matched.isEmpty then [] else [jsSum (matched.map Transaction.amount)]

/-- The body of the response of `getUserDashboard`. -/
structure DashboardBody where
  totalIncome : JsNum
  totalExpense : JsNum
  balance : JsNum
  budgets : List Budget
  goals : List Goal
  deriving DecidableEq

/-- The handler `getUserDashboard`; the two calls of `find` cast `userId` to an
ObjectId. -/
def getUserDashboard (s : Store) (uid : ObjectId) : DashboardBody :=
  let incomeAggregate := aggregateTotal s uid TxType.income
  let expenseAggregate := aggregateTotal s uid TxType.expense
  let totalIncome := if 0 < incomeAggregate.length then incomeAggregate.headD 0 else 0
  let totalExpense := if 0 < expenseAggregate.length then expenseAggregate.headD 0 else 0
  { totalIncome := totalIncome
    totalExpense := totalExpense
    balance := JsNum.sub totalIncome totalExpense
    budgets := findBudgets s uid
    goals := s.goals.filter (fun g => decide (g.user = uid)) }

/-! ## `controllers/notificationController.js` and the recurring notifications -/

/-- The value of a character as a digit in the given radix. -/
def digitValue (radix : ℕ) (c : Char) : Option ℕ :=
  let v :=
    if c.isDigit then c.toNat - 48
    else if c.isLower then c.toNat - 87
    else if c.isUpper then c.toNat - 55
    else radix
  if v < radix then some v else none

/-- The longest run of digits at the head of a list of characters, read in the
given radix; `none` when there is no digit. -/
def readDigits (radix : ℕ) (chars : List Char) : Option ℕ :=
  match chars.takeWhile (fun c => (digitValue radix c).isSome) with
  | [] => none
  | digits => some (digits.foldl (fun n c => radix * n + (digitValue radix c).getD 0) 0)

/-- The white space that `parseInt` skips: the code points of the productions
WhiteSpace and LineTerminator. -/
def isJsWhiteSpace (c : Char) : Bool :=
  decide (c.toNat ∈ [9, 10, 11, 12, 13, 32, 160, 5760, 8232, 8233, 8239, 8287, 12288, 65279])
    || (decide (8192 ≤ c.toNat) && decide (c.toNat ≤ 8202))

/-- The integral Number nearest to an integer. -/
def JsInt.ofInt (z : ℤ) : JsInt :=
  match toDouble z with
  | .fin q => .int ⌊q⌋
  | .posInf => .posInf
  | .negInf => .negInf
  | .nan => .nan

/-- The function `parseInt(text)`: leading white space, a sign, an optional
`0x` and the longest run of digits, rounded to a Number; without a digit,
`NaN`. -/
def parseInt (text : String) : JsInt :=
  let chars := text.toList.dropWhile isJsWhiteSpace
  let negative := chars.head? = some (Char.ofNat 45)
  let chars :=
    if chars.head? = some (Char.ofNat 45) ∨ chars.head? = some (Char.ofNat 43) then chars.tail
    else chars
  let magnitude :=
    if chars.take 2 = "0x".toList ∨ chars.take 2 = "0X".toList then readDigits 16 (chars.drop 2)
    else readDigits 10 chars
  match magnitude with
  | none => .nan
  | some n => JsInt.ofInt (if negative then - (n : ℤ) else (n : ℤ))

/-- The abstract operation `TimeClip`: a time value outside the range of Date
gives an Invalid Date, here `none`. -/
def timeClip (t : ℤ) : Option ℤ :=
  if |t| ≤ 8640000000000000 then some t else none

/-- The statements `d = new Date(today); d.setDate(d.getDate() + days)`: the
same time of day that many days later; `none` for an Invalid Date, which is
also what a `days` that is not finite gives. -/
def daysAfter (today : ℤ) (days : JsInt) : Option ℤ :=
  match days with
  | .int n => timeClip (today + n * msPerDay)
  | _ => none

/-- The three-letter name of a week day, 0 standing for Sunday. -/
def weekDayName (weekDay : ℤ) : String :=
  ["Sun", "Mon", "Tue", "Wed", "Thu", "Fri", "Sat"].getD weekDay.toNat ""

/-- The three-letter name of a month, 1 standing for January. -/
def monthName (month : ℤ) : String :=
  ["Jan", "Feb", "Mar", "Apr", "May", "Jun", "Jul", "Aug", "Sep", "Oct", "Nov",
    "Dec"].getD (month.toNat - 1) ""

/-- The method `date.toDateString()`, as in "Thu Jan 01 1970". -/
def toDateString (date : ℤ) : String :=
  let day := date / msPerDay
  let ymd := civilFromDays day
  weekDayName ((day + 4) % 7) ++ " " ++ monthName ymd.2.1 ++ " " ++ padZero 2 ymd.2.2.toNat
    ++ " " ++ (if ymd.1 < 0 then "-" else "") ++ padZero 4 ymd.1.natAbs

/-- A response: an error status, or the body. -/
inductive Reply (α : Type) where
  | error (status : ℕ)
  | ok (body : α)
  deriving DecidableEq

/-- The handler `checkSpendingPatterns`: the object `spending` after the
`forEach` over the caller's transactions. -/
def spendingByCategory (s : Store) (uid : ObjectId) : Dict Cell :=
  (s.transactions.filter (fun t => decide (t.user = uid))).foldl
    (fun spending transaction =>
      if transaction.type = TxType.expense then
        addToCategory spending transaction.category transaction.amount
      else spending)
    []

/-- The fixed threshold of `checkSpendingPatterns`. -/
def THRESHOLD : JsNum := 500

/-- The alert that the callback over `Object.keys(spending)` pushes for a
category, if it pushes one: `spending[category] > THRESHOLD` holds of a Number
above the threshold and of no text, since a text here starts with `function`
or with `[object` and compares as `NaN`. -/
def spendingAlert (spending : Dict Cell) (category : String) : Option String :=
  match spending.get? category with
  | some (.number total) =>
    if JsNum.gt total THRESHOLD then
      some ("High spending detected in " ++ category ++ ": $" ++ total.toString)
    else none
  | _ => none

/-- The handler `checkSpendingPatterns`: the `alerts` of the response. -/
def checkSpendingPatterns (s : Store) (uid : ObjectId) : List String :=
  (objectKeys (spendingByCategory s uid)).filterMap (spendingAlert (spendingByCategory s uid))

/-- An entry of a `reminders` array. -/
structure Reminder where
  date : String
  message : String
  deriving DecidableEq

/-- The horizon of `upcomingBillReminders` and of `upcomingGoalReminders`:
`value ? parseInt(value) : fallback`. -/
def horizonOr (value : Option String) (fallback : ℤ) : JsInt :=
  if truthy value then parseInt (value.getD "") else .int fallback

/-- The handler `upcomingBillReminders`; the query that carries an Invalid
Date is rejected and answered with status 500. -/
def upcomingBillReminders (now : ℤ) (s : Store) (uid : ObjectId)
    (daysAhead : Option String) : Reply (List Reminder) :=
  let today := now
  match daysAfter today (horizonOr daysAhead 7) with
  | none => .error 500
  | some nextDate =>
    let bills := s.transactions.filter
      (fun t => decide (t.user = uid) && t.isRecurring
        && decide (today ≤ t.date) && decide (t.date ≤ nextDate))
    .ok (bills.map (fun bill =>
      { date := toDateString bill.date
        message := "Upcoming bill: " ++ bill.category ++ " - $" ++ numberToString bill.amount }))

/-- The constant `progress` of `upcomingGoalReminders`:
`(goal.savedAmount / goal.targetAmount) * 100`. -/
def reminderProgress (goal : Goal) : JsNum :=
  JsNum.mul (JsNum.div goal.savedAmount (JsNum.fin goal.targetAmount)) 100

/-- The handler `upcomingGoalReminders`. -/
def upcomingGoalReminders (now : ℤ) (s : Store) (uid : ObjectId)
    (threshold : Option String) : Reply (List Reminder) :=
  let today := now
  match daysAfter today (horizonOr threshold 30) with
  | none => .error 500
  | some thresholdDate =>
    let goals := s.goals.filter
      (fun g => decide (g.user = uid) && decide (today ≤ g.deadline)
        && decide (g.deadline ≤ thresholdDate))
    .ok (goals.map (fun goal =>
      { date := toDateString goal.deadline
        message := "Goal \"" ++ goal.title ++ "\": $" ++ goal.savedAmount.toString
          ++ " of $" ++ numberToString goal.targetAmount
          ++ " (" ++ (reminderProgress goal).toFixed0 ++ "%)" }))

/-- The body of the response of `getRecurringTransactionNotifications`. -/
structure RecurringNotifications where
  upcoming : List Transaction
  missed : List Transaction
  message : String
  deriving DecidableEq

/-- The expression `parseInt(req.query.upcomingDays) || 7`: 7 for a parameter
that is absent, not a number, or 0. -/
def upcomingDaysThreshold (upcomingDays : Option String) : JsInt :=
  match upcomingDays with
  | none => .int 7
  | some text =>
    match parseInt text with
    | .nan => .int 7
    | .int n => if n = 0 then .int 7 else .int n
    | days => days

/-- The filter `recurrenceEndDate: $gte today`: a document without end date
(`null`) does not match a comparison with a Date. -/
def endsOnOrAfter (recurrenceEndDate : Option ℤ) (today : ℤ) : Bool :=
  match recurrenceEndDate with
  | none => false
  | some endDate => decide (today ≤ endDate)

/-- The handler `getRecurringTransactionNotifications`. -/
def getRecurringTransactionNotifications (now : ℤ) (s : Store) (uid : ObjectId)
    (upcomingDays : Option String) : Reply RecurringNotifications :=
  let today := now
  match daysAfter today (upcomingDaysThreshold upcomingDays) with
  | none => .error 500
  | some upcomingDate =>
    let upcomingTransactions :=
      (s.transactions.filter
        (fun t => decide (t.user = uid) && t.isRecurring
          && decide (today ≤ t.date) && decide (t.date ≤ upcomingDate))).insertionSort
        (fun a b => a.date ≤ b.date)
    let missedTransactions :=
      (s.transactions.filter
        (fun t => decide (t.user = uid) && t.isRecurring
          && decide (t.date < today) && endsOnOrAfter t.recurrenceEndDate today)).insertionSort
        (fun a b => a.date ≤ b.date)
    .ok
      { upcoming := upcomingTransactions
        missed := missedTransactions
        message := "Found " ++ toString upcomingTransactions.length ++ " upcoming and "
          ++ toString missedTransactions.length ++ " missed recurring transactions" }

/-! ## Create, update and delete (`transactionController.js`, `budgetController.js`, `goalController.js`) -/

/-- A response of a handler: a status with a `message` body, the status of the
`catch` branch (its message is the one of the error thrown), or a status with a
document as body. -/
inductive Response (α : Type) where
  | message (status : ℕ) (message : String)
  | thrown (status : ℕ)
  | json (status : ℕ) (body : α)
  deriving DecidableEq

/-- The call `Model.findById(id)` on an id that was cast: the first document
with the id.  The cast of the route parameter to an ObjectId is the parameter
`castObjectId` of the handlers; for a string that is no ObjectId it throws a
CastError, which the `catch` branch answers with status 500. -/
def findById {α : Type} (getId : α → ObjectId) (documents : List α) (id : ObjectId) :
    Option α :=
  documents.find? (fun x => decide (getId x = id))

/-- The write of `Model.findByIdAndUpdate(id, update)`: the first document with
the id is replaced by its updated version. -/
def replaceById {α : Type} (getId : α → ObjectId) (id : ObjectId) (updated : α) :
    List α → List α
  | [] => []
  | x :: rest =>
    if getId x = id then updated :: rest else x :: replaceById getId id updated rest

/-- The call `Model.deleteOne` on an id: the first document with the id is
removed. -/
def deleteById {α : Type} (getId : α → ObjectId) (id : ObjectId) : List α → List α
  | [] => []
  | x :: rest => if getId x = id then rest else x :: deleteById getId id rest

/-- The fields of a request body that an update of a Transaction sets; `none`
for a field that the body does not carry. -/
structure TransactionPatch where
  user : Option ObjectId
  type : Option TxType
  amount : Option ℚ
  category : Option String
  description : Option (Option String)
  date : Option ℤ
  tags : Option (List String)
  isRecurring : Option Bool
  recurrencePattern : Option (Option Recurrence)
  recurrenceEndDate : Option (Option ℤ)
  deriving DecidableEq

/-- The document after the fields of the body are set. -/
def TransactionPatch.apply (body : TransactionPatch) (t : Transaction) : Transaction :=
  { _id := t._id
    user := body.user.getD t.user
    type := body.type.getD t.type
    amount := body.amount.getD t.amount
    category := body.category.getD t.category
    description := body.description.getD t.description
    date := body.date.getD t.date
    tags := body.tags.getD t.tags
    isRecurring := body.isRecurring.getD t.isRecurring
    recurrencePattern := body.recurrencePattern.getD t.recurrencePattern
    recurrenceEndDate := body.recurrenceEndDate.getD t.recurrenceEndDate }

/-- The handler `updateTransaction`: the response and the store it leaves. -/
def updateTransaction (castObjectId : String → Option ObjectId) (s : Store) (caller : ObjectId)
    (id : String) (body : TransactionPatch) : Response Transaction × Store :=
  match castObjectId id with
  | none => (.thrown 500, s)
  | some oid =>
    match findById Transaction._id s.transactions oid with
    | none => (.message 404 "Transaction not found", s)
    | some transaction =>
      if transaction.user ≠ caller then (.message 401 "Not authorized", s)
      else
        let updatedTransaction := body.apply transaction
        (.json 200 updatedTransaction,
          { s with
            transactions := replaceById Transaction._id oid updatedTransaction s.transactions })

/-- The handler `deleteTransaction`: the response and the store it leaves. -/
def deleteTransaction (castObjectId : String → Option ObjectId) (s : Store) (caller : ObjectId)
    (id : String) : Response Transaction × Store :=
  match castObjectId id with
  | none => (.thrown 500, s)
  | some oid =>
    match findById Transaction._id s.transactions oid with
    | none => (.message 404 "Transaction not found", s)
    | some transaction =>
      if transaction.user ≠ caller then (.message 401 "Not authorized", s)
      else
        (.message 200 "Transaction removed",
          { s with transactions := deleteById Transaction._id oid s.transactions })

/-- The fields of a request body that an update of a Budget sets. -/
structure BudgetPatch where
  user : Option ObjectId
  category : Option String
  amount : Option ℚ
  period : Option Period
  spent : Option ℚ
  alertThreshold : Option ℚ
  recommendations : Option String
  deriving DecidableEq

/-- The document after the fields of the body are set. -/
def BudgetPatch.apply (body : BudgetPatch) (b : Budget) : Budget :=
  { _id := b._id
    user := body.user.getD b.user
    category := body.category.getD b.category
    amount := body.amount.getD b.amount
    period := body.period.getD b.period
    spent := body.spent.getD b.spent
    alertThreshold := body.alertThreshold.getD b.alertThreshold
    recommendations := body.recommendations.getD b.recommendations }

/-- The handler `updateBudget`: the response and the store it leaves. -/
def updateBudget (castObjectId : String → Option ObjectId) (s : Store) (caller : ObjectId)
    (id : String) (body : BudgetPatch) : Response Budget × Store :=
  match castObjectId id with
  | none => (.thrown 500, s)
  | some oid =>
    match findById Budget._id s.budgets oid with
    | none => (.message 404 "Budget not found", s)
    | some budget =>
      if budget.user ≠ caller then (.message 401 "Not authorized", s)
      else
        let updatedBudget := body.apply budget
        (.json 200 updatedBudget,
          { s with budgets := replaceById Budget._id oid updatedBudget s.budgets })

/-- The handler `deleteBudget`: the response and the store it leaves. -/
def deleteBudget (castObjectId : String → Option ObjectId) (s : Store) (caller : ObjectId)
    (id : String) : Response Budget × Store :=
  match castObjectId id with
  | none => (.thrown 500, s)
  | some oid =>
    match findById Budget._id s.budgets oid with
    | none => (.message 404 "Budget not found", s)
    | some budget =>
      if budget.user ≠ caller then (.message 401 "Not authorized", s)
      else (.message 200 "Budget removed", { s with budgets := deleteById Budget._id oid s.budgets })

/-- The fields of a request body that an update of a Goal sets. -/
structure GoalPatch where
  user : Option ObjectId
  title : Option String
  targetAmount : Option ℚ
  savedAmount : Option ℚ
  deadline : Option ℤ
  autoAllocate : Option Bool
  allocationPercentage : Option ℚ
  category : Option (Option GoalCategory)
  priority : Option ℚ
  deriving DecidableEq

/-- The document after the fields of the body are set. -/
def GoalPatch.apply (body : GoalPatch) (g : Goal) : Goal :=
  { _id := g._id
    user := body.user.getD g.user
    title := body.title.getD g.title
    targetAmount := body.targetAmount.getD g.targetAmount
    savedAmount := (body.savedAmount.map JsNum.fin).getD g.savedAmount
    deadline := body.deadline.getD g.deadline
    autoAllocate := body.autoAllocate.getD g.autoAllocate
    allocationPercentage := body.allocationPercentage.getD g.allocationPercentage
    category := body.category.getD g.category
    priority := body.priority.getD g.priority }

/-- The handler `updateGoal`: the response and the store it leaves. -/
def updateGoal (castObjectId : String → Option ObjectId) (s : Store) (caller : ObjectId)
    (id : String) (body : GoalPatch) : Response Goal × Store :=
  match castObjectId id with
  | none => (.thrown 500, s)
  | some oid =>
    match findById Goal._id s.goals oid with
    | none => (.message 404 "Goal not found", s)
    | some goal =>
      if goal.user ≠ caller then (.message 401 "Not authorized", s)
      else
        let updatedGoal := body.apply goal
        (.json 200 updatedGoal, { s with goals := replaceById Goal._id oid updatedGoal s.goals })

/-- The handler `deleteGoal`: the response and the store it leaves. -/
def deleteGoal (castObjectId : String → Option ObjectId) (s : Store) (caller : ObjectId)
    (id : String) : Response Goal × Store :=
  match castObjectId id with
  | none => (.thrown 500, s)
  | some oid =>
    match findById Goal._id s.goals oid with
    | none => (.message 404 "Goal not found", s)
    | some goal =>
      if goal.user ≠ caller then (.message 401 "Not authorized", s)
      else (.message 200 "Goal removed", { s with goals := deleteById Goal._id oid s.goals })

/-- The body of a create request for a Transaction, as JSON values: `none` for
a field that the body does not carry.  The handler does not read `date`. -/
structure TransactionBody where
  type : Option String
  amount : Option ℚ
  category : Option String
  description : Option String
  date : Option ℤ
  tags : Option (List String)
  isRecurring : Option Bool
  recurrencePattern : Option String
  recurrenceEndDate : Option ℤ
  deriving DecidableEq

/-- The enum validator of `Transaction.type`; `none` when validation fails. -/
def validateType (type : String) : Option TxType :=
  if type = "income" then some TxType.income
  else if type = "expense" then some TxType.expense
  else none

/-- The enum validator of `Transaction.recurrencePattern`, whose default is
`null`; the outer `none` when validation fails. -/
def validatePattern (pattern : Option String) : Option (Option Recurrence) :=
  match pattern with
  | none => some none
  | some p =>
    if p = "daily" then some (some Recurrence.daily)
    else if p = "weekly" then some (some Recurrence.weekly)
    else if p = "monthly" then some (some Recurrence.monthly)
    else none

/-- The handler `addTransaction`: the response and the store it leaves.  The id
that the store assigns is `newId`, and `now` is the default of `date`. -/
def addTransaction (newId : ObjectId) (now : ℤ) (s : Store) (caller : ObjectId)
    (body : TransactionBody) : Response Transaction × Store :=
  if !truthy body.type || (body.amount = none || body.amount = some 0) || !truthy body.category
  then
    (.message 400 "Please provide all required fields", s)
  else
    match validateType (body.type.getD ""), validatePattern body.recurrencePattern with
    | some type, some recurrencePattern =>
      let transaction : Transaction :=
        { _id := newId
          user := caller
          type := type
          amount := body.amount.getD 0
          category := body.category.getD ""
          description := body.description
          date := now
          tags := body.tags.getD []
          isRecurring := body.isRecurring.getD false
          recurrencePattern := recurrencePattern
          recurrenceEndDate := body.recurrenceEndDate }
      (.json 201 transaction, { s with transactions := s.transactions ++ [transaction] })
    | _, _ => (.thrown 500, s)

/-! ## `getFilteredReport` (`controllers/reportController.js`) -/

/-- The query parameters read by `getFilteredReport`; `none` stands for a
parameter that is absent. -/
structure ReportQuery where
  startDate : Option String
  endDate : Option String
  category : Option String
  tags : Option String
  type : Option String
  minAmount : Option String
  maxAmount : Option String
  deriving DecidableEq

/-- The string stored for a transaction type. -/
def typeName : TxType → String
  | TxType.income => "income"
  | TxType.expense => "expense"

/-- The entry `filters.date`, set when `startDate && endDate`: the condition on
a transaction, or `none` when a bound is an Invalid Date.  The constructor
`new Date(string)` is the parameter `parseDate`. -/
def reportDateFilter (parseDate : String → Option ℤ) (q : ReportQuery) :
    Option (Transaction → Bool) :=
  if truthy q.startDate && truthy q.endDate then
    match parseDate (q.startDate.getD ""), parseDate (q.endDate.getD "") with
    | some lo, some hi => some (fun t => decide (lo ≤ t.date) && decide (t.date ≤ hi))
    | _, _ => none
  else some (fun _ => true)

/-- One bound of the entry `filters.amount`, set when the parameter is truthy:
the bound, `none` without bound, or the outer `none` when `Number(value)` is
`NaN`.  The function `Number` is the parameter `toNumber`. -/
def amountBound (toNumber : String → Option ℚ) (value : Option String) : Option (Option ℚ) :=
  if truthy value then
    match toNumber (value.getD "") with
    | some v => some (some v)
    | none => none
  else some none

/-- The entries `filters.category`, `filters.tags` and `filters.type`. -/
def reportTextFilter (q : ReportQuery) (t : Transaction) : Bool :=
  (if truthy q.category then decide (t.category = q.category.getD "") else true)
  && (if truthy q.tags then ((q.tags.getD "").splitOn ",").any (fun tag => decide (tag ∈ t.tags))
      else true)
  && (if truthy q.type then decide (typeName t.type = q.type.getD "") else true)

/-- The condition `amount: $gte bound`, when the bound is set. -/
def atLeast (bound : Option ℚ) (amount : ℚ) : Bool :=
  match bound with
  | some v => decide (v ≤ amount)
  | none => true

/-- The condition `amount: $lte bound`, when the bound is set. -/
def atMost (bound : Option ℚ) (amount : ℚ) : Bool :=
  match bound with
  | some v => decide (amount ≤ v)
  | none => true

/-- The handler `getFilteredReport`; a query that carries an Invalid Date or a
`NaN` bound is rejected and answered with status 500. -/
def getFilteredReport (parseDate : String → Option ℤ) (toNumber : String → Option ℚ)
    (s : Store) (uid : ObjectId) (q : ReportQuery) : Reply (List Transaction) :=
  match reportDateFilter parseDate q, amountBound toNumber q.minAmount,
    amountBound toNumber q.maxAmount with
  | some inRange, some lower, some upper =>
    .ok ((s.transactions.filter
      (fun t => decide (t.user = uid) && inRange t && reportTextFilter q t
        && atLeast lower t.amount && atMost upper t.amount)).insertionSort
      (fun a b => b.date ≤ a.date))
  | _, _, _ => .error 500

/-! ## Auxiliary notions used in the statements -/

/-- The string stored for a recurrence pattern. -/
def recurrenceName : Recurrence → String
  | Recurrence.daily => "daily"
  | Recurrence.weekly => "weekly"
  | Recurrence.monthly => "monthly"

/-- The filters of a report query that are in force, as conditions on a
transaction: the date range when both `startDate` and `endDate` are supplied,
the category, one of the comma-separated tags, the type, and each amount bound
that is supplied. -/
def satisfiesReportQuery (parseDate : String → Option ℤ) (toNumber : String → Option ℚ)
    (q : ReportQuery) (t : Transaction) : Prop :=
  (∀ lo hi, truthy q.startDate = true → truthy q.endDate = true →
      parseDate (q.startDate.getD "") = some lo → parseDate (q.endDate.getD "") = some hi →
      lo ≤ t.date ∧ t.date ≤ hi)
  ∧ (∀ c, q.category = some c → c ≠ "" → t.category = c)
  ∧ (∀ tags, q.tags = some tags → tags ≠ "" → ∃ tag ∈ tags.splitOn ",", tag ∈ t.tags)
  ∧ (∀ ty, q.type = some ty → ty ≠ "" → typeName t.type = ty)
  ∧ (∀ v, truthy q.minAmount = true → toNumber (q.minAmount.getD "") = some v → v ≤ t.amount)
  ∧ (∀ v, truthy q.maxAmount = true → toNumber (q.maxAmount.getD "") = some v → t.amount ≤ v)

/-- The value of a finite Number; 0 stands for the other Numbers. -/
def JsNum.value : JsNum → ℚ
  | .fin q => q
  | _ => 0

/-- The value of a cell that holds a finite Number; 0 stands for the others. -/
def Cell.value : Cell → ℚ
  | .number v => v.value
  | .text _ => 0

/-- A Number that is a natural number below `2 ^ 53`, the range in which the
sum of two natural numbers is computed without rounding. -/
def JsNum.isWhole (v : JsNum) : Prop := ∃ n : ℕ, v = JsNum.fin n

/-- A cell that holds a natural number. -/
def Cell.isWhole (c : Cell) : Prop := ∃ n : ℕ, c = Cell.number (JsNum.fin n)

/-- The Number `(totalSpent / budget.amount) * 100` of a budget, with
`totalSpent` the caller's expenses in the budget's category added up in stored
order: each operation is one on doubles. -/
def spentPercent (s : Store) (uid : ObjectId) (budget : Budget) : JsNum :=
  JsNum.mul
    (JsNum.div (jsSum ((findExpenses s uid budget.category).map Transaction.amount))
      (JsNum.fin budget.amount))
    100

/-- Whether the allocation loop allocates to a goal: `actualAllocation > 0`. -/
def receives (totalIncome : JsNum) (goal : Goal) : Bool :=
  JsNum.gt (actualAllocation totalIncome goal) 0

/-- The goals that the allocation loop passes before a save is rejected: all of
them when none is. -/
def processed (totalIncome : JsNum) : List Goal → List Goal
  | [] => []
  | goal :: rest =>
    if receives totalIncome goal = true ∧ increasedSavedAmount totalIncome goal = JsNum.nan then []
    else goal :: processed totalIncome rest

/-- What one pass of the allocation loop for `goal` does to a stored document
`x`: the new `savedAmount` is written when the allocation is positive and the
ids agree. -/
def writeBack (totalIncome : JsNum) (x goal : Goal) : Goal :=
  if receives totalIncome goal = true ∧ goal._id = x._id then
    { x with savedAmount := increasedSavedAmount totalIncome goal }
  else x

/-- A stored goal after one call for user `uid` with the given income total,
when no save is rejected. -/
def afterCall (totalIncome : JsNum) (uid : ObjectId) (goal : Goal) : Goal :=
  if goal.user = uid ∧ goal.autoAllocate = true ∧ receives totalIncome goal = true then
    { goal with savedAmount := increasedSavedAmount totalIncome goal }
  else goal

/-- A `savedAmount` that is finite or `Infinity`: adding a positive allocation
to it never gives `NaN`. -/
def storable : JsNum → Bool
  | .fin _ => true
  | .posInf => true
  | _ => false

/-- The `allocations` array of a response; an error response has none. -/
def AllocateResponse.allocations : AllocateResponse → List Allocation
  | .ok body => body.allocations
  | _ => []

/-- A goal with the priority that `newPriority` gives to its id. -/
def withPriority (newPriority : ObjectId → ℚ) (g : Goal) : Goal :=
  { g with priority := newPriority g._id }

/-- The store with every goal given another priority. -/
def reprioritise (newPriority : ObjectId → ℚ) (s : Store) : Store :=
  { s with goals := List.map (withPriority newPriority) s.goals }

/-- The `totalAllocated` of a response; an error response carries none. -/
def AllocateResponse.totalAllocated : AllocateResponse → JsNum
  | .ok body => body.totalAllocated
  | _ => 0

/-- The capped allocation of a goal written with the operations on Numbers:
`Math.min(totalIncome * (p / 100), targetAmount - savedAmount)`, where `p` is
the goal's allocationPercentage, or 10 when that is 0. -/
def cappedAllocation (totalIncome : JsNum) (goal : Goal) : JsNum :=
  JsNum.min
    (JsNum.mul totalIncome
      (JsNum.div
        (JsNum.fin (if goal.allocationPercentage = 0 then 10 else goal.allocationPercentage)) 100))
    (JsNum.sub (JsNum.fin goal.targetAmount) goal.savedAmount)


/-- A goal whose amounts are whole numbers below `2 ^ 53`: `savedAmount` is
`s0` and `targetAmount` is `T`, and the Number `totalIncome * (p / 100)` that
one call computes for it is the whole number `a`. -/
def wholeGoal (totalIncome : JsNum) (g : Goal) (s0 T a : ℕ) : Prop :=
  g.savedAmount = JsNum.fin s0 ∧ g.targetAmount = T ∧ (s0 : ℚ) < 2 ^ 53 ∧ (T : ℚ) < 2 ^ 53
    ∧ JsNum.mul totalIncome (JsNum.div (JsNum.fin (allocationPercent g)) 100) = JsNum.fin a
/-- The amounts of the transactions of one type, added up in the order of the
list. -/
def totalOf (type : TxType) (transactions : List Transaction) : JsNum :=
  jsSum ((transactions.filter (fun t => decide (t.type = type))).map Transaction.amount)

/-- The amounts of the transactions of one type dated in the month with the
given key, added up in the order of the list. -/
def monthTotal (type : TxType) (month : String) (transactions : List Transaction) : JsNum :=
  jsSum ((transactions.filter
    (fun t => decide (isoMonth t.date = month) && decide (t.type = type))).map
    Transaction.amount)

/-- The exact sum of the amounts of the transactions of one type. -/
def exactTotal (type : TxType) (transactions : List Transaction) : ℚ :=
  ((transactions.filter (fun t => decide (t.type = type))).map Transaction.amount).sum

/-- The Number `monthlyAverage` that `getBudgetRecommendations` computes for a
budget: the amounts of the expenses found, added up, divided by 3. -/
def monthlyAverage (now : ℤ) (s : Store) (uid : ObjectId) (budget : Budget) : JsNum :=
  JsNum.div (sumAmounts (findExpensesSince s uid budget.category (threeMonthsBefore now))) 3

/-- The Number `percentOfBudget` that `getBudgetRecommendations` computes for a
budget: `(monthlyAverage / budget.amount) * 100`. -/
def percentOfBudget (now : ℤ) (s : Store) (uid : ObjectId) (budget : Budget) : JsNum :=
  JsNum.mul (JsNum.div (monthlyAverage now s uid budget) (JsNum.fin budget.amount)) 100

/-! ## Sample data -/

/-- A transaction of user 7 with the fields the controllers read. -/
def sampleTx (id : ObjectId) (type : TxType) (amount : ℚ) (category : String) (date : ℤ) :
    Transaction :=
  { _id := id, user := 7, type := type, amount := amount, category := category,
    description := none, date := date, tags := [], isRecurring := false,
    recurrencePattern := none, recurrenceEndDate := none }

/-- The Dining budget of the integration test: amount 175, threshold 80. -/
def diningBudget : Budget :=
  { _id := 1, user := 7, category := "Dining", amount := 175, period := Period.monthly,
    spent := 0, alertThreshold := 80, recommendations := "" }

/-- A later budget that is further over its threshold than the Dining one. -/
def travelBudget : Budget :=
  { _id := 2, user := 7, category := "Travel", amount := 100, period := Period.monthly,
    spent := 0, alertThreshold := 50, recommendations := "" }

/-- Expenses of 150 on Dining and 200 on Travel, with both budgets. -/
def diningStore : Store :=
  { transactions :=
      [sampleTx 1 TxType.expense 100 "Dining" 0, sampleTx 2 TxType.expense 50 "Dining" 0,
        sampleTx 3 TxType.expense 200 "Travel" 0]
    budgets := [diningBudget, travelBudget]
    goals := [] }

/-- The Entertainment budget of the integration test: amount 500, threshold 80. -/
def entertainmentBudget : Budget :=
  { _id := 3, user := 7, category := "Entertainment", amount := 500, period := Period.monthly,
    spent := 0, alertThreshold := 80, recommendations := "" }

/-- The Dining expenses with only the Entertainment budget. -/
def entertainmentStore : Store :=
  { transactions :=
      [sampleTx 1 TxType.expense 100 "Dining" 0, sampleTx 2 TxType.expense 50 "Dining" 0]
    budgets := [entertainmentBudget]
    goals := [] }

/-- A goal of user 7 with target 10000, nothing saved, 10 percent, priority 2. -/
def carGoal : Goal :=
  { _id := 1, user := 7, title := "Car", targetAmount := 10000, savedAmount := 0, deadline := 0,
    autoAllocate := true, allocationPercentage := 10, category := some GoalCategory.Car,
    priority := 2 }

/-- A goal of user 7 that is 100 short of its target, 20 percent, priority 1. -/
def homeGoal : Goal :=
  { _id := 2, user := 7, title := "Home", targetAmount := 500, savedAmount := 400, deadline := 0,
    autoAllocate := true, allocationPercentage := 20, category := some GoalCategory.Home,
    priority := 1 }

/-- A goal of user 7 that is already over its target. -/
def doneGoal : Goal :=
  { _id := 3, user := 7, title := "Trip", targetAmount := 300, savedAmount := 350, deadline := 0,
    autoAllocate := true, allocationPercentage := 10, category := some GoalCategory.Vacation,
    priority := 3 }

/-- A goal of user 7 that is not flagged for automatic allocation. -/
def manualGoal : Goal :=
  { _id := 4, user := 7, title := "Fund", targetAmount := 900, savedAmount := 0, deadline := 0,
    autoAllocate := false, allocationPercentage := 10, category := some GoalCategory.Emergency,
    priority := 1 }

/-- Income of 1200 and 800 for user 7 with the four goals above. -/
def goalStore : Store :=
  { transactions := [sampleTx 1 TxType.income 1200 "Salary" 0, sampleTx 2 TxType.income 800 "Salary" 0]
    budgets := []
    goals := [carGoal, homeGoal, doneGoal, manualGoal] }

/-- The car goal with its allocation percentage set to 0. -/
def zeroPercentGoal : Goal := { carGoal with allocationPercentage := 0 }

/-- Income of 2000 for user 7 with the zero-percent goal. -/
def zeroPercentStore : Store :=
  { transactions := [sampleTx 1 TxType.income 2000 "Salary" 0]
    budgets := []
    goals := [zeroPercentGoal] }

/-- Income of 2000 for user 7 whose only goal is the manual one. -/
def manualStore : Store :=
  { transactions := [sampleTx 1 TxType.income 2000 "Salary" 0]
    budgets := []
    goals := [manualGoal] }

/-- Income of 5000 and expense of 3000 for user 7, and income of another user. -/
def dashboardStore : Store :=
  { transactions :=
      [sampleTx 1 TxType.income 5000 "Salary" 1673740800000,
        sampleTx 2 TxType.expense 3000 "Rent" 1676419200000,
        { sampleTx 3 TxType.income 1500 "Freelance" 1676419200000 with user := 8 }]
    budgets := []
    goals := [] }

/-- The transactions of the trends integration test: January 2023 with income
2000 and expense 300, February 2023 with income 2000 and expenses 350 and 100,
and a February income of another user. -/
def trendStore : Store :=
  { transactions :=
      [sampleTx 1 TxType.expense 350 "Food" 1676419200000,
        sampleTx 2 TxType.income 2000 "Salary" 1673740800000,
        sampleTx 3 TxType.expense 300 "Food" 1673740800000,
        sampleTx 4 TxType.income 2000 "Salary" 1676419200000,
        sampleTx 5 TxType.expense 100 "Fun" 1676505600000,
        { sampleTx 6 TxType.income 1500 "Freelance" 1676419200000 with user := 8 }]
    budgets := []
    goals := [] }

/-- A Food budget of 100. -/
def foodBudget : Budget :=
  { _id := 4, user := 7, category := "Food", amount := 100, period := Period.monthly,
    spent := 0, alertThreshold := 80, recommendations := "" }

/-- Food expenses of 400 on 2024-01-01 and 260 on 2023-11-20, and one of 900 on
2023-09-30, with the Food budget. -/
def foodStore : Store :=
  { transactions :=
      [sampleTx 1 TxType.expense 400 "Food" 1704067200000,
        sampleTx 2 TxType.expense 260 "Food" 1700438400000,
        sampleTx 3 TxType.expense 900 "Food" 1696032000000]
    budgets := [foodBudget]
    goals := [] }

/-- A Utilities budget of 300. -/
def utilitiesBudget : Budget :=
  { _id := 5, user := 7, category := "Utilities", amount := 300, period := Period.monthly,
    spent := 0, alertThreshold := 80, recommendations := "" }

/-- The Utilities budget with one recurring Utilities bill of 150 dated
2024-01-20, five days after 2024-01-15. -/
def futureBillStore : Store :=
  { transactions :=
      [{ sampleTx 1 TxType.expense 150 "Utilities" 1705708800000 with isRecurring := true }]
    budgets := [utilitiesBudget]
    goals := [] }

/-- A goal with target 7000 and 2000 saved, due 2024-01-25. -/
def statsGoalA : Goal :=
  { _id := 11, user := 7, title := "A", targetAmount := 7000, savedAmount := 2000,
    deadline := 1706140800000, autoAllocate := false, allocationPercentage := 10,
    category := some GoalCategory.Car, priority := 1 }

/-- A goal with target 3000 and 1500 saved, due 2024-01-18. -/
def statsGoalB : Goal :=
  { _id := 12, user := 7, title := "B", targetAmount := 3000, savedAmount := 1500,
    deadline := 1705536000000, autoAllocate := false, allocationPercentage := 10,
    category := some GoalCategory.Home, priority := 1 }

/-- A goal with a negative target of -100 and 50 saved. -/
def negativeTargetGoal : Goal :=
  { _id := 13, user := 7, title := "N", targetAmount := -100, savedAmount := 50,
    deadline := 1706140800000, autoAllocate := false, allocationPercentage := 10,
    category := some GoalCategory.Other, priority := 1 }

/-- A goal with target 100 and 150 saved. -/
def overGoal : Goal :=
  { _id := 14, user := 7, title := "O", targetAmount := 100, savedAmount := 150,
    deadline := 1706140800000, autoAllocate := false, allocationPercentage := 10,
    category := some GoalCategory.Home, priority := 1 }

/-- A goal with target 7000 due the given number of days after 2024-01-15. -/
def deadlineGoal (id : ObjectId) (saved : ℚ) (days : ℤ) : Goal :=
  { statsGoalA with
    _id := id, savedAmount := JsNum.fin saved, deadline := 1705276800000 + days * msPerDay }

/-- Eight goals: six open ones due in 9, 3, 1, 5, 11 and 2 days, one that is
complete and one that is overdue. -/
def deadlineGoals : List Goal :=
  [deadlineGoal 21 0 9, deadlineGoal 22 100 3, deadlineGoal 23 7000 7, deadlineGoal 24 0 1,
    deadlineGoal 25 0 5, deadlineGoal 26 0 11, deadlineGoal 27 0 2, deadlineGoal 28 0 (-4)]

/-- Food expenses of 600 and 400, an Entertainment expense of 300, a Rent
expense of exactly 500 and a Salary income of 9000 for user 7, and a Food
expense of another user. -/
def spendingStore : Store :=
  { transactions :=
      [sampleTx 1 TxType.expense 600 "Food" 1705276800000,
        sampleTx 2 TxType.expense 300 "Entertainment" 1705276800000,
        sampleTx 3 TxType.expense 400 "Food" 1705276800000,
        sampleTx 4 TxType.income 9000 "Salary" 1705276800000,
        sampleTx 5 TxType.expense 500 "Rent" 1705276800000,
        { sampleTx 6 TxType.expense 800 "Electronics" 1705276800000 with user := 8 }]
    budgets := []
    goals := [] }

/-- A recurring Utilities bill of 150 dated 2024-01-20. -/
def utilitiesBill : Transaction :=
  { sampleTx 1 TxType.expense 150 "Utilities" 1705708800000 with isRecurring := true }

/-- A recurring Music subscription of 20 dated 2024-01-10 without end date. -/
def openEndedSubscription : Transaction :=
  { sampleTx 2 TxType.expense 20 "Music" 1704844800000 with
    isRecurring := true, recurrencePattern := some Recurrence.monthly }

/-- A recurring Gym subscription of 30 dated 2024-01-05 that ends 2024-06-01. -/
def gymSubscription : Transaction :=
  { sampleTx 3 TxType.expense 30 "Gym" 1704412800000 with
    isRecurring := true, recurrencePattern := some Recurrence.monthly,
    recurrenceEndDate := some 1717200000000 }

/-- The three recurring transactions above and a Food expense that is not
recurring, dated 2024-01-18. -/
def recurringStore : Store :=
  { transactions :=
      [utilitiesBill, openEndedSubscription, gymSubscription,
        sampleTx 4 TxType.expense 60 "Food" 1705536000000]
    budgets := []
    goals := [] }

/-- A create request that supplies every field, with a date of 2023-01-15. -/
def movieRequest : TransactionBody :=
  { type := some "expense", amount := some 50, category := some "Entertainment",
    description := some "Movie tickets", date := some 1673740800000,
    tags := some ["leisure", "weekend"], isRecurring := some true,
    recurrencePattern := some "monthly", recurrenceEndDate := some 1717200000000 }

/-- The document stored for `movieRequest` when user 7 sends it at 2024-01-15
and the store assigns the id 9. -/
def movieTransaction : Transaction :=
  { _id := 9, user := 7, type := TxType.expense, amount := 50, category := "Entertainment",
    description := some "Movie tickets", date := 1705276800000, tags := ["leisure", "weekend"],
    isRecurring := true, recurrencePattern := some Recurrence.monthly,
    recurrenceEndDate := some 1717200000000 }

/-- A stand-in for `new Date(string)` that knows two ISO days. -/
def sampleParseDate (text : String) : Option ℤ :=
  if text = "2023-02-01" then some 1675209600000
  else if text = "2023-02-28" then some 1677542400000
  else none

/-- A stand-in for `Number(string)` on integer numerals. -/
def sampleToNumber (text : String) : Option ℚ :=
  match parseInt text with
  | .int z => some (z : ℚ)
  | _ => none

/-- A report query without any parameter. -/
def emptyReportQuery : ReportQuery :=
  { startDate := none, endDate := none, category := none, tags := none, type := none,
    minAmount := none, maxAmount := none }

/-- A Groceries budget of 100 with an alert threshold of 57. -/
def fiftySevenBudget : Budget :=
  { _id := 6, user := 7, category := "Groceries", amount := 100, period := Period.monthly,
    spent := 0, alertThreshold := 57, recommendations := "" }

/-- One Groceries expense of 57 with the budget of 100. -/
def fiftySevenStore : Store :=
  { transactions := [sampleTx 1 TxType.expense 57 "Groceries" 0]
    budgets := [fiftySevenBudget]
    goals := [] }

/-- A goal of user 7 with 217.43 saved of a target of 782.93, 10 percent. -/
def capGoal : Goal :=
  { _id := 5, user := 7, title := "Laptop", targetAmount := literal (78293 / 100),
    savedAmount := JsNum.fin (literal (21743 / 100)), deadline := 0, autoAllocate := true,
    allocationPercentage := 10, category := some GoalCategory.Other, priority := 1 }

/-- An income of 5655 for user 7 with the goal above. -/
def capStore : Store :=
  { transactions := [sampleTx 1 TxType.income 5655 "Salary" 0]
    budgets := []
    goals := [capGoal] }

/-- A goal of user 7 with target 1, nothing saved, 10 percent. -/
def tenthGoal : Goal :=
  { _id := 6, user := 7, title := "Coin", targetAmount := 1, savedAmount := 0, deadline := 0,
    autoAllocate := true, allocationPercentage := 10, category := some GoalCategory.Other,
    priority := 1 }

/-- An income of 1 for user 7 with the goal above: 0.1 per call. -/
def tenthStore : Store :=
  { transactions := [sampleTx 1 TxType.income 1 "Salary" 0]
    budgets := []
    goals := [tenthGoal] }

/-- A goal of user 7 with 0.1 saved of a target of 5, 10 percent. -/
def dimeGoal : Goal :=
  { _id := 7, user := 7, title := "Dime", targetAmount := 5,
    savedAmount := JsNum.fin (literal (1 / 10)), deadline := 0, autoAllocate := true,
    allocationPercentage := 10, category := some GoalCategory.Other, priority := 1 }

/-- An income of 2 for user 7 with the goal above: 0.2 per call. -/
def dimeStore : Store :=
  { transactions := [sampleTx 1 TxType.income 2 "Salary" 0]
    budgets := []
    goals := [dimeGoal] }

/-- A goal of user 7 with target 100, nothing saved, the given percentage and
priority. -/
def shareGoal (id : ObjectId) (percentage priority : ℚ) : Goal :=
  { _id := id, user := 7, title := "Share", targetAmount := 100, savedAmount := 0, deadline := 0,
    autoAllocate := true, allocationPercentage := percentage,
    category := some GoalCategory.Other, priority := priority }

/-- An income of 1 for user 7 with three goals of 10, 20 and 30 percent, in
that order of priority. -/
def sharesStore : Store :=
  { transactions := [sampleTx 1 TxType.income 1 "Salary" 0]
    budgets := []
    goals := [shareGoal 1 10 1, shareGoal 2 20 2, shareGoal 3 30 3] }

/-- Three incomes of 0.1, 0.2 and 0.3: the first in January 2023 under
"Salary", the two others in February 2023 under "Bonus". -/
def dimesStore : Store :=
  { transactions :=
      [sampleTx 1 TxType.income (literal (1 / 10)) "Salary" 1673740800000,
        sampleTx 2 TxType.income (literal (2 / 10)) "Bonus" 1676419200000,
        sampleTx 3 TxType.income (literal (3 / 10)) "Bonus" 1676505600000]
    budgets := []
    goals := [] }

/-- Food expenses of 330 in the three months before 2024-01-15, with the Food
budget of 100: the average is 110. -/
def elevenStore : Store :=
  { transactions := [sampleTx 1 TxType.expense 330 "Food" 1704067200000]
    budgets := [foodBudget]
    goals := [] }

/-- Food expenses of 750 in the three months before 2024-01-15, with the Food
budget of 100: the average is 250. -/
def quarterStore : Store :=
  { transactions := [sampleTx 1 TxType.expense 750 "Food" 1704067200000]
    budgets := [foodBudget]
    goals := [] }

/-- A goal with target 40 and 23 saved. -/
def fortyGoal : Goal :=
  { _id := 15, user := 7, title := "F", targetAmount := 40, savedAmount := 23,
    deadline := 1706140800000, autoAllocate := false, allocationPercentage := 10,
    category := some GoalCategory.Car, priority := 1 }

/-- A goal with target 200 and 201 saved. -/
def justOverGoal : Goal :=
  { _id := 16, user := 7, title := "J", targetAmount := 200, savedAmount := 201,
    deadline := 1706140800000, autoAllocate := false, allocationPercentage := 10,
    category := some GoalCategory.Home, priority := 1 }

/-- A goal of the given category with target 10 and the given savedAmount. -/
def dimeSavedGoal (id : ObjectId) (category : GoalCategory) (saved : ℚ) : Goal :=
  { _id := id, user := 7, title := "D", targetAmount := 10, savedAmount := JsNum.fin saved,
    deadline := 1706140800000, autoAllocate := false, allocationPercentage := 10,
    category := some category, priority := 1 }

/-- A Car goal with 0.1 saved and two Home goals with 0.2 and 0.3 saved. -/
def dimeSavedGoals : List Goal :=
  [dimeSavedGoal 31 GoalCategory.Car (literal (1 / 10)),
    dimeSavedGoal 32 GoalCategory.Home (literal (2 / 10)),
    dimeSavedGoal 33 GoalCategory.Home (literal (3 / 10))]

/-- Food expenses of 600 and 400 and, between them, an expense of 600 in a
category named "constructor", all of user 7. -/
def constructorStore : Store :=
  { transactions :=
      [sampleTx 1 TxType.expense 600 "Food" 1705276800000,
        sampleTx 2 TxType.expense 600 "constructor" 1705276800000,
        sampleTx 3 TxType.expense 400 "Food" 1705276800000]
    budgets := []
    goals := [] }

/-- Three goals of user 7 due within ten days of 2024-01-15: 1500 of 3000,
150 of 100 and 201 of 200. -/
def goalReminderStore : Store :=
  { transactions := []
    budgets := []
    goals := [statsGoalB, overGoal, justOverGoal] }

/-- A stand-in for the cast of a route parameter to an ObjectId: a string of 24
hexadecimal digits is the ObjectId of that value, and every other string is
rejected. -/
def sampleCastObjectId (text : String) : Option ObjectId :=
  if text.length = 24 ∧ text.toList.all (fun c => (digitValue 16 c).isSome) then
    readDigits 16 text.toList
  else none

/-! # Theorems -/

/-! ## Rounding to a double -/

theorem pow2_eq_zpow (e : ℤ) : pow2 e = (2 : ℚ) ^ e := by
  unfold pow2
  split_ifs with h
  · obtain ⟨n, rfl⟩ := Int.eq_ofNat_of_zero_le h
    simp
  · have h0 : 0 ≤ -e := by omega
    obtain ⟨n, hn⟩ := Int.eq_ofNat_of_zero_le h0
    have he : e = -(n : ℤ) := by omega
    subst he
    simp

theorem pow2_pos (e : ℤ) : 0 < pow2 e := by
  rw [pow2_eq_zpow]
  exact zpow_pos (by norm_num) e

theorem pow2_le_pow2 {m n : ℤ} (h : m ≤ n) : pow2 m ≤ pow2 n := by
  rw [pow2_eq_zpow, pow2_eq_zpow]
  exact zpow_le_zpow_right₀ (by norm_num) h

theorem pow2_lt_pow2_iff {m n : ℤ} : pow2 m < pow2 n ↔ m < n := by
  rw [pow2_eq_zpow, pow2_eq_zpow]
  exact zpow_lt_zpow_iff_right₀ (by norm_num)

theorem pow2_add (m n : ℤ) : pow2 (m + n) = pow2 m * pow2 n := by
  rw [pow2_eq_zpow, pow2_eq_zpow, pow2_eq_zpow]
  exact zpow_add₀ (by norm_num) m n

theorem pow2_natCast (n : ℕ) : pow2 (n : ℤ) = (((2 : ℤ) ^ n : ℤ) : ℚ) := by
  rw [pow2_eq_zpow]
  simp

theorem log2Fuel_spec (fuel : ℕ) :
    ∀ n : ℕ, n ≤ fuel → 0 < n → 2 ^ log2Fuel fuel n ≤ n ∧ n < 2 ^ (log2Fuel fuel n + 1) := by
  induction fuel with
  | zero =>
    intro n h1 h2
    omega
  | succ fuel ih =>
    intro n h1 h2
    unfold log2Fuel
    by_cases h : 2 ≤ n
    · simp only [h, if_true]
      obtain ⟨ha, hb⟩ := ih (n / 2) (by omega) (by omega)
      rw [pow_succ, pow_succ, pow_succ] at *
      constructor <;> omega
    · simp only [h, if_false]
      constructor <;> simp <;> omega

theorem log2_spec (n : ℕ) (h : 0 < n) : 2 ^ log2 n ≤ n ∧ n < 2 ^ (log2 n + 1) :=
  log2Fuel_spec n n le_rfl h

theorem binade_spec (a : ℚ) (ha : 0 < a) : pow2 (binade a) ≤ a ∧ a < pow2 (binade a + 1) := by
  have hnum : 0 < a.num := Rat.num_pos.2 ha
  have hN : 0 < a.num.natAbs := Int.natAbs_pos.2 (ne_of_gt hnum)
  have hD : 0 < a.den := a.den_pos
  obtain ⟨hn1, hn2⟩ := log2_spec a.num.natAbs hN
  obtain ⟨hd1, hd2⟩ := log2_spec a.den hD
  have hcast : (a.num.natAbs : ℚ) = (a.num : ℚ) := by
    rw [Nat.cast_natAbs, abs_of_pos]
    simpa using ha
  have hval : a = (a.num.natAbs : ℚ) / (a.den : ℚ) := by
    rw [hcast]
    exact (Rat.num_div_den a).symm
  have hDq : (0 : ℚ) < (a.den : ℚ) := by exact_mod_cast hD
  have hn1q : ((2 : ℚ) ^ log2 a.num.natAbs) ≤ (a.num.natAbs : ℚ) := by exact_mod_cast hn1
  have hn2q : (a.num.natAbs : ℚ) < (2 : ℚ) ^ (log2 a.num.natAbs + 1) := by exact_mod_cast hn2
  have hd1q : ((2 : ℚ) ^ log2 a.den) ≤ (a.den : ℚ) := by exact_mod_cast hd1
  have hd2q : (a.den : ℚ) < (2 : ℚ) ^ (log2 a.den + 1) := by exact_mod_cast hd2
  have hpn : (0 : ℚ) < (2 : ℚ) ^ log2 a.num.natAbs := by positivity
  have hpd : (0 : ℚ) < (2 : ℚ) ^ log2 a.den := by positivity
  have he0 : pow2 ((log2 a.num.natAbs : ℤ) - (log2 a.den : ℤ))
      = (2 : ℚ) ^ log2 a.num.natAbs / (2 : ℚ) ^ log2 a.den := by
    rw [pow2_eq_zpow, zpow_sub₀ (by norm_num), zpow_natCast, zpow_natCast]
  unfold binade
  split_ifs with h
  · refine ⟨h, ?_⟩
    rw [pow2_add, he0]
    have h1 : pow2 1 = 2 := by decide!
    rw [h1, div_mul_eq_mul_div]
    conv_lhs => rw [hval]
    rw [div_lt_div_iff hDq hpd]
    rw [pow_succ] at hn2q
    nlinarith
  · push_neg at h
    constructor
    · have hsub : (log2 a.num.natAbs : ℤ) - (log2 a.den : ℤ) - 1
          = ((log2 a.num.natAbs : ℤ) - (log2 a.den : ℤ)) + (-1) := by ring
      rw [hsub, pow2_add, he0]
      have h1 : pow2 (-1) = 1 / 2 := by decide!
      rw [h1, div_mul_eq_mul_div]
      conv_rhs => rw [hval]
      rw [div_le_div_iff hpd hDq]
      rw [pow_succ] at hd2q
      nlinarith
    · have hsub : (log2 a.num.natAbs : ℤ) - (log2 a.den : ℤ) - 1 + 1
          = (log2 a.num.natAbs : ℤ) - (log2 a.den : ℤ) := by ring
      rw [hsub]
      exact h

theorem binade_unique (a : ℚ) (e : ℤ) (h1 : pow2 e ≤ a) (h2 : a < pow2 (e + 1)) :
    binade a = e := by
  have ha : 0 < a := lt_of_lt_of_le (pow2_pos e) h1
  obtain ⟨h3, h4⟩ := binade_spec a ha
  have h5 : e < binade a + 1 := pow2_lt_pow2_iff.1 (lt_of_le_of_lt h1 h4)
  have h6 : binade a < e + 1 := pow2_lt_pow2_iff.1 (lt_of_le_of_lt h3 h2)
  omega

theorem binade_mono {a b : ℚ} (ha : 0 < a) (hab : a ≤ b) : binade a ≤ binade b := by
  obtain ⟨h3, _⟩ := binade_spec a ha
  obtain ⟨_, h4⟩ := binade_spec b (lt_of_lt_of_le ha hab)
  have h5 : binade a < binade b + 1 :=
    pow2_lt_pow2_iff.1 (lt_of_le_of_lt (h3.trans hab) h4)
  omega

theorem quantum_mono {a b : ℚ} (ha : 0 < a) (hab : a ≤ b) : quantum a ≤ quantum b := by
  have := binade_mono ha hab
  unfold quantum
  omega

theorem roundHalfEven_mem (x : ℚ) : roundHalfEven x = ⌊x⌋ ∨ roundHalfEven x = ⌊x⌋ + 1 := by
  unfold roundHalfEven
  split_ifs <;> simp

theorem roundHalfEven_mono {x y : ℚ} (h : x ≤ y) : roundHalfEven x ≤ roundHalfEven y := by
  have hf : ⌊x⌋ ≤ ⌊y⌋ := Int.floor_mono h
  by_cases heq : ⌊x⌋ = ⌊y⌋
  · unfold roundHalfEven
    rw [← heq]
    have hfrac : x - ⌊x⌋ ≤ y - ⌊x⌋ := by linarith
    split_ifs <;> first | omega | linarith
  · have hlt : ⌊x⌋ + 1 ≤ ⌊y⌋ := by omega
    rcases roundHalfEven_mem x with hx | hx <;> rcases roundHalfEven_mem y with hy | hy <;> omega

theorem roundHalfEven_intCast (z : ℤ) : roundHalfEven (z : ℚ) = z := by
  unfold roundHalfEven
  simp

theorem roundHalfEven_le_of_le {x : ℚ} {z : ℤ} (h : x ≤ z) : roundHalfEven x ≤ z := by
  have := roundHalfEven_mono h
  rwa [roundHalfEven_intCast] at this

theorem le_roundHalfEven_of_le {x : ℚ} {z : ℤ} (h : (z : ℚ) ≤ x) : z ≤ roundHalfEven x := by
  have := roundHalfEven_mono h
  rwa [roundHalfEven_intCast] at this

theorem nearest_le_of_le_grid {a : ℚ} {m : ℤ} (h : a ≤ m * pow2 (quantum a)) :
    nearest a ≤ m * pow2 (quantum a) := by
  unfold nearest
  have hp := pow2_pos (quantum a)
  have h1 : a / pow2 (quantum a) ≤ m := by rwa [div_le_iff hp]
  have h2 : ((roundHalfEven (a / pow2 (quantum a)) : ℤ) : ℚ) ≤ (m : ℚ) := by
    exact_mod_cast roundHalfEven_le_of_le h1
  exact mul_le_mul_of_nonneg_right h2 hp.le

theorem le_nearest_of_grid_le {a : ℚ} {m : ℤ} (h : m * pow2 (quantum a) ≤ a) :
    m * pow2 (quantum a) ≤ nearest a := by
  unfold nearest
  have hp := pow2_pos (quantum a)
  have h1 : (m : ℚ) ≤ a / pow2 (quantum a) := by rwa [le_div_iff hp]
  have h2 : (m : ℚ) ≤ ((roundHalfEven (a / pow2 (quantum a)) : ℤ) : ℚ) := by
    exact_mod_cast le_roundHalfEven_of_le h1
  exact mul_le_mul_of_nonneg_right h2 hp.le

theorem pow2_eq_grid {e q : ℤ} (h : q ≤ e) :
    pow2 e = (((2 : ℤ) ^ (e - q).toNat : ℤ) : ℚ) * pow2 q := by
  rw [← pow2_natCast, ← pow2_add]
  congr 1
  rw [Int.toNat_of_nonneg (by omega)]
  ring

theorem nearest_le_pow2 {a : ℚ} {e : ℤ} (h : a ≤ pow2 e) (hq : quantum a ≤ e) :
    nearest a ≤ pow2 e := by
  rw [pow2_eq_grid hq] at h ⊢
  exact nearest_le_of_le_grid h

theorem pow2_le_nearest {a : ℚ} {e : ℤ} (h : pow2 e ≤ a) (hq : quantum a ≤ e) :
    pow2 e ≤ nearest a := by
  rw [pow2_eq_grid hq] at h ⊢
  exact le_nearest_of_grid_le h

theorem nearest_nonneg {a : ℚ} (ha : 0 ≤ a) : 0 ≤ nearest a := by
  have h := le_nearest_of_grid_le (m := 0) (a := a) (by simpa using ha)
  simpa using h

theorem nearest_mono {a b : ℚ} (ha : 0 < a) (hab : a ≤ b) : nearest a ≤ nearest b := by
  have hq := quantum_mono ha hab
  rcases eq_or_lt_of_le hq with heq | hlt
  · unfold nearest
    rw [← heq]
    have hp := pow2_pos (quantum a)
    have h1 : a / pow2 (quantum a) ≤ b / pow2 (quantum a) :=
      div_le_div_of_nonneg_right hab hp.le
    have h2 : ((roundHalfEven (a / pow2 (quantum a)) : ℤ) : ℚ)
        ≤ ((roundHalfEven (b / pow2 (quantum a)) : ℤ) : ℚ) := by
      exact_mod_cast roundHalfEven_mono h1
    exact mul_le_mul_of_nonneg_right h2 hp.le
  · have hb : 0 < b := lt_of_lt_of_le ha hab
    have heb : quantum b = binade b - 52 := by
      unfold quantum at hlt ⊢
      omega
    have hea : binade a < binade b := by
      unfold quantum at hlt
      omega
    obtain ⟨_, ha2⟩ := binade_spec a ha
    obtain ⟨hb1, _⟩ := binade_spec b hb
    have hag : a ≤ pow2 (binade b) :=
      le_of_lt (lt_of_lt_of_le ha2 (pow2_le_pow2 (by omega)))
    exact (nearest_le_pow2 hag (by omega)).trans (pow2_le_nearest hb1 (by omega))

theorem toDouble_zero : toDouble 0 = JsNum.fin 0 := by
  simp [toDouble]

theorem toDouble_of_pos {q : ℚ} (h : 0 < q) :
    toDouble q = if nearest q < pow2 1024 then JsNum.fin (nearest q) else JsNum.posInf := by
  simp [toDouble, h, ne_of_gt h]

theorem toDouble_of_neg {q : ℚ} (h : q < 0) :
    toDouble q = if nearest (-q) < pow2 1024 then JsNum.fin (-nearest (-q)) else JsNum.negInf := by
  simp [toDouble, ne_of_lt h, not_lt.2 h.le]

theorem toDouble_ne_nan (q : ℚ) : toDouble q ≠ JsNum.nan := by
  unfold toDouble
  split_ifs <;> simp

theorem toDouble_mono {a b : ℚ} (h : a ≤ b) : JsNum.le (toDouble a) (toDouble b) = true := by
  rcases lt_trichotomy a 0 with ha | ha | ha
  · have hna := nearest_nonneg (a := -a) (by linarith)
    rcases lt_trichotomy b 0 with hb | hb | hb
    · have hm := nearest_mono (a := -b) (b := -a) (by linarith) (by linarith)
      rw [toDouble_of_neg ha, toDouble_of_neg hb]
      split_ifs <;> simp [JsNum.le, JsNum.ge] <;> linarith
    · subst hb
      rw [toDouble_of_neg ha, toDouble_zero]
      split_ifs <;> simp [JsNum.le, JsNum.ge]
      exact hna
    · have hnb := nearest_nonneg (a := b) hb.le
      rw [toDouble_of_neg ha, toDouble_of_pos hb]
      split_ifs <;> simp [JsNum.le, JsNum.ge]
      linarith
  · subst ha
    rcases eq_or_lt_of_le h with hb | hb
    · rw [← hb]
      simp [toDouble_zero, JsNum.le, JsNum.ge]
    · have hnb := nearest_nonneg (a := b) hb.le
      rw [toDouble_zero, toDouble_of_pos hb]
      split_ifs <;> simp [JsNum.le, JsNum.ge]
      exact hnb
  · have hb : 0 < b := lt_of_lt_of_le ha h
    have hm := nearest_mono ha h
    rw [toDouble_of_pos ha, toDouble_of_pos hb]
    split_ifs <;> simp [JsNum.le, JsNum.ge] <;> linarith

theorem nearest_gt_110 {a : ℚ} (ha : 0 < a) (h : 110 < nearest a) :
    110 + pow2 (-46) ≤ nearest a := by
  obtain ⟨h1, h2⟩ := binade_spec a ha
  have h64 : pow2 6 = 64 := by decide!
  have h128 : pow2 7 = 128 := by decide!
  have h46 : pow2 (-46) = 1 / 70368744177664 := by decide!
  rcases lt_trichotomy (binade a) 6 with hb | hb | hb
  · exfalso
    have hle : a ≤ pow2 6 := le_of_lt (lt_of_lt_of_le h2 (pow2_le_pow2 (by omega)))
    have hq : quantum a ≤ 6 := by
      unfold quantum
      omega
    have := nearest_le_pow2 hle hq
    rw [h64] at this
    linarith
  · have hq : quantum a = -46 := by
      unfold quantum
      omega
    unfold nearest at h ⊢
    rw [hq] at h ⊢
    rw [h46] at h ⊢
    have hk : (7740561859543040 : ℤ) < roundHalfEven (a / (1 / 70368744177664)) := by
      have : ((7740561859543040 : ℤ) : ℚ) < (roundHalfEven (a / (1 / 70368744177664)) : ℚ) := by
        push_cast
        linarith
      exact_mod_cast this
    have hk2 : ((7740561859543041 : ℤ) : ℚ) ≤ (roundHalfEven (a / (1 / 70368744177664)) : ℚ) := by
      exact_mod_cast hk
    push_cast at hk2
    linarith
  · have hq : quantum a = binade a - 52 := by
      unfold quantum
      omega
    have := pow2_le_nearest h1 (by omega)
    have h7 : pow2 7 ≤ pow2 (binade a) := pow2_le_pow2 (by omega)
    rw [h128] at h7
    rw [h46]
    linarith

/-! ## Whole numbers are added without rounding -/

theorem nearest_intCast (z : ℤ) (h0 : 0 < z) (h : (z : ℚ) < pow2 53) : nearest (z : ℚ) = z := by
  have hz : (0 : ℚ) < z := by exact_mod_cast h0
  have hb := (binade_spec z hz).1
  have hb53 : binade (z : ℚ) < 53 := pow2_lt_pow2_iff.1 (lt_of_le_of_lt hb h)
  have hq : quantum (z : ℚ) ≤ 0 := by
    unfold quantum
    omega
  obtain ⟨k, hk⟩ : ∃ k : ℕ, quantum (z : ℚ) = -(k : ℤ) := ⟨(-quantum (z : ℚ)).toNat, by omega⟩
  unfold nearest
  rw [hk]
  have hp : pow2 (-(k : ℤ)) = 1 / (2 ^ k : ℚ) := by
    rw [pow2_eq_zpow]
    simp [zpow_neg]
  rw [hp]
  have hpos : (0 : ℚ) < 2 ^ k := by positivity
  have hint : (z : ℚ) / (1 / 2 ^ k) = ((z * 2 ^ k : ℤ) : ℚ) := by
    push_cast
    field_simp
  rw [hint, roundHalfEven_intCast]
  push_cast
  field_simp

theorem toDouble_intCast (z : ℤ) (h1 : -(2 : ℚ) ^ 53 < z) (h2 : (z : ℚ) < 2 ^ 53) :
    toDouble (z : ℚ) = JsNum.fin z := by
  have h53 : pow2 53 = (2 : ℚ) ^ 53 := by
    rw [pow2_eq_zpow]
    norm_num
  have h1024 : (2 : ℚ) ^ 53 < pow2 1024 := by
    rw [← h53]
    exact pow2_lt_pow2_iff.2 (by norm_num)
  rcases lt_trichotomy z 0 with hneg | hzero | hpos
  · have hq : ((z : ℤ) : ℚ) < 0 := by exact_mod_cast hneg
    have hn : nearest (-(z : ℚ)) = -(z : ℚ) := by
      have := nearest_intCast (-z) (by omega) (by push_cast; rw [h53]; linarith)
      simpa using this
    rw [toDouble_of_neg hq, hn, if_pos (by linarith)]
    simp
  · subst hzero
    simp [toDouble]
  · have hq : (0 : ℚ) < z := by exact_mod_cast hpos
    have hn : nearest (z : ℚ) = z := nearest_intCast z hpos (by rw [h53]; exact h2)
    rw [toDouble_of_pos hq, hn, if_pos (by linarith)]

theorem JsNum.add_whole (a b : ℕ) (h : ((a + b : ℕ) : ℚ) < 2 ^ 53) :
    JsNum.add (JsNum.fin a) (JsNum.fin b) = JsNum.fin ((a + b : ℕ) : ℚ) := by
  have h0 : (0 : ℚ) ≤ ((a + b : ℕ) : ℚ) := by positivity
  have := toDouble_intCast ((a + b : ℕ) : ℤ) (by push_cast; push_cast at h0; linarith)
    (by push_cast; push_cast at h; linarith)
  simp only [JsNum.add]
  push_cast at this ⊢
  exact this

theorem JsNum.sub_whole (a b : ℕ) (ha : (a : ℚ) < 2 ^ 53) (hb : (b : ℚ) < 2 ^ 53) :
    JsNum.sub (JsNum.fin a) (JsNum.fin b) = JsNum.fin ((a : ℚ) - b) := by
  have h0a : (0 : ℚ) ≤ a := by positivity
  have h0b : (0 : ℚ) ≤ b := by positivity
  have := toDouble_intCast ((a : ℤ) - b) (by push_cast; linarith) (by push_cast; linarith)
  simp only [JsNum.sub]
  push_cast at this ⊢
  exact this

theorem foldl_add_whole (l : List ℚ) (a : ℕ) (hl : ∀ x ∈ l, ∃ n : ℕ, x = n)
    (hb : (a : ℚ) + l.sum < 2 ^ 53) :
    l.foldl (fun sum x => JsNum.add sum (JsNum.fin x)) (JsNum.fin a) = JsNum.fin ((a : ℚ) + l.sum)
    ∧ ∃ n : ℕ, (a : ℚ) + l.sum = n := by
  induction l generalizing a with
  | nil => exact ⟨by simp, a, by simp⟩
  | cons x l ih =>
    obtain ⟨n, hn⟩ := hl x (List.mem_cons_self _ _)
    have hl2 : ∀ y ∈ l, ∃ n : ℕ, y = n := fun y hy => hl y (List.mem_cons_of_mem _ hy)
    have hnonneg : (0 : ℚ) ≤ l.sum := List.sum_nonneg (fun y hy => by
      obtain ⟨m, hm⟩ := hl2 y hy
      rw [hm]
      positivity)
    subst hn
    rw [List.sum_cons] at hb
    have hstep : JsNum.add (JsNum.fin a) (JsNum.fin n) = JsNum.fin ((a + n : ℕ) : ℚ) :=
      JsNum.add_whole a n (by push_cast; linarith)
    obtain ⟨h1, m, hm⟩ := ih (a + n) hl2 (by push_cast; linarith)
    rw [List.foldl_cons, hstep, h1, List.sum_cons]
    push_cast at hm ⊢
    exact ⟨by rw [add_assoc], m, by rw [← hm, add_assoc]⟩

theorem jsSum_whole (l : List ℚ) (hl : ∀ x ∈ l, ∃ n : ℕ, x = n) (hb : l.sum < 2 ^ 53) :
    jsSum l = JsNum.fin l.sum ∧ ∃ n : ℕ, l.sum = n := by
  have := foldl_add_whole l 0 hl (by simpa using hb)
  simp only [Nat.cast_zero, zero_add] at this
  exact this

theorem sum_map_sub {α : Type} (f g : α → ℚ) (l : List α) :
    (l.map (fun x => f x - g x)).sum = (l.map f).sum - (l.map g).sum := by
  induction l with
  | nil => simp
  | cons x l ih =>
    simp only [List.map_cons, List.sum_cons, ih]
    ring

/-! ## Signs and comparisons of computed Numbers -/

theorem JsNum.ofNat_eq_fin (n : ℕ) [n.AtLeastTwo] :
    (OfNat.ofNat n : JsNum) = JsNum.fin (OfNat.ofNat n) := by
  show JsNum.fin ((OfNat.ofNat n : ℕ) : ℚ) = _
  rw [Nat.cast_ofNat]

theorem JsNum.zero_eq_fin : (0 : JsNum) = JsNum.fin 0 := by
  show JsNum.fin ((0 : ℕ) : ℚ) = _
  rw [Nat.cast_zero]

theorem toDouble_ge_zero {q : ℚ} (h : 0 ≤ q) : JsNum.ge (toDouble q) (JsNum.fin 0) = true := by
  have hm := toDouble_mono h
  rw [toDouble_zero] at hm
  exact hm

theorem JsNum.add_ge_zero (a : JsNum) (x : ℚ) (ha : JsNum.ge a (JsNum.fin 0) = true)
    (hx : 0 ≤ x) : JsNum.ge (JsNum.add a (JsNum.fin x)) (JsNum.fin 0) = true := by
  cases a with
  | fin q =>
    have hq : 0 ≤ q := by simpa [JsNum.ge] using ha
    exact toDouble_ge_zero (add_nonneg hq hx)
  | posInf => rfl
  | negInf => simp [JsNum.ge] at ha
  | nan => simp [JsNum.ge] at ha

theorem foldl_add_ge_zero (l : List ℚ) (a : JsNum) (ha : JsNum.ge a (JsNum.fin 0) = true)
    (hl : ∀ x ∈ l, 0 ≤ x) :
    JsNum.ge (l.foldl (fun sum x => JsNum.add sum (JsNum.fin x)) a) (JsNum.fin 0) = true := by
  induction l generalizing a with
  | nil => exact ha
  | cons x l ih =>
    exact ih _ (JsNum.add_ge_zero a x ha (hl x (List.mem_cons_self _ _)))
      (fun y hy => hl y (List.mem_cons_of_mem _ hy))

theorem JsNum.div_ge_zero (a : JsNum) (d : ℚ) (ha : JsNum.ge a (JsNum.fin 0) = true)
    (hd : 0 < d) : JsNum.ge (JsNum.div a (JsNum.fin d)) (JsNum.fin 0) = true := by
  cases a with
  | fin q =>
    have hq : 0 ≤ q := by simpa [JsNum.ge] using ha
    simp only [JsNum.div, if_neg (ne_of_gt hd)]
    exact toDouble_ge_zero (div_nonneg hq hd.le)
  | posInf => simp [JsNum.div, hd.le, JsNum.ge]
  | negInf => simp [JsNum.ge] at ha
  | nan => simp [JsNum.ge] at ha

theorem JsNum.mul_ge_zero (a : JsNum) (d : ℚ) (ha : JsNum.ge a (JsNum.fin 0) = true)
    (hd : 0 < d) : JsNum.ge (JsNum.mul a (JsNum.fin d)) (JsNum.fin 0) = true := by
  cases a with
  | fin q =>
    have hq : 0 ≤ q := by simpa [JsNum.ge] using ha
    exact toDouble_ge_zero (mul_nonneg hq hd.le)
  | posInf => simp [JsNum.mul, hd, ne_of_gt hd, JsNum.ge]
  | negInf => simp [JsNum.ge] at ha
  | nan => simp [JsNum.ge] at ha

theorem toDouble_le_of_le {a b : ℚ} (h : a ≤ b) (hb : toDouble b = JsNum.fin b) :
    JsNum.le (toDouble a) (JsNum.fin b) = true := by
  have := toDouble_mono h
  rwa [hb] at this

theorem toDouble_ge_of_le {a b : ℚ} (h : a ≤ b) (ha : toDouble a = JsNum.fin a) :
    JsNum.le (JsNum.fin a) (toDouble b) = true := by
  have := toDouble_mono h
  rwa [ha] at this

/-! ## Properties of `checkBudgetStatus` -/

theorem foldl_add_amount (l : List Transaction) (a : JsNum) :
    l.foldl (fun sum transaction => JsNum.add sum (JsNum.fin transaction.amount)) a
      = (l.map Transaction.amount).foldl (fun sum x => JsNum.add sum (JsNum.fin x)) a := by
  induction l generalizing a with
  | nil => rfl
  | cons t l ih => simp only [List.foldl_cons, List.map_cons, ih]

theorem sumAmounts_eq_jsSum (l : List Transaction) :
    sumAmounts l = jsSum (l.map Transaction.amount) := by
  simp only [sumAmounts, jsSum, foldl_add_amount]

theorem percentUsed_eq_spentPercent (s : Store) (uid : ObjectId) (b : Budget) :
    percentUsed (sumAmounts (findExpenses s uid b.category)) b = spentPercent s uid b := by
  simp only [percentUsed, spentPercent, sumAmounts_eq_jsSum]

theorem checkBudgetStatusLoop_append (s : Store) (uid : ObjectId) (pre rest : List Budget)
    (hpre : ∀ x ∈ pre, JsNum.ge (spentPercent s uid x) (JsNum.fin x.alertThreshold) = false) :
    checkBudgetStatusLoop s uid (pre ++ rest) = checkBudgetStatusLoop s uid rest := by
  induction pre with
  | nil => rfl
  | cons x pre ih =>
    have hx := hpre x (List.mem_cons_self _ _)
    have hrest : ∀ y ∈ pre, JsNum.ge (spentPercent s uid y) (JsNum.fin y.alertThreshold) = false :=
      fun y hy => hpre y (List.mem_cons_of_mem _ hy)
    simp [checkBudgetStatusLoop, percentUsed_eq_spentPercent, hx, ih hrest]

/-- C1: `checkBudgetStatus` answers with one message, and when some budget of
the user has percentUsed = spent / amount * 100 (the Number that the doubles
give, `spentPercent`) at or above its alert threshold, the message is the alert
of the first such budget in stored order, whatever follows it, and the text
names round(percentUsed) and the budget's category. -/
theorem checkBudgetStatus_first_alert (s : Store) (uid : ObjectId)
    (pre post : List Budget) (b : Budget)
    (hfind : findBudgets s uid = pre ++ b :: post)
    (hpre : ∀ x ∈ pre, JsNum.ge (spentPercent s uid x) (JsNum.fin x.alertThreshold) = false)
    (hb : JsNum.ge (spentPercent s uid b) (JsNum.fin b.alertThreshold) = true) :
    checkBudgetStatus s uid =
      ⟨200, "Alert: You have spent " ++ (JsMath.round (spentPercent s uid b)).toString
        ++ "% of your budget for " ++ b.category ++ "."⟩ := by
  rw [checkBudgetStatus, hfind, checkBudgetStatusLoop_append s uid pre _ hpre]
  simp [checkBudgetStatusLoop, percentUsed_eq_spentPercent, hb, alertMessage]

/-- C2: when no budget of the user reaches its alert threshold (percentUsed
being the Number that the doubles give) the answer is the single message "All
budgets are within limits."; so it is for no budget at all, and for one budget
of 500 with threshold 80 and no matching expense. -/
theorem checkBudgetStatus_within_limits :
    (∀ (s : Store) (uid : ObjectId),
      (∀ b ∈ findBudgets s uid,
        JsNum.ge (spentPercent s uid b) (JsNum.fin b.alertThreshold) = false) →
      checkBudgetStatus s uid = ⟨200, "All budgets are within limits."⟩)
    ∧ (∀ (s : Store) (uid : ObjectId), findBudgets s uid = [] →
      checkBudgetStatus s uid = ⟨200, "All budgets are within limits."⟩)
    ∧ (∀ (s : Store) (uid : ObjectId) (b : Budget), findBudgets s uid = [b] →
      b.amount = 500 → b.alertThreshold = 80 → findExpenses s uid b.category = [] →
      checkBudgetStatus s uid = ⟨200, "All budgets are within limits."⟩) := by
  have general : ∀ (s : Store) (uid : ObjectId),
      (∀ b ∈ findBudgets s uid,
        JsNum.ge (spentPercent s uid b) (JsNum.fin b.alertThreshold) = false) →
      checkBudgetStatus s uid = ⟨200, "All budgets are within limits."⟩ := by
    intro s uid h
    have := checkBudgetStatusLoop_append s uid (findBudgets s uid) [] h
    simpa [checkBudgetStatus, checkBudgetStatusLoop] using this
  refine ⟨general, ?_, ?_⟩
  · intro s uid h
    apply general
    simp [h]
  · intro s uid b hfind hamount hthr hnone
    apply general
    intro x hx
    rw [hfind, List.mem_singleton] at hx
    subst hx
    have hzero : spentPercent s uid x = JsNum.fin 0 := by
      rw [spentPercent, hnone, hamount]
      decide!
    rw [hzero, hthr]
    decide!

/-- Witness of C1 on the Dining scenario: 150 of 175 is reported as 86%, and
the later Travel budget at 200% is not. -/
theorem checkBudgetStatus_first_alert_witness :
    checkBudgetStatus diningStore 7
      = ⟨200, "Alert: You have spent 86% of your budget for Dining."⟩ :=
  (checkBudgetStatus_first_alert diningStore 7 [] [travelBudget] diningBudget
    (by decide!) (by simp) (by decide!)).trans (by decide!)

/-- Witness of C2: the Entertainment scenario, and a budget of 100 with
threshold 57 and 57 spent, for which the doubles give 56.99999999999999. -/
theorem checkBudgetStatus_within_limits_witness :
    checkBudgetStatus entertainmentStore 7 = ⟨200, "All budgets are within limits."⟩
    ∧ (spentPercent fiftySevenStore 7 fiftySevenBudget).toString = "56.99999999999999"
    ∧ checkBudgetStatus fiftySevenStore 7 = ⟨200, "All budgets are within limits."⟩ :=
  ⟨checkBudgetStatus_within_limits.2.2 entertainmentStore 7 entertainmentBudget
      (by decide!) (by decide!) (by decide!) (by decide!),
    by decide!,
    checkBudgetStatus_within_limits.1 fiftySevenStore 7 (by decide!)⟩

/-! ## The allocation loop -/

theorem allocateLoop_transactions (T : JsNum) (gs : List Goal) (s : Store)
    (acc : List Allocation) : (allocateLoop T gs s acc).1.transactions = s.transactions := by
  induction gs generalizing s acc with
  | nil => simp [allocateLoop]
  | cons g gs ih =>
    unfold allocateLoop
    split_ifs
    · rfl
    · rw [ih]
      rfl
    · exact ih _ _

theorem allocateLoop_budgets (T : JsNum) (gs : List Goal) (s : Store) (acc : List Allocation) :
    (allocateLoop T gs s acc).1.budgets = s.budgets := by
  induction gs generalizing s acc with
  | nil => simp [allocateLoop]
  | cons g gs ih =>
    unfold allocateLoop
    split_ifs
    · rfl
    · rw [ih]
      rfl
    · exact ih _ _

theorem allocateLoop_goals (T : JsNum) (gs : List Goal) (s : Store) (acc : List Allocation) :
    (allocateLoop T gs s acc).1.goals
      = s.goals.map (fun x => (processed T gs).foldl (writeBack T) x) := by
  induction gs generalizing s acc with
  | nil => simp [allocateLoop, processed]
  | cons g gs ih =>
    unfold allocateLoop processed
    by_cases h : JsNum.gt (actualAllocation T g) 0 = true
    · have hr : receives T g = true := h
      by_cases hn : increasedSavedAmount T g = JsNum.nan
      · simp [h, hn, hr]
      · simp only [h, hn, hr, if_true, if_false, and_false, ih, saveSavedAmount, List.map_map,
          List.foldl_cons]
        apply List.map_congr_left
        intro x _
        by_cases hid : x._id = g._id
        · simp [writeBack, hr, hid]
        · have hid2 : ¬ g._id = x._id := fun e => hid e.symm
          simp [writeBack, hid, hid2]
    · have hf : JsNum.gt (actualAllocation T g) 0 = false := by simpa using h
      have hr : receives T g = false := hf
      simp only [hf, hr, Bool.false_eq_true, if_false, false_and, ih, List.foldl_cons]
      apply List.map_congr_left
      intro x _
      simp [writeBack, hr]

theorem processed_eq_self (T : JsNum) (gs : List Goal)
    (hok : ∀ g ∈ gs, receives T g = true → increasedSavedAmount T g ≠ JsNum.nan) :
    processed T gs = gs := by
  induction gs with
  | nil => rfl
  | cons g gs ih =>
    have hg := hok g (List.mem_cons_self _ _)
    have hrest := ih (fun y hy => hok y (List.mem_cons_of_mem _ hy))
    unfold processed
    by_cases hr : receives T g = true
    · simp [hr, hg hr, hrest]
    · simp [hr, hrest]

theorem allocateLoop_snd (T : JsNum) (gs : List Goal) (s : Store) (acc : List Allocation)
    (hok : ∀ g ∈ gs, receives T g = true → increasedSavedAmount T g ≠ JsNum.nan) :
    (allocateLoop T gs s acc).2
      = some (acc ++ (gs.filter (receives T)).map (allocationEntry T)) := by
  induction gs generalizing s acc with
  | nil => simp [allocateLoop]
  | cons g gs ih =>
    have hg := hok g (List.mem_cons_self _ _)
    have hrest : ∀ y ∈ gs, receives T y = true → increasedSavedAmount T y ≠ JsNum.nan :=
      fun y hy => hok y (List.mem_cons_of_mem _ hy)
    unfold allocateLoop
    by_cases h : JsNum.gt (actualAllocation T g) 0 = true
    · have hr : receives T g = true := h
      simp [h, hg hr, ih _ _ hrest, hr]
    · have hr : ¬ receives T g = true := h
      simp [h, ih _ _ hrest, hr]

theorem add_ne_nan (a b : JsNum) (ha : storable a = true) (hb : JsNum.gt b 0 = true) :
    JsNum.add a b ≠ JsNum.nan := by
  cases a <;> cases b <;>
    simp_all [storable, JsNum.gt, JsNum.lt, JsNum.add, toDouble_ne_nan, OfNat.ofNat]

theorem writeBack_id (T : JsNum) (x g : Goal) : (writeBack T x g)._id = x._id := by
  unfold writeBack
  split_ifs <;> rfl

theorem foldl_writeBack_id (T : JsNum) (gs : List Goal) (x : Goal) :
    (gs.foldl (writeBack T) x)._id = x._id := by
  induction gs generalizing x with
  | nil => rfl
  | cons g gs ih => rw [List.foldl_cons, ih, writeBack_id]

theorem foldl_writeBack_of_not_receives (T : JsNum) (gs : List Goal) (x : Goal)
    (h : ∀ g ∈ gs, g._id = x._id → receives T g = false) : gs.foldl (writeBack T) x = x := by
  induction gs with
  | nil => rfl
  | cons g gs ih =>
    have hstep : writeBack T x g = x := by
      unfold writeBack
      by_cases hid : g._id = x._id
      · simp [h g (List.mem_cons_self _ _) hid]
      · simp [hid]
    rw [List.foldl_cons, hstep]
    exact ih (fun y hy => h y (List.mem_cons_of_mem _ hy))

theorem foldl_writeBack_of_not_mem (T : JsNum) (gs : List Goal) (x : Goal)
    (h : ∀ g ∈ gs, g._id ≠ x._id) : gs.foldl (writeBack T) x = x :=
  foldl_writeBack_of_not_receives T gs x (fun g hg e => absurd e (h g hg))

theorem foldl_writeBack_of_mem (T : JsNum) (gs : List Goal) (x : Goal)
    (hnd : (gs.map Goal._id).Nodup) (hx : x ∈ gs) :
    gs.foldl (writeBack T) x = writeBack T x x := by
  induction gs with
  | nil => simp at hx
  | cons g gs ih =>
    rw [List.map_cons, List.nodup_cons] at hnd
    rw [List.foldl_cons]
    rcases List.mem_cons.1 hx with rfl | hmem
    · have hrest : ∀ y ∈ gs, y._id ≠ (writeBack T x x)._id := by
        intro y hy e
        rw [writeBack_id] at e
        exact hnd.1 (e ▸ List.mem_map_of_mem Goal._id hy)
      exact foldl_writeBack_of_not_mem T gs _ hrest
    · have hne : g._id ≠ x._id := by
        intro e
        exact hnd.1 (e ▸ List.mem_map_of_mem Goal._id hmem)
      have hstep : writeBack T x g = x := by simp [writeBack, hne]
      rw [hstep]
      exact ih hnd.2 hmem

theorem mem_findAutoGoals (s : Store) (uid : ObjectId) (g : Goal) :
    g ∈ findAutoGoals s uid ↔ g ∈ s.goals ∧ g.user = uid ∧ g.autoAllocate = true := by
  unfold findAutoGoals
  rw [(List.perm_insertionSort _ _).mem_iff]
  simp [List.mem_filter]

theorem nodup_findAutoGoals (s : Store) (uid : ObjectId) (hnd : (s.goals.map Goal._id).Nodup) :
    ((findAutoGoals s uid).map Goal._id).Nodup := by
  unfold findAutoGoals
  have hperm := (List.perm_insertionSort (fun a b : Goal => a.priority ≤ b.priority)
    (s.goals.filter (fun g => decide (g.user = uid) && g.autoAllocate))).map Goal._id
  rw [hperm.nodup_iff]
  exact hnd.sublist ((List.filter_sublist _).map Goal._id)

theorem eq_of_id_eq {l : List Goal} (hnd : (l.map Goal._id).Nodup) {x y : Goal}
    (hx : x ∈ l) (hy : y ∈ l) (h : x._id = y._id) : x = y :=
  List.inj_on_of_nodup_map hnd hx hy h

theorem autoAllocateSavings_snd (s : Store) (uid : ObjectId) :
    (autoAllocateSavings s uid).2
      = (allocateLoop (sumAmounts (findIncome s uid)) (findAutoGoals s uid) s []).1 := by
  unfold autoAllocateSavings
  by_cases h : (findAutoGoals s uid).length = 0
  · have hnil : findAutoGoals s uid = [] := List.length_eq_zero.1 h
    simp [hnil, allocateLoop]
  · simp only [h, if_false]
    split <;> rfl

theorem autoAllocateSavings_transactions (s : Store) (uid : ObjectId) :
    (autoAllocateSavings s uid).2.transactions = s.transactions := by
  rw [autoAllocateSavings_snd, allocateLoop_transactions]

theorem autoAllocateSavings_ids (s : Store) (uid : ObjectId) :
    (autoAllocateSavings s uid).2.goals.map Goal._id = s.goals.map Goal._id := by
  rw [autoAllocateSavings_snd, allocateLoop_goals, List.map_map]
  apply List.map_congr_left
  intro x _
  exact foldl_writeBack_id _ _ _

theorem no_save_rejected (s : Store) (uid : ObjectId)
    (hstored : ∀ g ∈ s.goals, storable g.savedAmount = true) :
    ∀ g ∈ findAutoGoals s uid, receives (sumAmounts (findIncome s uid)) g = true →
      increasedSavedAmount (sumAmounts (findIncome s uid)) g ≠ JsNum.nan := by
  intro g hg hr
  exact add_ne_nan _ _ (hstored g ((mem_findAutoGoals s uid g).1 hg).1) hr

theorem autoAllocateSavings_goals (s : Store) (uid : ObjectId)
    (hnd : (s.goals.map Goal._id).Nodup)
    (hstored : ∀ g ∈ s.goals, storable g.savedAmount = true) :
    (autoAllocateSavings s uid).2.goals
      = s.goals.map (afterCall (sumAmounts (findIncome s uid)) uid) := by
  rw [autoAllocateSavings_snd, allocateLoop_goals,
    processed_eq_self _ _ (no_save_rejected s uid hstored)]
  apply List.map_congr_left
  intro x hx
  by_cases hq : x.user = uid ∧ x.autoAllocate = true
  · have hmem : x ∈ findAutoGoals s uid := (mem_findAutoGoals s uid x).2 ⟨hx, hq⟩
    rw [foldl_writeBack_of_mem _ _ _ (nodup_findAutoGoals s uid hnd) hmem]
    simp [afterCall, writeBack, hq]
  · have hnone : ∀ g ∈ findAutoGoals s uid, g._id ≠ x._id := by
      intro g hg e
      obtain ⟨hgs, hgq⟩ := (mem_findAutoGoals s uid g).1 hg
      have : g = x := eq_of_id_eq hnd hgs hx e
      exact hq (this ▸ hgq)
    rw [foldl_writeBack_of_not_mem _ _ _ hnone]
    have hq2 : ¬ (x.user = uid ∧ x.autoAllocate = true
        ∧ receives (sumAmounts (findIncome s uid)) x = true) := fun h => hq ⟨h.1, h.2.1⟩
    simp [afterCall, hq2]

theorem afterCall_id (T : JsNum) (uid : ObjectId) (g : Goal) :
    (afterCall T uid g)._id = g._id := by
  unfold afterCall
  split_ifs <;> rfl

theorem goal_after_call (s : Store) (uid : ObjectId) (hnd : (s.goals.map Goal._id).Nodup)
    (hstored : ∀ g ∈ s.goals, storable g.savedAmount = true)
    (g g' : Goal) (hg : g ∈ s.goals) (hg' : g' ∈ (autoAllocateSavings s uid).2.goals)
    (hid : g'._id = g._id) : g' = afterCall (sumAmounts (findIncome s uid)) uid g := by
  rw [autoAllocateSavings_goals s uid hnd hstored, List.mem_map] at hg'
  obtain ⟨x, hx, rfl⟩ := hg'
  rw [afterCall_id] at hid
  rw [eq_of_id_eq hnd hx hg hid]

theorem autoAllocateSavings_response (s : Store) (uid : ObjectId)
    (hstored : ∀ g ∈ s.goals, storable g.savedAmount = true)
    (hne : findAutoGoals s uid ≠ []) :
    (autoAllocateSavings s uid).1
      = .ok
        { message := "Savings automatically allocated to goals."
          totalAllocated :=
            (((findAutoGoals s uid).filter (receives (sumAmounts (findIncome s uid)))).map
              (allocationEntry (sumAmounts (findIncome s uid)))).foldl
              (fun sum a => JsNum.add sum a.amount) 0
          allocations :=
            ((findAutoGoals s uid).filter (receives (sumAmounts (findIncome s uid)))).map
              (allocationEntry (sumAmounts (findIncome s uid))) } := by
  have hlen : ¬ (findAutoGoals s uid).length = 0 := fun h => hne (List.length_eq_zero.1 h)
  have hsnd := allocateLoop_snd (sumAmounts (findIncome s uid)) (findAutoGoals s uid) s []
    (no_save_rejected s uid hstored)
  simp only [autoAllocateSavings, hlen, if_false, hsnd, List.nil_append]

theorem allocateLoop_snd_of_some (T : JsNum) (gs : List Goal) (s : Store)
    (acc l : List Allocation) (h : (allocateLoop T gs s acc).2 = some l) :
    l = acc ++ (gs.filter (receives T)).map (allocationEntry T) := by
  induction gs generalizing s acc with
  | nil =>
    simp only [allocateLoop, Option.some.injEq] at h
    simp [← h]
  | cons g gs ih =>
    unfold allocateLoop at h
    by_cases hg : JsNum.gt (actualAllocation T g) 0 = true
    · have hr : receives T g = true := hg
      by_cases hn : increasedSavedAmount T g = JsNum.nan
      · simp [hg, hn] at h
      · simp only [hg, hn, if_true, if_false] at h
        rw [ih _ _ h]
        simp [hr]
    · have hf : JsNum.gt (actualAllocation T g) 0 = false := by simpa using hg
      have hr : receives T g = false := hf
      simp only [hf, Bool.false_eq_true, if_false] at h
      rw [ih _ _ h]
      simp [hr]

theorem autoAllocateSavings_allocations_of_receives (s : Store) (uid : ObjectId) :
    ∀ e ∈ (autoAllocateSavings s uid).1.allocations,
      ∃ g ∈ findAutoGoals s uid, receives (sumAmounts (findIncome s uid)) g = true
        ∧ e = allocationEntry (sumAmounts (findIncome s uid)) g := by
  intro e he
  unfold autoAllocateSavings at he
  by_cases hlen : (findAutoGoals s uid).length = 0
  · simp [hlen, AllocateResponse.allocations] at he
  · simp only [hlen, if_false] at he
    cases hres : (allocateLoop (sumAmounts (findIncome s uid)) (findAutoGoals s uid) s []).2 with
    | none => simp [hres, AllocateResponse.allocations] at he
    | some l =>
      simp only [hres, AllocateResponse.allocations] at he
      rw [allocateLoop_snd_of_some _ _ _ _ _ hres, List.nil_append, List.mem_map] at he
      obtain ⟨g, hg, rfl⟩ := he
      rw [List.mem_filter] at hg
      exact ⟨g, hg.1, hg.2, rfl⟩

/-! ## Repeated calls on whole amounts -/

theorem autoAllocateSavings_goals_of_auto (s : Store) (uid : ObjectId)
    (hnd : (s.goals.map Goal._id).Nodup)
    (hauto : ∀ g ∈ findAutoGoals s uid, storable g.savedAmount = true) :
    (autoAllocateSavings s uid).2.goals
      = s.goals.map (afterCall (sumAmounts (findIncome s uid)) uid) := by
  have hok : ∀ g ∈ findAutoGoals s uid, receives (sumAmounts (findIncome s uid)) g = true →
      increasedSavedAmount (sumAmounts (findIncome s uid)) g ≠ JsNum.nan :=
    fun g hg hr => add_ne_nan _ _ (hauto g hg) hr
  rw [autoAllocateSavings_snd, allocateLoop_goals, processed_eq_self _ _ hok]
  apply List.map_congr_left
  intro x hx
  by_cases hq : x.user = uid ∧ x.autoAllocate = true
  · have hmem : x ∈ findAutoGoals s uid := (mem_findAutoGoals s uid x).2 ⟨hx, hq⟩
    rw [foldl_writeBack_of_mem _ _ _ (nodup_findAutoGoals s uid hnd) hmem]
    simp [afterCall, writeBack, hq]
  · have hnone : ∀ g ∈ findAutoGoals s uid, g._id ≠ x._id := by
      intro g hg e
      obtain ⟨hgs, hgq⟩ := (mem_findAutoGoals s uid g).1 hg
      have : g = x := eq_of_id_eq hnd hgs hx e
      exact hq (this ▸ hgq)
    rw [foldl_writeBack_of_not_mem _ _ _ hnone]
    have hq2 : ¬ (x.user = uid ∧ x.autoAllocate = true
        ∧ receives (sumAmounts (findIncome s uid)) x = true) := fun h => hq ⟨h.1, h.2.1⟩
    simp [afterCall, hq2]

theorem afterCall_fields (T : JsNum) (uid : ObjectId) (g : Goal) :
    (afterCall T uid g).user = g.user ∧ (afterCall T uid g).autoAllocate = g.autoAllocate
    ∧ (afterCall T uid g).targetAmount = g.targetAmount
    ∧ allocationPercent (afterCall T uid g) = allocationPercent g := by
  unfold afterCall
  split_ifs <;> exact ⟨rfl, rfl, rfl, rfl⟩

theorem afterCall_whole (Tinc : JsNum) (uid : ObjectId) (g : Goal) (s0 T a : ℕ)
    (hw : wholeGoal Tinc g s0 T a) (hu : g.user = uid) (ha : g.autoAllocate = true) :
    afterCall Tinc uid g
      = { g with savedAmount := JsNum.fin ((max s0 (min T (s0 + a)) : ℕ) : ℚ) }
    ∧ wholeGoal Tinc (afterCall Tinc uid g) (max s0 (min T (s0 + a))) T a := by
  obtain ⟨hs, ht, hs0, hlt, halloc⟩ := hw
  have hactual : actualAllocation Tinc g = JsNum.fin (min (a : ℚ) ((T : ℚ) - s0)) := by
    unfold actualAllocation
    simp only [halloc, hs, ht, JsNum.sub_whole T s0 hlt hs0, JsNum.min]
  have hres : afterCall Tinc uid g
      = { g with savedAmount := JsNum.fin ((max s0 (min T (s0 + a)) : ℕ) : ℚ) } := by
    unfold afterCall
    by_cases hr : receives Tinc g = true
    · have hpos : (0 : ℚ) < min (a : ℚ) ((T : ℚ) - s0) := by
        unfold receives at hr
        rw [hactual, JsNum.zero_eq_fin] at hr
        simpa [JsNum.gt, JsNum.lt] using hr
      have hle : s0 ≤ T := by
        have h2 : (0 : ℚ) < (T : ℚ) - s0 := lt_of_lt_of_le hpos (min_le_right _ _)
        have h3 : (s0 : ℚ) < T := by linarith
        exact le_of_lt (Nat.cast_lt.1 h3)
      have hmin : min (a : ℚ) ((T : ℚ) - s0) = ((min a (T - s0) : ℕ) : ℚ) := by
        push_cast [Nat.cast_sub hle]
        rfl
      have hinc : increasedSavedAmount Tinc g
          = JsNum.fin ((max s0 (min T (s0 + a)) : ℕ) : ℚ) := by
        unfold increasedSavedAmount
        rw [hactual, hs, hmin, JsNum.add_whole s0 (min a (T - s0))]
        · congr 2
          omega
        · have h1 : s0 + min a (T - s0) ≤ T := by omega
          exact lt_of_le_of_lt (by exact_mod_cast h1) hlt
      simp only [hu, ha, hr, and_self, if_true, hinc]
    · have hrf : receives Tinc g = false := by simpa using hr
      have hnonpos : min (a : ℚ) ((T : ℚ) - s0) ≤ 0 := by
        unfold receives at hrf
        rw [hactual, JsNum.zero_eq_fin] at hrf
        have hdec : decide ((0 : ℚ) < min (a : ℚ) ((T : ℚ) - s0)) = false := hrf
        exact not_lt.1 (of_decide_eq_false hdec)
      have hsame : max s0 (min T (s0 + a)) = s0 := by
        rcases min_le_iff.1 hnonpos with h | h
        · have h0 : a = 0 := by
            have : (a : ℚ) ≤ ((0 : ℕ) : ℚ) := by simpa using h
            have := Nat.cast_le.1 this
            omega
          omega
        · have h3 : (T : ℚ) ≤ s0 := by linarith
          have := Nat.cast_le.1 h3
          omega
      simp only [hrf, Bool.false_eq_true, and_false, if_false, hsame, ← hs]
  refine ⟨hres, ?_⟩
  rw [hres]
  refine ⟨rfl, ht, ?_, hlt, halloc⟩
  have hmax : max s0 (min T (s0 + a)) ≤ max s0 T := by omega
  rcases le_total s0 T with h | h
  · rw [max_eq_right h] at hmax
    exact lt_of_le_of_lt (by exact_mod_cast hmax) hlt
  · rw [max_eq_left h] at hmax
    exact lt_of_le_of_lt (by exact_mod_cast hmax) hs0

theorem allocateTimes_whole (uid : ObjectId) (n : ℕ) :
    ∀ s : Store, (s.goals.map Goal._id).Nodup →
      (∀ x ∈ s.goals, x.user = uid → x.autoAllocate = true →
        ∃ s0 T a : ℕ, wholeGoal (sumAmounts (findIncome s uid)) x s0 T a) →
      ∀ g ∈ s.goals, g.user = uid → g.autoAllocate = true →
        ∀ s0 T a : ℕ, wholeGoal (sumAmounts (findIncome s uid)) g s0 T a →
          ∀ g' ∈ (allocateTimes uid n s).goals, g'._id = g._id →
            g' = { g with
              savedAmount := JsNum.fin ((max s0 (min T (s0 + n * a)) : ℕ) : ℚ) } := by
  induction n with
  | zero =>
    intro s hnd _ g hg _ _ s0 T a hw g' hg' hid
    have hgg : g' = g := eq_of_id_eq hnd hg' hg hid
    have hsame : max s0 (min T (s0 + 0 * a)) = s0 := by
      simp only [zero_mul, add_zero]
      omega
    rw [hgg, hsame, ← hw.1]
  | succ n ih =>
    intro s hnd hall g hg hu ha s0 T a hw g' hg' hid
    have hauto : ∀ x ∈ findAutoGoals s uid, storable x.savedAmount = true := by
      intro x hx
      obtain ⟨hxs, hxu, hxa⟩ := (mem_findAutoGoals s uid x).1 hx
      obtain ⟨x0, _, _, hxw⟩ := hall x hxs hxu hxa
      rw [hxw.1]
      rfl
    have hgoals := autoAllocateSavings_goals_of_auto s uid hnd hauto
    have hnd1 : ((autoAllocateSavings s uid).2.goals.map Goal._id).Nodup := by
      rw [autoAllocateSavings_ids]
      exact hnd
    have hincome : sumAmounts (findIncome (autoAllocateSavings s uid).2 uid)
        = sumAmounts (findIncome s uid) := by
      simp only [findIncome, autoAllocateSavings_transactions]
    have hall1 : ∀ x ∈ (autoAllocateSavings s uid).2.goals, x.user = uid →
        x.autoAllocate = true →
        ∃ s0 T a : ℕ, wholeGoal (sumAmounts (findIncome (autoAllocateSavings s uid).2 uid))
          x s0 T a := by
      intro x1 hx1 hx1u hx1a
      rw [hgoals, List.mem_map] at hx1
      obtain ⟨x, hx, rfl⟩ := hx1
      obtain ⟨f1, f2, _, _⟩ := afterCall_fields (sumAmounts (findIncome s uid)) uid x
      rw [f1] at hx1u
      rw [f2] at hx1a
      obtain ⟨x0, xT, xa, hxw⟩ := hall x hx hx1u hx1a
      rw [hincome]
      exact ⟨_, _, _, (afterCall_whole _ uid x x0 xT xa hxw hx1u hx1a).2⟩
    obtain ⟨hres, hw1⟩ := afterCall_whole _ uid g s0 T a hw hu ha
    have hg1 : afterCall (sumAmounts (findIncome s uid)) uid g
        ∈ (autoAllocateSavings s uid).2.goals := by
      rw [hgoals]
      exact List.mem_map.2 ⟨g, hg, rfl⟩
    obtain ⟨f1, f2, _, _⟩ := afterCall_fields (sumAmounts (findIncome s uid)) uid g
    have := ih (autoAllocateSavings s uid).2 hnd1 hall1
      (afterCall (sumAmounts (findIncome s uid)) uid g) hg1 (by rw [f1]; exact hu)
      (by rw [f2]; exact ha) (max s0 (min T (s0 + a))) T a (by rw [hincome]; exact hw1) g' hg'
      (by rw [afterCall_id]; exact hid)
    rw [this, hres]
    have harith : max (max s0 (min T (s0 + a))) (min T (max s0 (min T (s0 + a)) + n * a))
        = max s0 (min T (s0 + (n + 1) * a)) := by
      rw [Nat.succ_mul]
      generalize n * a = k
      omega
    simp only [harith]

theorem sum_map_ite_eq_filter {α : Type} (p : α → Bool) (f : α → ℚ) (l : List α) :
    (l.map (fun x => if p x = true then f x else 0)).sum = ((l.filter p).map f).sum := by
  induction l with
  | nil => rfl
  | cons x l ih =>
    by_cases h : p x = true
    · simp [List.filter_cons, h, ih]
    · simp [List.filter_cons, h, ih]

theorem gain_whole (Tinc : JsNum) (uid : ObjectId) (g : Goal) (s0 T a : ℕ)
    (hw : wholeGoal Tinc g s0 T a) (hu : g.user = uid) (ha : g.autoAllocate = true) :
    (afterCall Tinc uid g).savedAmount.value - g.savedAmount.value
      = (if receives Tinc g = true then (actualAllocation Tinc g).value else 0)
    ∧ (∃ k : ℕ, actualAllocation Tinc g = JsNum.fin k) ∨
      (receives Tinc g = false
        ∧ (afterCall Tinc uid g).savedAmount.value - g.savedAmount.value = 0) := by
  obtain ⟨hs, ht, hs0, hlt, halloc⟩ := hw
  have hactual : actualAllocation Tinc g = JsNum.fin (min (a : ℚ) ((T : ℚ) - s0)) := by
    unfold actualAllocation
    simp only [halloc, hs, ht, JsNum.sub_whole T s0 hlt hs0, JsNum.min]
  by_cases hr : receives Tinc g = true
  · left
    have hpos : (0 : ℚ) < min (a : ℚ) ((T : ℚ) - s0) := by
      unfold receives at hr
      rw [hactual, JsNum.zero_eq_fin] at hr
      simpa [JsNum.gt, JsNum.lt] using hr
    have hle : s0 ≤ T := by
      have h2 : (0 : ℚ) < (T : ℚ) - s0 := lt_of_lt_of_le hpos (min_le_right _ _)
      have h3 : (s0 : ℚ) < T := by linarith
      exact le_of_lt (Nat.cast_lt.1 h3)
    have hmin : min (a : ℚ) ((T : ℚ) - s0) = ((min a (T - s0) : ℕ) : ℚ) := by
      push_cast [Nat.cast_sub hle]
      rfl
    have hinc : increasedSavedAmount Tinc g = JsNum.fin (((s0 + min a (T - s0) : ℕ) : ℕ) : ℚ) := by
      unfold increasedSavedAmount
      rw [hactual, hs, hmin, JsNum.add_whole s0 (min a (T - s0))]
      have h1 : s0 + min a (T - s0) ≤ T := by omega
      exact lt_of_le_of_lt (by exact_mod_cast h1) hlt
    refine ⟨?_, min a (T - s0), by rw [hactual, hmin]⟩
    simp only [afterCall, hu, ha, hr, and_self, if_true, hinc, hs, hactual, hmin, JsNum.value]
    push_cast
    ring
  · right
    have hrf : receives Tinc g = false := by simpa using hr
    refine ⟨hrf, ?_⟩
    simp only [afterCall, hrf, Bool.false_eq_true, and_false, if_false, sub_self]

theorem allocations_sum_whole (s : Store) (uid : ObjectId) (hnd : (s.goals.map Goal._id).Nodup)
    (hall : ∀ x ∈ s.goals, x.user = uid → x.autoAllocate = true →
      ∃ s0 T a : ℕ, wholeGoal (sumAmounts (findIncome s uid)) x s0 T a) :
    ((autoAllocateSavings s uid).2.goals.map (fun x => x.savedAmount.value)).sum
        - (s.goals.map (fun x => x.savedAmount.value)).sum
      = ((((findAutoGoals s uid).filter (receives (sumAmounts (findIncome s uid)))).map
          (allocationEntry (sumAmounts (findIncome s uid)))).map
          (fun e => e.amount.value)).sum
    ∧ ∀ e ∈ ((findAutoGoals s uid).filter (receives (sumAmounts (findIncome s uid)))).map
          (allocationEntry (sumAmounts (findIncome s uid))),
        ∃ k : ℕ, e.amount = JsNum.fin k := by
  have hauto : ∀ x ∈ findAutoGoals s uid, storable x.savedAmount = true := by
    intro x hx
    obtain ⟨hxs, hxu, hxa⟩ := (mem_findAutoGoals s uid x).1 hx
    obtain ⟨x0, _, _, hxw⟩ := hall x hxs hxu hxa
    rw [hxw.1]
    rfl
  constructor
  · rw [autoAllocateSavings_goals_of_auto s uid hnd hauto, List.map_map]
    have hcomp : ((fun x : Goal => x.savedAmount.value)
          ∘ afterCall (sumAmounts (findIncome s uid)) uid)
        = (fun x => (afterCall (sumAmounts (findIncome s uid)) uid x).savedAmount.value) := rfl
    rw [hcomp,
      ← sum_map_sub (fun x => ((afterCall (sumAmounts (findIncome s uid)) uid x).savedAmount.value))
        (fun x => x.savedAmount.value)]
    have hterm : ∀ x ∈ s.goals,
        (afterCall (sumAmounts (findIncome s uid)) uid x).savedAmount.value - x.savedAmount.value
          = (if (decide (x.user = uid) && x.autoAllocate
                && receives (sumAmounts (findIncome s uid)) x) = true
              then (actualAllocation (sumAmounts (findIncome s uid)) x).value else 0) := by
      intro x hx
      by_cases hq : x.user = uid ∧ x.autoAllocate = true
      · obtain ⟨x0, xT, xa, hxw⟩ := hall x hx hq.1 hq.2
        rcases gain_whole _ uid x x0 xT xa hxw hq.1 hq.2 with ⟨h1, _⟩ | ⟨hrf, h0⟩
        · rw [h1]
          simp [hq.1, hq.2]
        · rw [h0]
          simp [hrf]
      · have hsame : afterCall (sumAmounts (findIncome s uid)) uid x = x := by
          unfold afterCall
          rw [if_neg (fun h => hq ⟨h.1, h.2.1⟩)]
        rw [hsame, sub_self]
        have : (decide (x.user = uid) && x.autoAllocate) = false := by
          by_cases hu : x.user = uid
          · have : x.autoAllocate = false := by
              cases hxa : x.autoAllocate
              · rfl
              · exact absurd ⟨hu, hxa⟩ hq
            simp [hu, this]
          · simp [hu]
        simp [this]
    rw [List.map_congr_left hterm,
      sum_map_ite_eq_filter
        (fun x => decide (x.user = uid) && x.autoAllocate
          && receives (sumAmounts (findIncome s uid)) x)
        (fun x => (actualAllocation (sumAmounts (findIncome s uid)) x).value)]
    have hperm : ((findAutoGoals s uid).filter (receives (sumAmounts (findIncome s uid)))).Perm
        (s.goals.filter (fun x => decide (x.user = uid) && x.autoAllocate
          && receives (sumAmounts (findIncome s uid)) x)) := by
      have h1 : (findAutoGoals s uid).Perm
          (s.goals.filter (fun g => decide (g.user = uid) && g.autoAllocate)) :=
        List.perm_insertionSort _ _
      have h2 := h1.filter (receives (sumAmounts (findIncome s uid)))
      rw [List.filter_filter] at h2
      have hfun : (fun a => receives (sumAmounts (findIncome s uid)) a
            && (decide (a.user = uid) && a.autoAllocate))
          = (fun x => decide (x.user = uid) && x.autoAllocate
            && receives (sumAmounts (findIncome s uid)) x) := by
        funext x
        exact Bool.and_comm _ _
      rw [hfun] at h2
      exact h2
    rw [List.map_map]
    exact ((hperm.map _).sum_eq).symm
  · intro e he
    obtain ⟨x, hx, rfl⟩ := List.mem_map.1 he
    obtain ⟨hxm, hr⟩ := List.mem_filter.1 hx
    obtain ⟨hxs, hxu, hxa⟩ := (mem_findAutoGoals s uid x).1 hxm
    obtain ⟨x0, xT, xa, hxw⟩ := hall x hxs hxu hxa
    rcases gain_whole _ uid x x0 xT xa hxw hxu hxa with ⟨_, k, hk⟩ | ⟨hrf, _⟩
    · exact ⟨k, hk⟩
    · rw [hrf] at hr
      exact Bool.noConfusion hr

theorem foldl_add_values_whole (l : List JsNum) (hl : ∀ v ∈ l, ∃ k : ℕ, v = JsNum.fin k)
    (hb : (l.map JsNum.value).sum < 2 ^ 53) :
    l.foldl JsNum.add 0 = JsNum.fin ((l.map JsNum.value).sum) := by
  have hconv : ∀ (l : List JsNum) (a : JsNum), (∀ v ∈ l, ∃ k : ℕ, v = JsNum.fin k) →
      l.foldl JsNum.add a
        = (l.map JsNum.value).foldl (fun sum x => JsNum.add sum (JsNum.fin x)) a := by
    intro l
    induction l with
    | nil => intro a _; rfl
    | cons v l ih =>
      intro a h
      obtain ⟨k, hk⟩ := h v (List.mem_cons_self _ _)
      simp only [List.foldl_cons, List.map_cons]
      rw [ih _ (fun x hx => h x (List.mem_cons_of_mem _ hx)), hk]
      rfl
  rw [hconv l _ hl, JsNum.zero_eq_fin]
  have := (foldl_add_whole (l.map JsNum.value) 0 (fun x hx => by
    obtain ⟨v, hv, rfl⟩ := List.mem_map.1 hx
    obtain ⟨k, hk⟩ := hl v hv
    exact ⟨k, by rw [hk]; rfl⟩) (by simpa using hb)).1
  simpa using this

theorem goalStore_whole :
    ∀ x ∈ goalStore.goals, x.user = 7 → x.autoAllocate = true →
      ∃ s0 T a : ℕ, wholeGoal (jsSum ((findIncome goalStore 7).map Transaction.amount))
        x s0 T a := by
  intro x hx hu ha
  have hmem : x ∈ findAutoGoals goalStore 7 := (mem_findAutoGoals goalStore 7 x).2 ⟨hx, hu, ha⟩
  have hlist : findAutoGoals goalStore 7 = [homeGoal, carGoal, doneGoal] := by decide!
  rw [hlist] at hmem
  simp only [List.mem_cons, List.mem_singleton, List.not_mem_nil, or_false] at hmem
  rcases hmem with rfl | rfl | rfl
  · exact ⟨400, 500, 400, by decide!, by decide!, by norm_num, by norm_num, by decide!⟩
  · exact ⟨0, 10000, 200, by decide!, by decide!, by norm_num, by norm_num, by decide!⟩
  · exact ⟨350, 300, 200, by decide!, by decide!, by norm_num, by norm_num, by decide!⟩

/-! ## Properties of `autoAllocateSavings` -/

theorem actualAllocation_eq_capped (T : JsNum) (g : Goal) :
    actualAllocation T g = cappedAllocation T g := rfl

theorem JsNum.min_not_gt_zero (a r : JsNum) (h : JsNum.gt r 0 = false) :
    JsNum.gt (JsNum.min a r) 0 = false := by
  cases a <;> cases r <;>
    simp_all [JsNum.min, JsNum.gt, JsNum.lt, OfNat.ofNat]

theorem toDouble_not_gt_zero {q : ℚ} (h : q ≤ 0) : JsNum.gt (toDouble q) 0 = false := by
  have hm := toDouble_mono h
  rw [toDouble_zero] at hm
  cases hq : toDouble q <;> simp_all [JsNum.le, JsNum.ge, JsNum.gt, JsNum.lt, OfNat.ofNat]

theorem not_receives_of_reached (T : JsNum) (g : Goal)
    (h : JsNum.ge g.savedAmount (JsNum.fin g.targetAmount) = true) : receives T g = false := by
  unfold receives actualAllocation
  apply JsNum.min_not_gt_zero
  cases hs : g.savedAmount with
  | fin q =>
    rw [hs] at h
    have hle : g.targetAmount - q ≤ 0 := by
      have : g.targetAmount ≤ q := by simpa [JsNum.ge] using h
      linarith
    simpa [JsNum.sub] using toDouble_not_gt_zero hle
  | posInf => simp [JsNum.sub, JsNum.gt, JsNum.lt, OfNat.ofNat]
  | negInf => simp [hs, JsNum.ge] at h
  | nan => simp [hs, JsNum.ge] at h

theorem mem_processed (T : JsNum) (gs : List Goal) (g : Goal) (h : g ∈ processed T gs) :
    g ∈ gs := by
  induction gs with
  | nil => simp [processed] at h
  | cons x gs ih =>
    unfold processed at h
    split_ifs at h
    · simp at h
    · rcases List.mem_cons.1 h with rfl | hmem
      · exact List.mem_cons_self _ _
      · exact List.mem_cons_of_mem _ (ih hmem)

theorem unchanged_of_not_receives (s : Store) (uid : ObjectId)
    (hnd : (s.goals.map Goal._id).Nodup) (g : Goal) (hg : g ∈ s.goals)
    (hr : receives (sumAmounts (findIncome s uid)) g = false) :
    g ∈ (autoAllocateSavings s uid).2.goals := by
  rw [autoAllocateSavings_snd, allocateLoop_goals, List.mem_map]
  refine ⟨g, hg, ?_⟩
  apply foldl_writeBack_of_not_receives
  intro h hh hid
  have hmem : h ∈ findAutoGoals s uid := mem_processed _ _ _ hh
  have : h = g := eq_of_id_eq hnd ((mem_findAutoGoals s uid h).1 hmem).1 hg hid
  rw [this]
  exact hr

theorem findIncome_congr (s t : Store) (uid : ObjectId) (h : t.transactions = s.transactions) :
    findIncome t uid = findIncome s uid := by
  simp [findIncome, h]

theorem saturated_forever (uid : ObjectId) (g : Goal)
    (hfull : JsNum.ge g.savedAmount (JsNum.fin g.targetAmount) = true) (n : ℕ) :
    ∀ s : Store, (s.goals.map Goal._id).Nodup → g ∈ s.goals →
      (∀ g' ∈ (allocateTimes uid n s).goals, g'._id = g._id → g' = g)
      ∧ ∀ e ∈ (autoAllocateSavings (allocateTimes uid n s) uid).1.allocations,
          e.goalId ≠ g._id := by
  induction n with
  | zero =>
    intro s hnd hg
    simp only [allocateTimes]
    constructor
    · intro g' hg' hid
      exact eq_of_id_eq hnd hg' hg hid
    · intro e he hid
      obtain ⟨h, hh, hr, rfl⟩ := autoAllocateSavings_allocations_of_receives s uid e he
      have : h = g := eq_of_id_eq hnd ((mem_findAutoGoals s uid h).1 hh).1 hg hid
      rw [this, not_receives_of_reached _ g hfull] at hr
      exact Bool.noConfusion hr
  | succ n ih =>
    intro s hnd hg
    have hnd1 : ((autoAllocateSavings s uid).2.goals.map Goal._id).Nodup := by
      rw [autoAllocateSavings_ids s uid]
      exact hnd
    have hg1 : g ∈ (autoAllocateSavings s uid).2.goals :=
      unchanged_of_not_receives s uid hnd g hg (not_receives_of_reached _ g hfull)
    exact ih _ hnd1 hg1

/-- C3: the goal with 217.43 saved of a target of 782.93 is at or below its
target; one call with an income of 5655 at 10 percent allocates
min(565.5, 782.93 - 217.43) to it and leaves `savedAmount` at
782.9300000000001, above the target, because the sum of the two doubles is
rounded up. -/
theorem autoAllocateSavings_exceeds_target :
    JsNum.le capGoal.savedAmount (JsNum.fin capGoal.targetAmount) = true
    ∧ (actualAllocation (sumAmounts (findIncome capStore 7)) capGoal).toString = "565.5"
    ∧ (autoAllocateSavings capStore 7).2.goals
      = [{ capGoal with
            savedAmount := JsNum.fin (literal (7829300000000001 / 10000000000000)) }]
    ∧ capGoal.targetAmount < literal (7829300000000001 / 10000000000000)
    ∧ (autoAllocateSavings capStore 7).2.goals.map
        (fun g => (g.savedAmount.toString, numberToString g.targetAmount))
      = [("782.9300000000001", "782.93")] := by
  refine ⟨by decide!, by decide!, by decide!, by decide!, by decide!⟩

/-- C4: a goal whose allocationPercentage is 0 and an income of 2000: the
stated amount min(totalIncome * (0 / 100), targetAmount - savedAmount) is 0,
and the call adds 200, since `goal.allocationPercentage || 10` reads the 0 as
10 percent. -/
theorem autoAllocateSavings_zero_percentage :
    zeroPercentGoal ∈ zeroPercentStore.goals
    ∧ zeroPercentGoal.user = 7 ∧ zeroPercentGoal.autoAllocate = true
    ∧ zeroPercentGoal.allocationPercentage = 0
    ∧ sumAmounts (findIncome zeroPercentStore 7) = 2000
    ∧ JsNum.min
        (JsNum.mul 2000 (JsNum.div (JsNum.fin zeroPercentGoal.allocationPercentage) 100))
        (JsNum.sub (JsNum.fin zeroPercentGoal.targetAmount) zeroPercentGoal.savedAmount) = 0
    ∧ (autoAllocateSavings zeroPercentStore 7).2.goals
        = [{ zeroPercentGoal with savedAmount := 200 }] := by
  refine ⟨by decide!, by decide!, by decide!, by decide!, by decide!, by decide!, by decide!⟩

/-- C5: when the caller has no goal with `autoAllocate = true`, the response
is 404 "No goals with auto-allocation enabled" and the store is returned as it
was. -/
theorem autoAllocateSavings_not_found (s : Store) (uid : ObjectId)
    (h : ∀ g ∈ s.goals, g.user = uid → g.autoAllocate = false) :
    autoAllocateSavings s uid = (.error 404 "No goals with auto-allocation enabled", s) := by
  have hnil : findAutoGoals s uid = [] := by
    apply List.eq_nil_iff_forall_not_mem.2
    intro g hg
    obtain ⟨hgs, hgu, hga⟩ := (mem_findAutoGoals s uid g).1 hg
    rw [h g hgs hgu] at hga
    exact Bool.noConfusion hga
  simp [autoAllocateSavings, hnil]

/-- Witness of C5: a caller whose only goal is not flagged gets 404 and the
store is untouched. -/
theorem autoAllocateSavings_not_found_witness :
    autoAllocateSavings manualStore 7
      = (.error 404 "No goals with auto-allocation enabled", manualStore) :=
  autoAllocateSavings_not_found manualStore 7 (by decide!)

/-! ## Repeated calls and the response of `autoAllocateSavings` -/

/-- Counterexample to C6 as stated: with target 1, nothing saved and 0.1 per
call, min(T, s0 + 10 * a) is 1, but after ten calls the stored `savedAmount` is
0.9999999999999999, and the eleventh call still records an entry for the goal,
of 1.1102230246251565e-16. -/
theorem autoAllocateSavings_tenth_call :
    actualAllocation (sumAmounts (findIncome tenthStore 7)) tenthGoal
      = JsNum.fin (literal (1 / 10))
    ∧ JsNum.min (JsNum.fin tenthGoal.targetAmount)
        (JsNum.add tenthGoal.savedAmount (JsNum.mul 10 (JsNum.fin (literal (1 / 10))))) = 1
    ∧ (allocateTimes 7 10 tenthStore).goals.map (fun g => g.savedAmount.toString)
      = ["0.9999999999999999"]
    ∧ (allocateTimes 7 10 tenthStore).goals ≠ [{ tenthGoal with savedAmount := 1 }]
    ∧ (autoAllocateSavings (allocateTimes 7 10 tenthStore) 7).1.allocations.map
        (fun e => (e.goalId, e.amount.toString))
      = [(6, "1.1102230246251565e-16")] := by
  refine ⟨by decide!, by decide!, by decide!, by decide!, by decide!⟩

/-- C6 (amended): for an auto-allocate goal of the caller in a store with
unique goal ids, one call (no stored `savedAmount` being -Infinity or NaN)
leaves the goal with the sum, as Numbers, of savedAmount and its capped
allocation min(totalIncome * (p / 100), targetAmount - savedAmount) when that
is positive, and unchanged otherwise; once `savedAmount` has reached
`targetAmount`, every further call leaves the goal unchanged and records no
entry for it; and when the amounts of the caller's auto-allocate goals are
whole numbers below 2 ^ 53 (savedAmount s0, targetAmount T, per-call allocation
a), n consecutive calls leave a goal with s0 <= T with min(T, s0 + n * a). -/
theorem autoAllocateSavings_saturates (s : Store) (uid : ObjectId)
    (hnd : (s.goals.map Goal._id).Nodup)
    (g : Goal) (hg : g ∈ s.goals) (hu : g.user = uid) (ha : g.autoAllocate = true) :
    ((∀ x ∈ s.goals, storable x.savedAmount = true) →
      ∀ g' ∈ (autoAllocateSavings s uid).2.goals, g'._id = g._id →
        g' = { g with
          savedAmount :=
            if JsNum.gt
                (cappedAllocation (jsSum ((findIncome s uid).map Transaction.amount)) g) 0 = true
            then JsNum.add g.savedAmount
              (cappedAllocation (jsSum ((findIncome s uid).map Transaction.amount)) g)
            else g.savedAmount })
    ∧ (JsNum.ge g.savedAmount (JsNum.fin g.targetAmount) = true →
        ∀ n : ℕ,
          (∀ g' ∈ (allocateTimes uid n s).goals, g'._id = g._id → g' = g)
          ∧ ∀ e ∈ (autoAllocateSavings (allocateTimes uid n s) uid).1.allocations,
              e.goalId ≠ g._id)
    ∧ ((∀ x ∈ s.goals, x.user = uid → x.autoAllocate = true →
          ∃ s0 T a : ℕ, wholeGoal (jsSum ((findIncome s uid).map Transaction.amount)) x s0 T a) →
        ∀ s0 T a : ℕ, wholeGoal (jsSum ((findIncome s uid).map Transaction.amount)) g s0 T a →
          s0 ≤ T →
          ∀ n : ℕ, ∀ g' ∈ (allocateTimes uid n s).goals, g'._id = g._id →
            g' = { g with savedAmount := JsNum.fin ((min T (s0 + n * a) : ℕ) : ℚ) }) := by
  refine ⟨?_, ?_, ?_⟩
  · intro hstored g' hg' hid
    rw [goal_after_call s uid hnd hstored g g' hg hg' hid, ← sumAmounts_eq_jsSum]
    unfold afterCall
    by_cases hr : receives (sumAmounts (findIncome s uid)) g = true
    · have hr2 : JsNum.gt (cappedAllocation (sumAmounts (findIncome s uid)) g) 0 = true := hr
      simp only [hu, ha, hr, hr2, and_self, if_true]
      rfl
    · have hrf : receives (sumAmounts (findIncome s uid)) g = false := by simpa using hr
      have hr2 : JsNum.gt (cappedAllocation (sumAmounts (findIncome s uid)) g) 0 = false := hrf
      simp only [hrf, hr2, Bool.false_eq_true, and_false, if_false]
  · intro hfull n
    exact saturated_forever uid g hfull n s hnd hg
  · intro hall s0 T a hw hle n g' hg' hid
    rw [← sumAmounts_eq_jsSum] at hall hw
    rw [allocateTimes_whole uid n s hnd hall g hg hu ha s0 T a hw g' hg' hid]
    have hmax : max s0 (min T (s0 + n * a)) = min T (s0 + n * a) := by
      generalize n * a = k
      omega
    rw [hmax]

/-- Witness of C6 (amended) on the sample goals: the goal over its target is
unchanged by any number of calls, and the car goal (nothing saved, target
10000, 200 per call) holds 1400 after 7 calls and 10000 after 60 calls. -/
theorem autoAllocateSavings_saturates_witness :
    (allocateTimes 7 60 goalStore).goals.map Goal.savedAmount = [10000, 500, 350, 0]
    ∧ (∀ n : ℕ,
        (∀ g' ∈ (allocateTimes 7 n goalStore).goals, g'._id = doneGoal._id → g' = doneGoal)
        ∧ ∀ e ∈ (autoAllocateSavings (allocateTimes 7 n goalStore) 7).1.allocations,
            e.goalId ≠ doneGoal._id)
    ∧ (∀ g' ∈ (allocateTimes 7 7 goalStore).goals, g'._id = carGoal._id →
        g' = { carGoal with savedAmount := JsNum.fin 1400 }) := by
  have hcar : wholeGoal (jsSum ((findIncome goalStore 7).map Transaction.amount)) carGoal
      0 10000 200 := by
    refine ⟨by decide!, by decide!, by norm_num, by norm_num, by decide!⟩
  refine ⟨by decide!,
    (autoAllocateSavings_saturates goalStore 7 (by decide!) doneGoal (by decide!) (by decide!)
      (by decide!)).2.1 (by decide!), ?_⟩
  intro g' hg' hid
  have := (autoAllocateSavings_saturates goalStore 7 (by decide!) carGoal (by decide!)
    (by decide!) (by decide!)).2.2 goalStore_whole 0 10000 200 hcar (by decide) 7 g' hg' hid
  rw [this]
  rfl

/-- Counterexample to C7 as stated: the goal with 0.1 saved receives 0.2, so
totalAllocated is 0.2, but its `savedAmount` goes from 0.1 to
0.30000000000000004, and savedAmount after - savedAmount before is
0.20000000000000004 as a Number and is not 0.2 as a real number either. -/
theorem autoAllocateSavings_total_differs :
    (autoAllocateSavings dimeStore 7).1.totalAllocated = JsNum.fin (literal (2 / 10))
    ∧ (autoAllocateSavings dimeStore 7).2.goals
      = [{ dimeGoal with savedAmount := JsNum.fin (literal (30000000000000004 / 100000000000000000)) }]
    ∧ JsNum.sub (JsNum.fin (literal (30000000000000004 / 100000000000000000))) dimeGoal.savedAmount
      = JsNum.fin (literal (20000000000000004 / 100000000000000000))
    ∧ literal (30000000000000004 / 100000000000000000) - literal (1 / 10) ≠ literal (2 / 10)
    ∧ literal (20000000000000004 / 100000000000000000) ≠ literal (2 / 10) := by
  refine ⟨by decide!, by decide!, by decide!, by decide!, by decide!⟩

/-- C7 (amended): when the caller has an auto-allocate goal (ids unique, no
stored `savedAmount` -Infinity or NaN), the response carries one entry (goal
id, title, amount, new progress) for exactly the found goals whose capped
allocation is positive, in the order of the found list, which is the caller's
auto-allocate goals sorted by ascending priority; the amount of an entry is the
capped allocation, totalAllocated is the entries' amounts added up as Numbers
in that order, and a goal with an entry is stored with the sum, as Numbers, of
its `savedAmount` and the amount; when the amounts of the caller's
auto-allocate goals are whole numbers below 2 ^ 53, the sum of the entries'
amounts is the sum over all goals of savedAmount after minus savedAmount
before, and it is totalAllocated when it is below 2 ^ 53. -/
theorem autoAllocateSavings_entries (s : Store) (uid : ObjectId)
    (hnd : (s.goals.map Goal._id).Nodup)
    (hstored : ∀ x ∈ s.goals, storable x.savedAmount = true)
    (hsome : ∃ g ∈ s.goals, g.user = uid ∧ g.autoAllocate = true) :
    ∃ body, (autoAllocateSavings s uid).1 = .ok body
      ∧ body.allocations
          = ((findAutoGoals s uid).filter (fun g => JsNum.gt
              (cappedAllocation (jsSum ((findIncome s uid).map Transaction.amount)) g) 0)).map
            (fun g =>
              { goalId := g._id
                goalTitle := g.title
                amount := cappedAllocation (jsSum ((findIncome s uid).map Transaction.amount)) g
                newProgress :=
                  Goal.progress
                    { g with
                      savedAmount := JsNum.add g.savedAmount
                        (cappedAllocation (jsSum ((findIncome s uid).map Transaction.amount))
                          g) } })
      ∧ (findAutoGoals s uid).Sorted (fun a b => a.priority ≤ b.priority)
      ∧ (findAutoGoals s uid).Perm
          (s.goals.filter (fun g => decide (g.user = uid) && g.autoAllocate))
      ∧ body.totalAllocated
          = (body.allocations.map Allocation.amount).foldl JsNum.add 0
      ∧ (∀ g ∈ findAutoGoals s uid,
          JsNum.gt (cappedAllocation (jsSum ((findIncome s uid).map Transaction.amount)) g) 0
            = true →
          { g with
            savedAmount := JsNum.add g.savedAmount
              (cappedAllocation (jsSum ((findIncome s uid).map Transaction.amount)) g) }
            ∈ (autoAllocateSavings s uid).2.goals)
      ∧ ((∀ x ∈ s.goals, x.user = uid → x.autoAllocate = true →
            ∃ s0 T a : ℕ,
              wholeGoal (jsSum ((findIncome s uid).map Transaction.amount)) x s0 T a) →
          ((autoAllocateSavings s uid).2.goals.map (fun x => x.savedAmount.value)).sum
              - (s.goals.map (fun x => x.savedAmount.value)).sum
            = (body.allocations.map (fun e => e.amount.value)).sum
          ∧ ((body.allocations.map (fun e => e.amount.value)).sum < 2 ^ 53 →
              body.totalAllocated
                = JsNum.fin ((body.allocations.map (fun e => e.amount.value)).sum))) := by
  obtain ⟨g0, hg0, hq0⟩ := hsome
  have hne : findAutoGoals s uid ≠ [] := by
    intro h
    have hmem := (mem_findAutoGoals s uid g0).2 ⟨hg0, hq0⟩
    rw [h] at hmem
    exact List.not_mem_nil _ hmem
  refine ⟨_, autoAllocateSavings_response s uid hstored hne, ?_, ?_, List.perm_insertionSort _ _,
    ?_, ?_, ?_⟩
  · rw [sumAmounts_eq_jsSum]
    rfl
  · exact @List.sorted_insertionSort Goal (fun a b => a.priority ≤ b.priority) _
      ⟨fun a b => le_total a.priority b.priority⟩
      ⟨fun _ _ _ hab hbc => le_trans hab hbc⟩ _
  · simp only [List.foldl_map]
  · intro g hg hr
    rw [autoAllocateSavings_goals s uid hnd hstored, List.mem_map]
    obtain ⟨hgs, hgu, hga⟩ := (mem_findAutoGoals s uid g).1 hg
    refine ⟨g, hgs, ?_⟩
    rw [← sumAmounts_eq_jsSum] at hr ⊢
    have hr2 : receives (sumAmounts (findIncome s uid)) g = true := hr
    simp only [afterCall, hgu, hga, hr2, and_self, if_true]
    rfl
  · intro hall
    rw [← sumAmounts_eq_jsSum] at hall
    obtain ⟨hsum, hk⟩ := allocations_sum_whole s uid hnd hall
    refine ⟨hsum, ?_⟩
    intro hb
    have := foldl_add_values_whole
      ((((findAutoGoals s uid).filter (receives (sumAmounts (findIncome s uid)))).map
        (allocationEntry (sumAmounts (findIncome s uid)))).map Allocation.amount)
      (fun v hv => by
        obtain ⟨e, he, rfl⟩ := List.mem_map.1 hv
        exact hk e he)
      (by simpa [List.map_map, Function.comp] using hb)
    simpa [List.foldl_map, List.map_map, Function.comp] using this

/-- Witness of C7 (amended) on the sample goals: entries for Home (100) and Car
(200) in priority order, none for the goal over its target, total 300, which is
also what the saved amounts of the goals gain together. -/
theorem autoAllocateSavings_entries_witness :
    (autoAllocateSavings goalStore 7).1
      = .ok ⟨"Savings automatically allocated to goals.", 300,
          [⟨2, "Home", 100, .int 100⟩, ⟨1, "Car", 200, .int 2⟩]⟩
    ∧ (autoAllocateSavings goalStore 7).2.goals.map Goal.savedAmount = [200, 500, 350, 0]
    ∧ ∃ body, (autoAllocateSavings goalStore 7).1 = .ok body
      ∧ body.totalAllocated = (body.allocations.map Allocation.amount).foldl JsNum.add 0
      ∧ ((autoAllocateSavings goalStore 7).2.goals.map (fun x => x.savedAmount.value)).sum
          - (goalStore.goals.map (fun x => x.savedAmount.value)).sum
        = (body.allocations.map (fun e => e.amount.value)).sum := by
  obtain ⟨body, hbody, _, _, _, htotal, _, hwhole⟩ :=
    autoAllocateSavings_entries goalStore 7 (by decide!) (by decide!) ⟨carGoal, by decide!⟩
  exact ⟨by decide!, by decide!, body, hbody, htotal, (hwhole goalStore_whole).1⟩

/-! ## Independence of the allocation from the processing order -/

theorem foldl_writeBack_unique (T : JsNum) (gs : List Goal) (x g : Goal)
    (hnd : (gs.map Goal._id).Nodup) (hg : g ∈ gs) (hid : g._id = x._id) :
    gs.foldl (writeBack T) x = writeBack T x g := by
  induction gs generalizing x with
  | nil => simp at hg
  | cons h gs ih =>
    rw [List.map_cons, List.nodup_cons] at hnd
    rw [List.foldl_cons]
    rcases List.mem_cons.1 hg with rfl | hmem
    · apply foldl_writeBack_of_not_mem
      intro y hy e
      rw [writeBack_id] at e
      exact hnd.1 ((e.trans hid.symm) ▸ List.mem_map_of_mem Goal._id hy)
    · have hne : h._id ≠ x._id := by
        intro e
        exact hnd.1 ((e.trans hid.symm) ▸ List.mem_map_of_mem Goal._id hmem)
      have hstep : writeBack T x h = x := by simp [writeBack, hne]
      rw [hstep]
      exact ih x hnd.2 hmem hid

theorem foldl_writeBack_perm (T : JsNum) (gs gs' : List Goal) (hperm : gs.Perm gs')
    (hnd : (gs.map Goal._id).Nodup) (x : Goal) :
    gs.foldl (writeBack T) x = gs'.foldl (writeBack T) x := by
  have hnd' : (gs'.map Goal._id).Nodup := (hperm.map Goal._id).nodup_iff.1 hnd
  by_cases h : ∃ g ∈ gs, g._id = x._id
  · obtain ⟨g, hg, hid⟩ := h
    rw [foldl_writeBack_unique T gs x g hnd hg hid,
      foldl_writeBack_unique T gs' x g hnd' (hperm.mem_iff.1 hg) hid]
  · have h1 : ∀ g ∈ gs, g._id ≠ x._id := fun g hg e => h ⟨g, hg, e⟩
    have h2 : ∀ g ∈ gs', g._id ≠ x._id := fun g hg e => h ⟨g, hperm.mem_iff.2 hg, e⟩
    rw [foldl_writeBack_of_not_mem T gs x h1, foldl_writeBack_of_not_mem T gs' x h2]

theorem Store.ext_of_fields (a b : Store) (h1 : a.transactions = b.transactions)
    (h2 : a.budgets = b.budgets) (h3 : a.goals = b.goals) : a = b := by
  cases a
  cases b
  simp_all

theorem receives_withPriority (T : JsNum) (newPriority : ObjectId → ℚ) (g : Goal) :
    receives T (withPriority newPriority g) = receives T g := rfl

theorem allocationEntry_withPriority (T : JsNum) (newPriority : ObjectId → ℚ) (g : Goal) :
    allocationEntry T (withPriority newPriority g) = allocationEntry T g := rfl

theorem afterCall_withPriority (T : JsNum) (uid : ObjectId) (newPriority : ObjectId → ℚ)
    (g : Goal) :
    afterCall T uid (withPriority newPriority g) = withPriority newPriority (afterCall T uid g) := by
  by_cases hq : g.user = uid ∧ g.autoAllocate = true ∧ receives T g = true
  · have hq2 : (withPriority newPriority g).user = uid
        ∧ (withPriority newPriority g).autoAllocate = true
        ∧ receives T (withPriority newPriority g) = true := hq
    simp only [afterCall, hq, hq2, and_self, if_true]
    rfl
  · have hq2 : ¬ ((withPriority newPriority g).user = uid
        ∧ (withPriority newPriority g).autoAllocate = true
        ∧ receives T (withPriority newPriority g) = true) := hq
    simp only [afterCall, hq, hq2, if_false]

theorem autoAllocateSavings_allocations (s : Store) (uid : ObjectId)
    (hstored : ∀ g ∈ s.goals, storable g.savedAmount = true) :
    (autoAllocateSavings s uid).1.allocations
      = ((findAutoGoals s uid).filter (receives (sumAmounts (findIncome s uid)))).map
          (allocationEntry (sumAmounts (findIncome s uid))) := by
  by_cases hne : findAutoGoals s uid = []
  · simp [autoAllocateSavings, hne, AllocateResponse.allocations]
  · rw [autoAllocateSavings_response s uid hstored hne]
    rfl

theorem allocations_perm_filter (s : Store) (uid : ObjectId) (T : JsNum) :
    (((findAutoGoals s uid).filter (receives T)).map (allocationEntry T)).Perm
      (((s.goals.filter (fun g => decide (g.user = uid) && g.autoAllocate)).filter
        (receives T)).map (allocationEntry T)) :=
  (((List.perm_insertionSort _ _).filter _).map _)

theorem totalAllocated_whole (s : Store) (uid : ObjectId)
    (hnd : (s.goals.map Goal._id).Nodup)
    (hstored : ∀ g ∈ s.goals, storable g.savedAmount = true)
    (hall : ∀ x ∈ s.goals, x.user = uid → x.autoAllocate = true →
      ∃ s0 T a : ℕ, wholeGoal (sumAmounts (findIncome s uid)) x s0 T a)
    (hb : ((autoAllocateSavings s uid).1.allocations.map (fun e => e.amount.value)).sum
      < 2 ^ 53) :
    (autoAllocateSavings s uid).1.totalAllocated
      = JsNum.fin (((autoAllocateSavings s uid).1.allocations.map
          (fun e => e.amount.value)).sum) := by
  by_cases hne : findAutoGoals s uid = []
  · simp [autoAllocateSavings, hne, AllocateResponse.allocations,
      AllocateResponse.totalAllocated, JsNum.zero_eq_fin]
  · obtain ⟨_, hk⟩ := allocations_sum_whole s uid hnd hall
    rw [autoAllocateSavings_allocations s uid hstored] at hb ⊢
    rw [autoAllocateSavings_response s uid hstored hne]
    have := foldl_add_values_whole
      ((((findAutoGoals s uid).filter (receives (sumAmounts (findIncome s uid)))).map
        (allocationEntry (sumAmounts (findIncome s uid)))).map Allocation.amount)
      (fun v hv => by
        obtain ⟨e, he, rfl⟩ := List.mem_map.1 hv
        exact hk e he)
      (by simpa [List.map_map, Function.comp] using hb)
    simpa [AllocateResponse.totalAllocated, List.foldl_map, List.map_map, Function.comp]
      using this

/-- Counterexample to C27 as stated: with an income of 1 and goals of 10, 20
and 30 percent, the entries are 0.1, 0.2 and 0.3 in either order of priority,
but totalAllocated is 0.6000000000000001 in one order and 0.6 in the other. -/
theorem allocation_total_depends_on_order :
    (autoAllocateSavings sharesStore 7).1.allocations.map (fun e => (e.goalId, e.amount.toString))
      = [(1, "0.1"), (2, "0.2"), (3, "0.3")]
    ∧ (autoAllocateSavings (reprioritise (fun id => 4 - id) sharesStore) 7).1.allocations.map
        (fun e => (e.goalId, e.amount.toString))
      = [(3, "0.3"), (2, "0.2"), (1, "0.1")]
    ∧ (autoAllocateSavings sharesStore 7).1.totalAllocated.toString = "0.6000000000000001"
    ∧ (autoAllocateSavings (reprioritise (fun id => 4 - id) sharesStore) 7).1.totalAllocated.toString
      = "0.6"
    ∧ (autoAllocateSavings sharesStore 7).1.totalAllocated
      ≠ (autoAllocateSavings (reprioritise (fun id => 4 - id) sharesStore) 7).1.totalAllocated := by
  refine ⟨by decide!, by decide!, by decide!, by decide!, by decide!⟩

/-- C27 (amended): the capped allocation of a goal is computed from the income
total and the goal's own allocationPercentage, targetAmount and savedAmount;
the goals of the allocation loop can be processed in any order: for a
permutation of the same goals (distinct ids, no save rejected) the store left
is the same and the allocation entries are the same up to order; giving the
stored goals other priorities changes nothing in the outcome of
`autoAllocateSavings` but the priorities and the order of the entries, and
then totalAllocated, the entries' amounts added up as Numbers in their order,
is the same too when the amounts of the caller's auto-allocate goals are whole
numbers and the entries' amounts add up to less than 2 ^ 53. -/
theorem allocation_order_independent :
    (∀ (T : JsNum) (g g' : Goal), g.allocationPercentage = g'.allocationPercentage →
      g.targetAmount = g'.targetAmount → g.savedAmount = g'.savedAmount →
      actualAllocation T g = actualAllocation T g')
    ∧ (∀ (T : JsNum) (s : Store) (gs gs' : List Goal), gs.Perm gs' → (gs.map Goal._id).Nodup →
      (∀ g ∈ gs, receives T g = true → increasedSavedAmount T g ≠ JsNum.nan) →
      (allocateLoop T gs s []).1 = (allocateLoop T gs' s []).1
      ∧ ∃ l l', (allocateLoop T gs s []).2 = some l ∧ (allocateLoop T gs' s []).2 = some l'
        ∧ l.Perm l')
    ∧ (∀ (s : Store) (uid : ObjectId) (newPriority : ObjectId → ℚ),
      (s.goals.map Goal._id).Nodup → (∀ g ∈ s.goals, storable g.savedAmount = true) →
      (autoAllocateSavings (reprioritise newPriority s) uid).2.goals
        = (autoAllocateSavings s uid).2.goals.map (withPriority newPriority)
      ∧ (autoAllocateSavings (reprioritise newPriority s) uid).1.allocations.Perm
          (autoAllocateSavings s uid).1.allocations
      ∧ ((∀ x ∈ s.goals, x.user = uid → x.autoAllocate = true →
            ∃ s0 T a : ℕ,
              wholeGoal (jsSum ((findIncome s uid).map Transaction.amount)) x s0 T a) →
          ((autoAllocateSavings s uid).1.allocations.map (fun e => e.amount.value)).sum
            < 2 ^ 53 →
          (autoAllocateSavings (reprioritise newPriority s) uid).1.totalAllocated
            = (autoAllocateSavings s uid).1.totalAllocated)) := by
  refine ⟨?_, ?_, ?_⟩
  · intro T g g' h1 h2 h3
    simp only [actualAllocation, allocationPercent, h1, h2, h3]
  · intro T s gs gs' hperm hnd hok
    have hok' : ∀ g ∈ gs', receives T g = true → increasedSavedAmount T g ≠ JsNum.nan :=
      fun g hg => hok g (hperm.mem_iff.2 hg)
    refine ⟨?_, _, _, allocateLoop_snd T gs s [] hok, allocateLoop_snd T gs' s [] hok', ?_⟩
    · apply Store.ext_of_fields
      · rw [allocateLoop_transactions, allocateLoop_transactions]
      · rw [allocateLoop_budgets, allocateLoop_budgets]
      · rw [allocateLoop_goals, allocateLoop_goals, processed_eq_self T gs hok,
          processed_eq_self T gs' hok']
        apply List.map_congr_left
        intro x _
        exact foldl_writeBack_perm T gs gs' hperm hnd x
    · simp only [List.nil_append]
      exact (hperm.filter _).map _
  · intro s uid newPriority hnd hstored
    have hids : ((reprioritise newPriority s).goals.map Goal._id) = s.goals.map Goal._id := by
      simp only [reprioritise, List.map_map]
      apply List.map_congr_left
      intro g _
      rfl
    have hnd2 : ((reprioritise newPriority s).goals.map Goal._id).Nodup := by
      rw [hids]
      exact hnd
    have hstored2 : ∀ g ∈ (reprioritise newPriority s).goals, storable g.savedAmount = true := by
      intro g hg
      simp only [reprioritise, List.mem_map] at hg
      obtain ⟨x, hx, rfl⟩ := hg
      exact hstored x hx
    have hincome : findIncome (reprioritise newPriority s) uid = findIncome s uid := rfl
    have hallocs : (autoAllocateSavings (reprioritise newPriority s) uid).1.allocations.Perm
        (autoAllocateSavings s uid).1.allocations := by
      rw [autoAllocateSavings_allocations _ uid hstored2,
        autoAllocateSavings_allocations s uid hstored, hincome]
      refine (allocations_perm_filter _ uid _).trans
        (List.Perm.trans ?_ (allocations_perm_filter s uid _).symm)
      have heq : (((reprioritise newPriority s).goals.filter
          (fun g => decide (g.user = uid) && g.autoAllocate)).filter
          (receives (sumAmounts (findIncome s uid)))).map
          (allocationEntry (sumAmounts (findIncome s uid)))
          = ((s.goals.filter (fun g => decide (g.user = uid) && g.autoAllocate)).filter
              (receives (sumAmounts (findIncome s uid)))).map
              (allocationEntry (sumAmounts (findIncome s uid))) := by
        simp only [reprioritise, List.filter_filter, List.filter_map, List.map_map]
        rfl
      rw [heq]
    refine ⟨?_, hallocs, ?_⟩
    · rw [autoAllocateSavings_goals _ uid hnd2 hstored2,
        autoAllocateSavings_goals s uid hnd hstored, hincome]
      simp only [reprioritise, List.map_map]
      apply List.map_congr_left
      intro g _
      exact afterCall_withPriority _ uid newPriority g
    · intro hall hb
      rw [← sumAmounts_eq_jsSum] at hall
      have hall2 : ∀ x ∈ (reprioritise newPriority s).goals, x.user = uid →
          x.autoAllocate = true →
          ∃ s0 T a : ℕ,
            wholeGoal (sumAmounts (findIncome (reprioritise newPriority s) uid)) x s0 T a := by
        intro x hx hu ha
        simp only [reprioritise, List.mem_map] at hx
        obtain ⟨y, hy, rfl⟩ := hx
        obtain ⟨s0, T, a, hw⟩ := hall y hy hu ha
        exact ⟨s0, T, a, hw⟩
      have hsum : ((autoAllocateSavings (reprioritise newPriority s) uid).1.allocations.map
          (fun e => e.amount.value)).sum
          = ((autoAllocateSavings s uid).1.allocations.map (fun e => e.amount.value)).sum :=
        (hallocs.map _).sum_eq
      rw [totalAllocated_whole _ uid hnd2 hstored2 hall2 (by rw [hsum]; exact hb),
        totalAllocated_whole s uid hnd hstored hall hb, hsum]

/-- Witness of C27 (amended) on the sample goals: with the priorities of Car
and Home swapped the same amounts are allocated, in the other order, the goals
end with the same saved amounts, and totalAllocated is 300 both times. -/
theorem allocation_order_independent_witness :
    (autoAllocateSavings goalStore 7).1.allocations.map (fun e => (e.goalTitle, e.amount))
      = [("Home", 100), ("Car", 200)]
    ∧ (autoAllocateSavings (reprioritise (fun id => if id = 1 then 1 else 2) goalStore)
        7).1.allocations.map (fun e => (e.goalTitle, e.amount))
      = [("Car", 200), ("Home", 100)]
    ∧ (autoAllocateSavings (reprioritise (fun id => if id = 1 then 1 else 2) goalStore)
        7).2.goals
      = (autoAllocateSavings goalStore 7).2.goals.map
          (withPriority (fun id => if id = 1 then 1 else 2))
    ∧ (autoAllocateSavings (reprioritise (fun id => if id = 1 then 1 else 2) goalStore)
        7).1.totalAllocated = 300 :=
  ⟨by decide!, by decide!,
    (allocation_order_independent.2.2 goalStore 7 (fun id => if id = 1 then 1 else 2)
      (by decide!) (by decide!)).1,
    ((allocation_order_independent.2.2 goalStore 7 (fun id => if id = 1 then 1 else 2)
      (by decide!) (by decide!)).2.2 goalStore_whole (by decide!)).trans (by decide!)⟩

/-! ## Dictionaries -/

theorem Dict.get?_set_self {β : Type} (d : Dict β) (k : String) (v : β) :
    (d.set k v).get? k = some v := by
  induction d with
  | nil => simp [Dict.set, Dict.get?]
  | cons e d ih =>
    obtain ⟨k0, v0⟩ := e
    by_cases h : k0 = k
    · simp [Dict.set, Dict.get?, h]
    · simp [Dict.set, Dict.get?, h, ih]

theorem Dict.get?_set_ne {β : Type} (d : Dict β) (k k' : String) (v : β) (hne : k' ≠ k) :
    (d.set k v).get? k' = d.get? k' := by
  induction d with
  | nil =>
    have : ¬ k = k' := fun e => hne e.symm
    simp [Dict.set, Dict.get?, this]
  | cons e d ih =>
    obtain ⟨k0, v0⟩ := e
    by_cases h : k0 = k
    · have : ¬ k = k' := fun e => hne e.symm
      have h0 : ¬ k0 = k' := fun e => hne (e.symm.trans h)
      simp [Dict.set, Dict.get?, h, this]
    · by_cases h' : k0 = k'
      · subst h'
        simp [Dict.set, Dict.get?, hne]
      · simp [Dict.set, Dict.get?, h, h', ih]

theorem Dict.keys_set {β : Type} (d : Dict β) (k : String) (v : β) :
    (d.set k v).map Prod.fst
      = if k ∈ d.map Prod.fst then d.map Prod.fst else d.map Prod.fst ++ [k] := by
  induction d with
  | nil => simp [Dict.set]
  | cons e d ih =>
    obtain ⟨k0, v0⟩ := e
    by_cases h : k0 = k
    · simp [Dict.set, h]
    · have h2 : ¬ k = k0 := fun e => h e.symm
      simp only [Dict.set, h, if_false, List.map_cons, ih, List.mem_cons, h2, false_or]
      split_ifs <;> simp

theorem Dict.get?_eq_none_iff {β : Type} (d : Dict β) (k : String) :
    d.get? k = none ↔ k ∉ d.map Prod.fst := by
  induction d with
  | nil => simp [Dict.get?]
  | cons e d ih =>
    obtain ⟨k0, v0⟩ := e
    by_cases h : k0 = k
    · simp [Dict.get?, h]
    · have h2 : ¬ k = k0 := fun e => h e.symm
      simp [Dict.get?, h, h2, ih]

theorem Dict.get?_of_mem {β : Type} (d : Dict β) (hnd : (d.map Prod.fst).Nodup)
    (k : String) (v : β) (h : (k, v) ∈ d) : d.get? k = some v := by
  induction d with
  | nil => simp at h
  | cons e d ih =>
    obtain ⟨k0, v0⟩ := e
    rw [List.map_cons, List.nodup_cons] at hnd
    rcases List.mem_cons.1 h with heq | hmem
    · cases heq
      simp [Dict.get?]
    · have hne : ¬ k0 = k := by
        intro e
        apply hnd.1
        rw [e]
        exact List.mem_map.2 ⟨(k, v), hmem, rfl⟩
      simp [Dict.get?, hne, ih hnd.2 hmem]

theorem Dict.mem_keys_of_get?_some {β : Type} (d : Dict β) (k : String) (v : β)
    (h : d.get? k = some v) : k ∈ d.map Prod.fst := by
  by_contra hk
  rw [(Dict.get?_eq_none_iff d k).2 hk] at h
  exact Option.noConfusion h


/-! ## Month totals -/

theorem foldl_add_filter (p : Transaction → Bool) (l : List Transaction) (a : JsNum) :
    l.foldl (fun sum t => if p t = true then JsNum.add sum (JsNum.fin t.amount) else sum) a
      = ((l.filter p).map Transaction.amount).foldl (fun sum x => JsNum.add sum (JsNum.fin x)) a := by
  induction l generalizing a with
  | nil => rfl
  | cons t l ih =>
    by_cases h : p t = true
    · simp [List.foldl_cons, h, ih]
    · simp [List.foldl_cons, h, ih]

theorem addToMonth_keys (d : Dict MonthTotals) (t : Transaction) :
    (addToMonth d t).map Prod.fst
      = if isoMonth t.date ∈ d.map Prod.fst then d.map Prod.fst
        else d.map Prod.fst ++ [isoMonth t.date] := by
  unfold addToMonth
  cases hget : d.get? (isoMonth t.date) with
  | none =>
    have hk : isoMonth t.date ∉ d.map Prod.fst := (Dict.get?_eq_none_iff d _).1 hget
    cases hty : t.type <;> simp [hget, Dict.keys_set, hk]
  | some e0 =>
    have hk : isoMonth t.date ∈ d.map Prod.fst := Dict.mem_keys_of_get?_some d _ e0 hget
    cases hty : t.type <;> simp [hget, Dict.keys_set, hk]

theorem addToMonth_get (d : Dict MonthTotals) (t : Transaction) (k : String) :
    (((addToMonth d t).get? k).getD ⟨0, 0⟩).income
        = (if (decide (isoMonth t.date = k) && decide (t.type = TxType.income)) = true then
            JsNum.add ((d.get? k).getD ⟨0, 0⟩).income (JsNum.fin t.amount)
          else ((d.get? k).getD ⟨0, 0⟩).income)
    ∧ (((addToMonth d t).get? k).getD ⟨0, 0⟩).expense
        = (if (decide (isoMonth t.date = k) && decide (t.type = TxType.expense)) = true then
            JsNum.add ((d.get? k).getD ⟨0, 0⟩).expense (JsNum.fin t.amount)
          else ((d.get? k).getD ⟨0, 0⟩).expense) := by
  unfold addToMonth
  by_cases hk : isoMonth t.date = k
  · subst hk
    cases hget : d.get? (isoMonth t.date) with
    | none =>
      cases hty : t.type <;> simp [Dict.get?_set_self, hget]
    | some e0 =>
      cases hty : t.type <;> simp [Dict.get?_set_self, hget]
  · have hne : k ≠ isoMonth t.date := fun e => hk e.symm
    cases hget : d.get? (isoMonth t.date) with
    | none =>
      cases hty : t.type <;> simp [Dict.get?_set_ne _ _ _ _ hne, hk, hget]
    | some e0 =>
      cases hty : t.type <;> simp [Dict.get?_set_ne _ _ _ _ hne, hk, hget]

theorem foldl_addToMonth_get (l : List Transaction) (d : Dict MonthTotals) (k : String) :
    (((l.foldl addToMonth d).get? k).getD ⟨0, 0⟩).income
        = ((l.filter (fun t => decide (isoMonth t.date = k)
            && decide (t.type = TxType.income))).map Transaction.amount).foldl
            (fun sum x => JsNum.add sum (JsNum.fin x)) ((d.get? k).getD ⟨0, 0⟩).income
    ∧ (((l.foldl addToMonth d).get? k).getD ⟨0, 0⟩).expense
        = ((l.filter (fun t => decide (isoMonth t.date = k)
            && decide (t.type = TxType.expense))).map Transaction.amount).foldl
            (fun sum x => JsNum.add sum (JsNum.fin x)) ((d.get? k).getD ⟨0, 0⟩).expense := by
  induction l generalizing d with
  | nil => simp
  | cons t l ih =>
    obtain ⟨h1, h2⟩ := addToMonth_get d t k
    obtain ⟨i1, i2⟩ := ih (addToMonth d t)
    simp only [List.foldl_cons]
    constructor
    · rw [i1, h1]
      by_cases hp : (decide (isoMonth t.date = k) && decide (t.type = TxType.income)) = true
      · simp [List.filter_cons, hp]
      · simp [List.filter_cons, hp]
    · rw [i2, h2]
      by_cases hp : (decide (isoMonth t.date = k) && decide (t.type = TxType.expense)) = true
      · simp [List.filter_cons, hp]
      · simp [List.filter_cons, hp]

theorem foldl_addToMonth_keys (l : List Transaction) (d : Dict MonthTotals) :
    (((l.foldl addToMonth d).map Prod.fst).Nodup ↔ (d.map Prod.fst).Nodup)
    ∧ ∀ k, k ∈ (l.foldl addToMonth d).map Prod.fst
        ↔ k ∈ d.map Prod.fst ∨ ∃ t ∈ l, isoMonth t.date = k := by
  induction l generalizing d with
  | nil => simp
  | cons t l ih =>
    obtain ⟨ihnd, ihmem⟩ := ih (addToMonth d t)
    simp only [List.foldl_cons]
    constructor
    · rw [ihnd, addToMonth_keys]
      split_ifs with hk
      · rfl
      · rw [List.nodup_append]
        simp [hk]
    · intro k
      rw [ihmem, addToMonth_keys]
      split_ifs with hk
      · constructor
        · rintro (h | ⟨x, hx, hxk⟩)
          · exact Or.inl h
          · exact Or.inr ⟨x, List.mem_cons_of_mem _ hx, hxk⟩
        · rintro (h | ⟨x, hx, hxk⟩)
          · exact Or.inl h
          · rcases List.mem_cons.1 hx with rfl | hx
            · exact Or.inl (hxk ▸ hk)
            · exact Or.inr ⟨x, hx, hxk⟩
      · constructor
        · rintro (h | ⟨x, hx, hxk⟩)
          · rcases List.mem_append.1 h with h | h
            · exact Or.inl h
            · exact Or.inr ⟨t, List.mem_cons_self _ _, (List.mem_singleton.1 h).symm⟩
          · exact Or.inr ⟨x, List.mem_cons_of_mem _ hx, hxk⟩
        · rintro (h | ⟨x, hx, hxk⟩)
          · exact Or.inl (List.mem_append.2 (Or.inl h))
          · rcases List.mem_cons.1 hx with rfl | hx
            · exact Or.inl (List.mem_append.2 (Or.inr (List.mem_singleton.2 hxk.symm)))
            · exact Or.inr ⟨x, hx, hxk⟩

theorem findByDate_perm (s : Store) (uid : ObjectId) :
    (findByDate s uid).Perm (s.transactions.filter (fun t => decide (t.user = uid))) :=
  List.perm_insertionSort _ _

theorem sorted_findByDate (s : Store) (uid : ObjectId) :
    (findByDate s uid).Sorted (fun a b => a.date ≤ b.date) :=
  @List.sorted_insertionSort Transaction (fun a b => a.date ≤ b.date) _
    ⟨fun a b => le_total a.date b.date⟩ ⟨fun _ _ _ hab hbc => le_trans hab hbc⟩ _

theorem filter_sum_le (p : Transaction → Bool) (l : List Transaction)
    (hl : ∀ t ∈ l, ∃ n : ℕ, t.amount = n) :
    ((l.filter p).map Transaction.amount).sum ≤ (l.map Transaction.amount).sum := by
  apply List.Sublist.sum_le_sum ((List.filter_sublist l).map Transaction.amount)
  intro x hx
  obtain ⟨t, ht, rfl⟩ := List.mem_map.1 hx
  obtain ⟨n, hn⟩ := hl t ht
  rw [hn]
  positivity

theorem monthSum_whole (s : Store) (uid : ObjectId) (type : TxType) (m : String)
    (hl : ∀ t ∈ s.transactions, t.user = uid → ∃ n : ℕ, t.amount = n)
    (hb : ((s.transactions.filter (fun t => decide (t.user = uid))).map Transaction.amount).sum
      < 2 ^ 53) :
    jsSum (((findByDate s uid).filter (fun t =>
        decide (isoMonth t.date = m) && decide (t.type = type))).map Transaction.amount)
      = JsNum.fin ((s.transactions.filter
          (fun t => decide (t.user = uid)
            && (decide (isoMonth t.date = m) && decide (t.type = type)))).map
          Transaction.amount).sum := by
  have hperm := findByDate_perm s uid
  have hl2 : ∀ t ∈ findByDate s uid, ∃ n : ℕ, t.amount = n := by
    intro t ht
    have := hperm.mem_iff.1 ht
    rw [List.mem_filter] at this
    exact hl t this.1 (by simpa using this.2)
  have hsum : ((findByDate s uid).map Transaction.amount).sum
      = ((s.transactions.filter (fun t => decide (t.user = uid))).map Transaction.amount).sum :=
    (hperm.map _).sum_eq
  have hexact := (jsSum_whole (((findByDate s uid).filter (fun t =>
      decide (isoMonth t.date = m) && decide (t.type = type))).map Transaction.amount)
    (fun x hx => by
      obtain ⟨t, ht, rfl⟩ := List.mem_map.1 hx
      exact hl2 t (List.mem_filter.1 ht).1)
    (lt_of_le_of_lt (filter_sum_le _ _ hl2) (by rw [hsum]; exact hb))).1
  have h1 : ((findByDate s uid).filter (fun t =>
        decide (isoMonth t.date = m) && decide (t.type = type))).Perm
      ((s.transactions.filter (fun t => decide (t.user = uid))).filter (fun t =>
        decide (isoMonth t.date = m) && decide (t.type = type))) := hperm.filter _
  have h2 : (s.transactions.filter (fun t => decide (t.user = uid))).filter (fun t =>
        decide (isoMonth t.date = m) && decide (t.type = type))
      = s.transactions.filter (fun t => decide (t.user = uid)
          && (decide (isoMonth t.date = m) && decide (t.type = type))) := by
    rw [List.filter_filter]
    apply List.filter_congr
    intro t _
    exact Bool.and_comm _ _
  rw [hexact, (h1.map Transaction.amount).sum_eq, h2]

/-! ## Month keys of `getSpendingTrends` -/

/-- C9: `getSpendingTrends` returns a mapping with one key per month in which
the caller has a transaction and no other key (none at all when the caller has
no transaction), and the entry of a month holds the sum of the caller's income
amounts and the sum of the caller's expense amounts dated in that month, each
added up as Numbers in the order of the query, which is ascending date; when
the caller's amounts are whole numbers with a sum below `2 ^ 53` the two
entries are exactly the sums of those amounts. -/
theorem getSpendingTrends_months (s : Store) (uid : ObjectId) :
    ((getSpendingTrends s uid).map Prod.fst).Nodup
    ∧ (∀ m, m ∈ (getSpendingTrends s uid).map Prod.fst
        ↔ ∃ t ∈ s.transactions, t.user = uid ∧ isoMonth t.date = m)
    ∧ (∀ m e, (m, e) ∈ getSpendingTrends s uid →
        e.income
          = jsSum (((findByDate s uid).filter (fun t =>
              decide (isoMonth t.date = m) && decide (t.type = TxType.income))).map
              Transaction.amount)
        ∧ e.expense
          = jsSum (((findByDate s uid).filter (fun t =>
              decide (isoMonth t.date = m) && decide (t.type = TxType.expense))).map
              Transaction.amount))
    ∧ (findByDate s uid).Perm (s.transactions.filter (fun t => decide (t.user = uid)))
    ∧ (findByDate s uid).Sorted (fun a b => a.date ≤ b.date)
    ∧ (s.transactions.filter (fun t => decide (t.user = uid)) = [] →
        getSpendingTrends s uid = [])
    ∧ ((∀ t ∈ s.transactions, t.user = uid → ∃ n : ℕ, t.amount = n) →
        ((s.transactions.filter (fun t => decide (t.user = uid))).map Transaction.amount).sum
          < 2 ^ 53 →
        ∀ m e, (m, e) ∈ getSpendingTrends s uid →
          e.income
            = JsNum.fin ((s.transactions.filter
                (fun t => decide (t.user = uid)
                  && (decide (isoMonth t.date = m) && decide (t.type = TxType.income)))).map
                Transaction.amount).sum
          ∧ e.expense
            = JsNum.fin ((s.transactions.filter
                (fun t => decide (t.user = uid)
                  && (decide (isoMonth t.date = m) && decide (t.type = TxType.expense)))).map
                Transaction.amount).sum) := by
  obtain ⟨hnd, hmem⟩ := foldl_addToMonth_keys (findByDate s uid) []
  have hnodup : ((getSpendingTrends s uid).map Prod.fst).Nodup := hnd.2 List.nodup_nil
  have hentries : ∀ m e, (m, e) ∈ getSpendingTrends s uid →
      e.income
        = jsSum (((findByDate s uid).filter (fun t =>
            decide (isoMonth t.date = m) && decide (t.type = TxType.income))).map
            Transaction.amount)
      ∧ e.expense
        = jsSum (((findByDate s uid).filter (fun t =>
            decide (isoMonth t.date = m) && decide (t.type = TxType.expense))).map
            Transaction.amount) := by
    intro m e he
    have hget := Dict.get?_of_mem _ hnodup m e he
    obtain ⟨h1, h2⟩ := foldl_addToMonth_get (findByDate s uid) [] m
    unfold getSpendingTrends at hget
    rw [hget] at h1 h2
    simp only [Option.getD_some, Dict.get?, Option.getD_none] at h1 h2
    exact ⟨h1, h2⟩
  refine ⟨hnodup, ?_, hentries, findByDate_perm s uid, sorted_findByDate s uid, ?_, ?_⟩
  · intro m
    unfold getSpendingTrends
    rw [hmem m]
    simp only [List.map_nil, List.not_mem_nil, false_or]
    constructor
    · rintro ⟨t, ht, htm⟩
      have := (findByDate_perm s uid).mem_iff.1 ht
      rw [List.mem_filter] at this
      exact ⟨t, this.1, by simpa using this.2, htm⟩
    · rintro ⟨t, ht, hu, htm⟩
      exact ⟨t, (findByDate_perm s uid).mem_iff.2 (List.mem_filter.2 ⟨ht, by simpa using hu⟩), htm⟩
  · intro hnone
    unfold getSpendingTrends findByDate
    rw [hnone]
    rfl
  · intro hl hb m e he
    obtain ⟨h1, h2⟩ := hentries m e he
    exact ⟨h1.trans (monthSum_whole s uid TxType.income m hl hb),
      h2.trans (monthSum_whole s uid TxType.expense m hl hb)⟩

/-- Witness of C9 on the data of the trends test: two months, 2023-01 with
income 2000 and expense 300, 2023-02 with income 2000 and expense 450. -/
theorem getSpendingTrends_months_witness :
    getSpendingTrends trendStore 7 = [("2023-01", ⟨2000, 300⟩), ("2023-02", ⟨2000, 450⟩)]
    ∧ ∀ e, ("2023-02", e) ∈ getSpendingTrends trendStore 7 → e.income = 2000 ∧ e.expense = 450 := by
  refine ⟨by decide!, ?_⟩
  intro e he
  obtain ⟨h1, h2⟩ := (getSpendingTrends_months trendStore 7).2.2.1 "2023-02" e he
  exact ⟨h1.trans (by decide!), h2.trans (by decide!)⟩

/-! ## Totals of `getVisualizationData` -/

theorem Dict.sum_set {β : Type} (f : β → ℚ) (d : Dict β) (k : String) (v : β) :
    ((d.set k v).map (fun e => f e.2)).sum
      = (d.map (fun e => f e.2)).sum - ((d.get? k).map f).getD 0 + f v := by
  induction d with
  | nil => simp [Dict.set, Dict.get?]
  | cons e d ih =>
    obtain ⟨k0, v0⟩ := e
    by_cases h : k0 = k
    · simp [Dict.set, Dict.get?, h]
      ring
    · simp [Dict.set, Dict.get?, h, ih]
      ring

theorem Dict.mem_set {β : Type} (d : Dict β) (k : String) (v : β) (e : String × β)
    (h : e ∈ d.set k v) : e = (k, v) ∨ e ∈ d := by
  induction d with
  | nil =>
    simp only [Dict.set, List.mem_singleton] at h
    exact Or.inl h
  | cons e0 d ih =>
    obtain ⟨k0, v0⟩ := e0
    by_cases hk : k0 = k
    · simp only [Dict.set, hk, if_true, List.mem_cons] at h
      rcases h with h | h
      · exact Or.inl h
      · exact Or.inr (List.mem_cons_of_mem _ h)
    · simp only [Dict.set, hk, if_false, List.mem_cons] at h
      rcases h with h | h
      · exact Or.inr (by rw [h]; exact List.mem_cons_self _ _)
      · rcases ih h with h2 | h2
        · exact Or.inl h2
        · exact Or.inr (List.mem_cons_of_mem _ h2)

theorem Dict.mem_of_get?_eq_some {β : Type} (d : Dict β) (k : String) (v : β)
    (h : d.get? k = some v) : (k, v) ∈ d := by
  induction d with
  | nil => simp [Dict.get?] at h
  | cons e0 d ih =>
    obtain ⟨k0, v0⟩ := e0
    by_cases hk : k0 = k
    · simp only [Dict.get?, hk, if_true, Option.some.injEq] at h
      rw [hk, h]
      exact List.mem_cons_self _ _
    · simp only [Dict.get?, hk, if_false] at h
      exact List.mem_cons_of_mem _ (ih h)

theorem value_le_sum {β : Type} (f : β → ℚ) (d : Dict β) (hf : ∀ e ∈ d, 0 ≤ f e.2)
    (e : String × β) (he : e ∈ d) : f e.2 ≤ (d.map (fun e => f e.2)).sum := by
  apply List.single_le_sum
  · intro x hx
    obtain ⟨y, hy, rfl⟩ := List.mem_map.1 hx
    exact hf y hy
  · exact List.mem_map.2 ⟨e, he, rfl⟩

theorem JsNum.isWhole_value_nonneg {v : JsNum} (h : v.isWhole) : 0 ≤ v.value := by
  obtain ⟨n, rfl⟩ := h
  simp [JsNum.value]

theorem JsNum.add_value_whole {v : JsNum} (h : v.isWhole) (n : ℕ)
    (hb : v.value + n < 2 ^ 53) :
    JsNum.add v (JsNum.fin n) = JsNum.fin (v.value + n)
    ∧ (JsNum.add v (JsNum.fin n)).isWhole := by
  obtain ⟨m, rfl⟩ := h
  simp only [JsNum.value] at hb ⊢
  have := JsNum.add_whole m n (by push_cast; exact hb)
  rw [this]
  exact ⟨by push_cast; rfl, m + n, rfl⟩

theorem foldl_vizStep_monthlyData (l : List Transaction) (acc : VizTotals) :
    (l.foldl vizStep acc).monthlyData = l.foldl addToMonth acc.monthlyData := by
  induction l generalizing acc with
  | nil => rfl
  | cons t l ih =>
    rw [List.foldl_cons, List.foldl_cons, ih]
    cases hty : t.type <;> simp [vizStep, hty]

theorem foldl_vizStep_totals (l : List Transaction) (acc : VizTotals) :
    (l.foldl vizStep acc).totalIncome
        = ((l.filter (fun t => decide (t.type = TxType.income))).map Transaction.amount).foldl
            (fun sum x => JsNum.add sum (JsNum.fin x)) acc.totalIncome
    ∧ (l.foldl vizStep acc).totalExpenses
        = ((l.filter (fun t => decide (t.type = TxType.expense))).map Transaction.amount).foldl
            (fun sum x => JsNum.add sum (JsNum.fin x)) acc.totalExpenses := by
  induction l generalizing acc with
  | nil => exact ⟨rfl, rfl⟩
  | cons t l ih =>
    obtain ⟨i1, i2⟩ := ih (vizStep acc t)
    rw [List.foldl_cons, i1, i2]
    cases hty : t.type <;> simp [vizStep, hty, List.filter_cons]

theorem foldl_vizStep_categories (l : List Transaction) (acc : VizTotals) :
    (l.foldl vizStep acc).categorySummary.income
        = (l.filter (fun t => decide (t.type = TxType.income))).foldl
            (fun d t => addToCategory d t.category t.amount) acc.categorySummary.income
    ∧ (l.foldl vizStep acc).categorySummary.expense
        = (l.filter (fun t => decide (t.type = TxType.expense))).foldl
            (fun d t => addToCategory d t.category t.amount) acc.categorySummary.expense := by
  induction l generalizing acc with
  | nil => exact ⟨rfl, rfl⟩
  | cons t l ih =>
    obtain ⟨i1, i2⟩ := ih (vizStep acc t)
    rw [List.foldl_cons, i1, i2]
    cases hty : t.type <;> simp [vizStep, hty, List.filter_cons]

theorem visualize_totals (l : List Transaction) (period : String) :
    (visualize l period).totalIncome = totalOf TxType.income l
    ∧ (visualize l period).totalExpenses = totalOf TxType.expense l
    ∧ (visualize l period).balance
        = JsNum.sub (totalOf TxType.income l) (totalOf TxType.expense l)
    ∧ (visualize l period).monthlyData = l.foldl addToMonth []
    ∧ (visualize l period).period = period := by
  obtain ⟨h1, h2⟩ := foldl_vizStep_totals l ⟨0, 0, ⟨[], []⟩, []⟩
  refine ⟨h1, h2, ?_, foldl_vizStep_monthlyData l _, rfl⟩
  simp only [visualize, h1, h2]
  rfl

/-! ## Whole amounts: the groupings add up to the totals -/

theorem addToMonth_whole (d : Dict MonthTotals) (t : Transaction) (n : ℕ) (hn : t.amount = n)
    (hd : ∀ e ∈ d, e.2.income.isWhole ∧ e.2.expense.isWhole)
    (hI : (d.map (fun e => e.2.income.value)).sum + n < 2 ^ 53)
    (hE : (d.map (fun e => e.2.expense.value)).sum + n < 2 ^ 53) :
    (∀ e ∈ addToMonth d t, e.2.income.isWhole ∧ e.2.expense.isWhole)
    ∧ ((addToMonth d t).map (fun e => e.2.income.value)).sum
        = (d.map (fun e => e.2.income.value)).sum + (if t.type = TxType.income then (n : ℚ) else 0)
    ∧ ((addToMonth d t).map (fun e => e.2.expense.value)).sum
        = (d.map (fun e => e.2.expense.value)).sum
          + (if t.type = TxType.expense then (n : ℚ) else 0) := by
  have hzero : (0 : JsNum).isWhole := ⟨0, by simp; rfl⟩
  have hv0 : (0 : JsNum).value = 0 := rfl
  have hval : ∀ q : ℚ, (JsNum.fin q).value = q := fun _ => rfl
  -- the entry that is read, and the mapping it is read from
  obtain ⟨d0, e0, hd0, hget0, hmem0, hsumI, hsumE, he0⟩ :
      ∃ (d0 : Dict MonthTotals) (e0 : MonthTotals),
        (if (d.get? (isoMonth t.date)).isNone then d.set (isoMonth t.date) ⟨0, 0⟩ else d) = d0
        ∧ d0.get? (isoMonth t.date) = some e0
        ∧ (∀ e ∈ d0, e.2.income.isWhole ∧ e.2.expense.isWhole)
        ∧ (d0.map (fun e => e.2.income.value)).sum = (d.map (fun e => e.2.income.value)).sum
        ∧ (d0.map (fun e => e.2.expense.value)).sum = (d.map (fun e => e.2.expense.value)).sum
        ∧ (e0.income.isWhole ∧ e0.expense.isWhole) := by
    cases hget : d.get? (isoMonth t.date) with
    | none =>
      refine ⟨d.set (isoMonth t.date) ⟨0, 0⟩, ⟨0, 0⟩, by simp, Dict.get?_set_self _ _ _, ?_, ?_, ?_,
        ⟨hzero, hzero⟩⟩
      · intro e he
        rcases Dict.mem_set _ _ _ _ he with h | h
        · rw [h]
          exact ⟨hzero, hzero⟩
        · exact hd e h
      · rw [Dict.sum_set (fun e : MonthTotals => e.income.value), hget]
        simp [hv0]
      · rw [Dict.sum_set (fun e : MonthTotals => e.expense.value), hget]
        simp [hv0]
    | some e0 =>
      exact ⟨d, e0, by simp, hget, hd, rfl, rfl, hd _ (Dict.mem_of_get?_eq_some _ _ _ hget)⟩
  have hmem := Dict.mem_of_get?_eq_some _ _ _ hget0
  have hleI : e0.income.value ≤ (d0.map (fun e => e.2.income.value)).sum :=
    value_le_sum (fun e : MonthTotals => e.income.value) d0
      (fun e he => JsNum.isWhole_value_nonneg (hmem0 e he).1) _ hmem
  have hleE : e0.expense.value ≤ (d0.map (fun e => e.2.expense.value)).sum :=
    value_le_sum (fun e : MonthTotals => e.expense.value) d0
      (fun e he => JsNum.isWhole_value_nonneg (hmem0 e he).2) _ hmem
  unfold addToMonth
  simp only [hd0, hget0, Option.getD_some, hn]
  cases hty : t.type with
  | income =>
    obtain ⟨hadd, hw⟩ := JsNum.add_value_whole he0.1 n (by linarith)
    simp only [if_true]
    refine ⟨?_, ?_, ?_⟩
    · intro e he
      rcases Dict.mem_set _ _ _ _ he with h | h
      · rw [h]
        exact ⟨hw, he0.2⟩
      · exact hmem0 e h
    · rw [Dict.sum_set (fun e : MonthTotals => e.income.value), hget0, hadd, hsumI]
      simp only [Option.map_some', Option.getD_some, hval]
      ring
    · rw [Dict.sum_set (fun e : MonthTotals => e.expense.value), hget0, hsumE]
      simp
  | expense =>
    obtain ⟨hadd, hw⟩ := JsNum.add_value_whole he0.2 n (by linarith)
    simp only [if_false, reduceCtorEq]
    refine ⟨?_, ?_, ?_⟩
    · intro e he
      rcases Dict.mem_set _ _ _ _ he with h | h
      · rw [h]
        exact ⟨he0.1, hw⟩
      · exact hmem0 e h
    · rw [Dict.sum_set (fun e : MonthTotals => e.income.value), hget0, hsumI]
      simp
    · rw [Dict.sum_set (fun e : MonthTotals => e.expense.value), hget0, hadd, hsumE]
      simp only [Option.map_some', Option.getD_some, hval, if_true]
      ring

theorem exactTotal_cons (type : TxType) (t : Transaction) (l : List Transaction) :
    exactTotal type (t :: l) = (if t.type = type then t.amount else 0) + exactTotal type l := by
  by_cases h : t.type = type
  · simp [exactTotal, h]
  · simp [exactTotal, h]

theorem exactTotal_nonneg (type : TxType) (l : List Transaction)
    (hl : ∀ t ∈ l, ∃ n : ℕ, t.amount = n) : 0 ≤ exactTotal type l := by
  unfold exactTotal
  apply List.sum_nonneg
  intro x hx
  obtain ⟨t, ht, rfl⟩ := List.mem_map.1 hx
  obtain ⟨n, hn⟩ := hl t (List.mem_filter.1 ht).1
  rw [hn]
  positivity

theorem exactTotal_le_sum (type : TxType) (l : List Transaction)
    (hl : ∀ t ∈ l, ∃ n : ℕ, t.amount = n) :
    exactTotal type l ≤ (l.map Transaction.amount).sum := by
  unfold exactTotal
  apply List.Sublist.sum_le_sum ((List.filter_sublist l).map Transaction.amount)
  intro x hx
  obtain ⟨t, ht, rfl⟩ := List.mem_map.1 hx
  obtain ⟨n, hn⟩ := hl t ht
  rw [hn]
  positivity

theorem totalOf_whole (type : TxType) (l : List Transaction)
    (hl : ∀ t ∈ l, ∃ n : ℕ, t.amount = n) (hb : (l.map Transaction.amount).sum < 2 ^ 53) :
    totalOf type l = JsNum.fin (exactTotal type l) ∧ ∃ n : ℕ, exactTotal type l = n := by
  unfold totalOf exactTotal
  apply jsSum_whole
  · intro x hx
    obtain ⟨t, ht, rfl⟩ := List.mem_map.1 hx
    exact hl t (List.mem_filter.1 ht).1
  · exact lt_of_le_of_lt (exactTotal_le_sum type l hl) hb

theorem foldl_addToMonth_whole (l : List Transaction) (d : Dict MonthTotals)
    (hl : ∀ t ∈ l, ∃ n : ℕ, t.amount = n)
    (hd : ∀ e ∈ d, e.2.income.isWhole ∧ e.2.expense.isWhole)
    (hI : (d.map (fun e => e.2.income.value)).sum + (l.map Transaction.amount).sum < 2 ^ 53)
    (hE : (d.map (fun e => e.2.expense.value)).sum + (l.map Transaction.amount).sum < 2 ^ 53) :
    (∀ e ∈ l.foldl addToMonth d, e.2.income.isWhole ∧ e.2.expense.isWhole)
    ∧ ((l.foldl addToMonth d).map (fun e => e.2.income.value)).sum
        = (d.map (fun e => e.2.income.value)).sum + exactTotal TxType.income l
    ∧ ((l.foldl addToMonth d).map (fun e => e.2.expense.value)).sum
        = (d.map (fun e => e.2.expense.value)).sum + exactTotal TxType.expense l := by
  induction l generalizing d with
  | nil => exact ⟨hd, by simp [exactTotal], by simp [exactTotal]⟩
  | cons t l ih =>
    obtain ⟨n, hn⟩ := hl t (List.mem_cons_self _ _)
    have hl2 : ∀ x ∈ l, ∃ n : ℕ, x.amount = n := fun x hx => hl x (List.mem_cons_of_mem _ hx)
    have hnonneg : (0 : ℚ) ≤ (l.map Transaction.amount).sum := by
      apply List.sum_nonneg
      intro x hx
      obtain ⟨y, hy, rfl⟩ := List.mem_map.1 hx
      obtain ⟨m, hm⟩ := hl2 y hy
      rw [hm]
      positivity
    have hn0 : (0 : ℚ) ≤ n := by positivity
    rw [List.map_cons, List.sum_cons, hn] at hI hE
    obtain ⟨s1, s2, s3⟩ := addToMonth_whole d t n hn hd (by linarith) (by linarith)
    obtain ⟨i1, i2, i3⟩ := ih (addToMonth d t) hl2 s1
      (by rw [s2]; split_ifs <;> linarith) (by rw [s3]; split_ifs <;> linarith)
    rw [List.foldl_cons, exactTotal_cons, exactTotal_cons, hn]
    refine ⟨i1, ?_, ?_⟩
    · rw [i2, s2, add_assoc]
    · rw [i3, s3, add_assoc]

theorem addToCategory_whole (d : Dict Cell) (category : String) (n : ℕ)
    (hcat : inheritedText category = none)
    (hd : ∀ e ∈ d, e.2.isWhole)
    (hb : (d.map (fun e => e.2.value)).sum + n < 2 ^ 53) :
    (∀ e ∈ addToCategory d category n, e.2.isWhole)
    ∧ ((addToCategory d category n).map (fun e => e.2.value)).sum
        = (d.map (fun e => e.2.value)).sum + n := by
  have hval : ∀ q : ℚ, (Cell.number (JsNum.fin q)).value = q := fun _ => rfl
  unfold addToCategory
  cases hget : d.get? category with
  | none =>
    have hadd : JsNum.add 0 (JsNum.fin (n : ℚ)) = JsNum.fin n := by
      have := JsNum.add_whole 0 n (by
        have h0 : (0 : ℚ) ≤ (d.map (fun e => e.2.value)).sum := by
          apply List.sum_nonneg
          intro x hx
          obtain ⟨y, hy, rfl⟩ := List.mem_map.1 hx
          obtain ⟨m, hm⟩ := hd y hy
          rw [hm]
          simp [Cell.value, JsNum.value]
        push_cast
        linarith)
      simpa using this
    simp only [hcat, hadd]
    refine ⟨?_, ?_⟩
    · intro e he
      rcases Dict.mem_set _ _ _ _ he with h | h
      · rw [h]
        exact ⟨n, rfl⟩
      · exact hd e h
    · rw [Dict.sum_set Cell.value, hget]
      simp [hval]
  | some c =>
    have hmem := Dict.mem_of_get?_eq_some _ _ _ hget
    obtain ⟨m, hm⟩ := hd _ hmem
    simp only at hm
    subst hm
    have hle : (m : ℚ) ≤ (d.map (fun e => e.2.value)).sum := by
      have := value_le_sum Cell.value d (fun e he => by
        obtain ⟨k, hk⟩ := hd e he
        rw [hk]
        simp [Cell.value, JsNum.value]) _ hmem
      simpa [hval] using this
    have hread : (if (JsNum.fin (m : ℚ)).truthy = true then JsNum.fin (m : ℚ) else 0)
        = JsNum.fin m := by
      by_cases h0 : (m : ℚ) = 0
      · simp [JsNum.truthy, h0]
        rfl
      · simp [JsNum.truthy, h0]
    have hadd : JsNum.add (JsNum.fin m) (JsNum.fin (n : ℚ)) = JsNum.fin ((m + n : ℕ) : ℚ) :=
      JsNum.add_whole m n (by push_cast; linarith)
    simp only [hread, hadd]
    refine ⟨?_, ?_⟩
    · intro e he
      rcases Dict.mem_set _ _ _ _ he with h | h
      · rw [h]
        exact ⟨m + n, rfl⟩
      · exact hd e h
    · rw [Dict.sum_set Cell.value, hget]
      simp only [Option.map_some', Option.getD_some, hval]
      push_cast
      ring

theorem foldl_addToCategory_whole (type : TxType) (l : List Transaction) (d : Dict Cell)
    (hl : ∀ t ∈ l, ∃ n : ℕ, t.amount = n)
    (hcat : ∀ t ∈ l, inheritedText t.category = none)
    (hd : ∀ e ∈ d, e.2.isWhole)
    (hb : (d.map (fun e => e.2.value)).sum + (l.map Transaction.amount).sum < 2 ^ 53) :
    (∀ e ∈ (l.filter (fun t => decide (t.type = type))).foldl
        (fun d t => addToCategory d t.category t.amount) d, e.2.isWhole)
    ∧ (((l.filter (fun t => decide (t.type = type))).foldl
        (fun d t => addToCategory d t.category t.amount) d).map (fun e => e.2.value)).sum
        = (d.map (fun e => e.2.value)).sum + exactTotal type l := by
  induction l generalizing d with
  | nil => exact ⟨hd, by simp [exactTotal]⟩
  | cons t l ih =>
    obtain ⟨n, hn⟩ := hl t (List.mem_cons_self _ _)
    have hl2 : ∀ x ∈ l, ∃ n : ℕ, x.amount = n := fun x hx => hl x (List.mem_cons_of_mem _ hx)
    have hcat2 : ∀ x ∈ l, inheritedText x.category = none :=
      fun x hx => hcat x (List.mem_cons_of_mem _ hx)
    have hnonneg : (0 : ℚ) ≤ (l.map Transaction.amount).sum := by
      apply List.sum_nonneg
      intro x hx
      obtain ⟨y, hy, rfl⟩ := List.mem_map.1 hx
      obtain ⟨m, hm⟩ := hl2 y hy
      rw [hm]
      positivity
    have hn0 : (0 : ℚ) ≤ n := by positivity
    rw [List.map_cons, List.sum_cons, hn] at hb
    rw [exactTotal_cons]
    by_cases hty : t.type = type
    · obtain ⟨s1, s2⟩ := addToCategory_whole d t.category n (hcat t (List.mem_cons_self _ _)) hd
        (by linarith)
      obtain ⟨i1, i2⟩ := ih (addToCategory d t.category n) hl2 hcat2 s1 (by rw [s2]; linarith)
      simp only [List.filter_cons, hty, decide_True, if_true, List.foldl_cons, hn]
      exact ⟨i1, by rw [i2, s2, add_assoc]⟩
    · obtain ⟨i1, i2⟩ := ih d hl2 hcat2 hd (by linarith)
      simp only [List.filter_cons, hty, decide_False, if_false, Bool.false_eq_true]
      exact ⟨i1, by rw [i2]; ring⟩

theorem visualize_whole (l : List Transaction) (period : String)
    (hl : ∀ t ∈ l, ∃ n : ℕ, t.amount = n) (hb : (l.map Transaction.amount).sum < 2 ^ 53) :
    (visualize l period).totalIncome = JsNum.fin (exactTotal TxType.income l)
    ∧ (visualize l period).totalExpenses = JsNum.fin (exactTotal TxType.expense l)
    ∧ (visualize l period).balance
        = JsNum.fin (exactTotal TxType.income l - exactTotal TxType.expense l)
    ∧ (∀ e ∈ (visualize l period).monthlyData, e.2.income.isWhole ∧ e.2.expense.isWhole)
    ∧ ((visualize l period).monthlyData.map (fun e => e.2.income.value)).sum
        = exactTotal TxType.income l
    ∧ ((visualize l period).monthlyData.map (fun e => e.2.expense.value)).sum
        = exactTotal TxType.expense l := by
  obtain ⟨h1, h2, h3, h4, _⟩ := visualize_totals l period
  obtain ⟨t1, a, ha⟩ := totalOf_whole TxType.income l hl hb
  obtain ⟨t2, b, hb2⟩ := totalOf_whole TxType.expense l hl hb
  obtain ⟨m1, m2, m3⟩ := foldl_addToMonth_whole l [] hl (by simp) (by simpa using hb)
    (by simpa using hb)
  have hIle := exactTotal_le_sum TxType.income l hl
  have hEle := exactTotal_le_sum TxType.expense l hl
  refine ⟨h1.trans t1, h2.trans t2, ?_, ?_, ?_, ?_⟩
  · rw [h3, t1, t2, ha, hb2]
    exact JsNum.sub_whole a b (by rw [← ha]; linarith) (by rw [← hb2]; linarith)
  · rw [h4]
    exact m1
  · rw [h4, m2]
    simp
  · rw [h4, m3]
    simp

/-! ## Properties of the reports -/

theorem getVisualizationData_of_find (parseDate : String → Option ℤ) (now : ℤ) (s : Store)
    (uid : ObjectId) (q : VizQuery) (transactions : List Transaction)
    (hfind : vizFind parseDate now s uid q = some transactions) :
    getVisualizationData parseDate now s uid q
      = .ok (visualize transactions (vizPeriodLabel q)) := by
  simp [getVisualizationData, hfind]

theorem findByDate_dashboardStore :
    findByDate dashboardStore 7
      = [sampleTx 1 TxType.income 5000 "Salary" 1673740800000,
          sampleTx 2 TxType.expense 3000 "Rent" 1676419200000] := by
  decide!

/-- C8, counterexample: with incomes 0.1 in January and 0.2 and 0.3 in February
the balance of `getVisualizationData` is 0.6000000000000001, while the months
and the categories hold 0.1 and 0.5, whose sum is not the balance, neither
exactly nor added as Numbers (0.6); and on the data of the witness, income 5000
and expense 3000, `getUserDashboard` returns the balance 0, because its two
aggregations match no transaction. -/
theorem balance_differs_from_grouped_sums :
    getVisualizationData (fun _ => none) 0 dimesStore 7 ⟨none, none, none⟩
      = .ok
        { totalIncome := JsNum.fin (literal (6000000000000001 / 10000000000000000))
          totalExpenses := 0
          balance := JsNum.fin (literal (6000000000000001 / 10000000000000000))
          categorySummary :=
            ⟨[("Salary", Cell.number (JsNum.fin (literal (1 / 10)))),
                ("Bonus", Cell.number (JsNum.fin (1 / 2)))], []⟩
          monthlyData :=
            [("2023-01", ⟨JsNum.fin (literal (1 / 10)), 0⟩), ("2023-02", ⟨JsNum.fin (1 / 2), 0⟩)]
          period := "all" }
    ∧ (JsNum.fin (literal (6000000000000001 / 10000000000000000))).toString
        = "0.6000000000000001"
    ∧ (literal (1 / 10) - 0) + (1 / 2 - 0) ≠ literal (6000000000000001 / 10000000000000000)
    ∧ (JsNum.add (JsNum.sub (JsNum.fin (literal (1 / 10))) 0)
        (JsNum.sub (JsNum.fin (1 / 2)) 0)).toString = "0.6"
    ∧ (∃ t ∈ dashboardStore.transactions,
        t.user = 7 ∧ t.type = TxType.income ∧ t.amount = 5000)
    ∧ (∃ t ∈ dashboardStore.transactions,
        t.user = 7 ∧ t.type = TxType.expense ∧ t.amount = 3000)
    ∧ getUserDashboard dashboardStore 7
        = { totalIncome := 0, totalExpense := 0, balance := 0, budgets := [], goals := [] } := by
  refine ⟨by decide!, by decide!, by decide!, by decide!, ?_, ?_, by decide!⟩
  · exact ⟨sampleTx 1 TxType.income 5000 "Salary" 1673740800000, by decide!, rfl, rfl, rfl⟩
  · exact ⟨sampleTx 2 TxType.expense 3000 "Rent" 1676419200000, by decide!, rfl, rfl, rfl⟩

/-- C8, amended: the balance of `getVisualizationData` is the Number
`totalIncome - totalExpenses`, the two totals being the income amounts and the
expense amounts of the transactions found, added up as Numbers in the order of
the query; when the amounts are whole numbers with a sum below `2 ^ 53`, the
balance is exactly the sum of the income amounts minus the sum of the expense
amounts and equals the sum over the months of income minus expense, and, when
moreover no category is the name of a member of `Object.prototype`, the sum of
the income values of `categorySummary` minus the sum of its expense values. -/
theorem balance_eq_income_sub_expense (parseDate : String → Option ℤ) (now : ℤ) (s : Store)
    (uid : ObjectId) (q : VizQuery) (transactions : List Transaction)
    (hfind : vizFind parseDate now s uid q = some transactions) :
    ∃ body, getVisualizationData parseDate now s uid q = .ok body
      ∧ body.totalIncome = totalOf TxType.income transactions
      ∧ body.totalExpenses = totalOf TxType.expense transactions
      ∧ body.balance
          = JsNum.sub (totalOf TxType.income transactions) (totalOf TxType.expense transactions)
      ∧ ((∀ t ∈ transactions, ∃ n : ℕ, t.amount = n) →
          (transactions.map Transaction.amount).sum < 2 ^ 53 →
          body.balance
              = JsNum.fin (exactTotal TxType.income transactions
                  - exactTotal TxType.expense transactions)
          ∧ (∀ e ∈ body.monthlyData, e.2.income.isWhole ∧ e.2.expense.isWhole)
          ∧ (body.monthlyData.map (fun e => e.2.income.value - e.2.expense.value)).sum
              = exactTotal TxType.income transactions - exactTotal TxType.expense transactions
          ∧ ((∀ t ∈ transactions, inheritedText t.category = none) →
              (∀ e ∈ body.categorySummary.income, e.2.isWhole)
              ∧ (∀ e ∈ body.categorySummary.expense, e.2.isWhole)
              ∧ (body.categorySummary.income.map (fun e => e.2.value)).sum
                  - (body.categorySummary.expense.map (fun e => e.2.value)).sum
                = exactTotal TxType.income transactions
                  - exactTotal TxType.expense transactions)) := by
  obtain ⟨h1, h2, h3, _, _⟩ := visualize_totals transactions (vizPeriodLabel q)
  refine ⟨visualize transactions (vizPeriodLabel q),
    getVisualizationData_of_find parseDate now s uid q transactions hfind, h1, h2, h3, ?_⟩
  intro hl hb
  obtain ⟨_, _, w3, w4, w5, w6⟩ := visualize_whole transactions (vizPeriodLabel q) hl hb
  refine ⟨w3, w4, ?_, ?_⟩
  · rw [sum_map_sub (fun e : String × MonthTotals => e.2.income.value)
      (fun e => e.2.expense.value), w5, w6]
  · intro hcat
    obtain ⟨c1, c2⟩ := foldl_vizStep_categories transactions ⟨0, 0, ⟨[], []⟩, []⟩
    obtain ⟨a1, a2⟩ := foldl_addToCategory_whole TxType.income transactions [] hl hcat
      (by simp) (by simpa using hb)
    obtain ⟨b1, b2⟩ := foldl_addToCategory_whole TxType.expense transactions [] hl hcat
      (by simp) (by simpa using hb)
    simp only [visualize]
    rw [c1, c2]
    refine ⟨a1, b1, ?_⟩
    rw [a2, b2]
    simp

/-- Witness of C8: income 5000 and expense 3000 give the balance 2000, which is
also the sum over the months and over the categories. -/
theorem balance_eq_income_sub_expense_witness :
    ∃ body, getVisualizationData (fun _ => none) 0 dashboardStore 7 ⟨none, none, none⟩ = .ok body
      ∧ body.balance = 2000
      ∧ (body.monthlyData.map (fun e => e.2.income.value - e.2.expense.value)).sum = 2000
      ∧ (body.categorySummary.income.map (fun e => e.2.value)).sum
          - (body.categorySummary.expense.map (fun e => e.2.value)).sum = 2000 := by
  obtain ⟨body, hbody, _, _, _, hwhole⟩ :=
    balance_eq_income_sub_expense (fun _ => none) 0 dashboardStore 7 ⟨none, none, none⟩
      (findByDate dashboardStore 7) (by decide!)
  have hl : ∀ t ∈ findByDate dashboardStore 7, ∃ n : ℕ, t.amount = n := by
    intro t ht
    rw [findByDate_dashboardStore] at ht
    simp only [List.mem_cons, List.mem_singleton, List.not_mem_nil, or_false] at ht
    rcases ht with rfl | rfl
    · exact ⟨5000, by norm_num [sampleTx]⟩
    · exact ⟨3000, by norm_num [sampleTx]⟩
  have hcat : ∀ t ∈ findByDate dashboardStore 7, inheritedText t.category = none := by
    intro t ht
    rw [findByDate_dashboardStore] at ht
    simp only [List.mem_cons, List.mem_singleton, List.not_mem_nil, or_false] at ht
    rcases ht with rfl | rfl <;> decide
  have h2000 : exactTotal TxType.income (findByDate dashboardStore 7)
      - exactTotal TxType.expense (findByDate dashboardStore 7) = 2000 := by decide!
  obtain ⟨hbal, _, hmonths, hcats⟩ := hwhole hl (by decide!)
  refine ⟨body, hbody, ?_, hmonths.trans h2000, (hcats hcat).2.2.trans h2000⟩
  rw [hbal, h2000]
  rfl

/-! ## Trends and monthly data -/

/-- C26, counterexample: with incomes 0.1 in January and 0.2 and 0.3 in
February, `totalIncome` is 0.6000000000000001 while the incomes of
`monthlyData` are 0.1 and 0.5, whose sum is not `totalIncome`, neither exactly
nor added as Numbers (0.6). -/
theorem monthly_incomes_differ_from_total :
    ∃ body, getVisualizationData (fun _ => none) 0 dimesStore 7 ⟨none, none, none⟩ = .ok body
      ∧ body.totalIncome.toString = "0.6000000000000001"
      ∧ body.monthlyData.map (fun e => (e.1, e.2.income.toString))
          = [("2023-01", "0.1"), ("2023-02", "0.5")]
      ∧ JsNum.fin ((body.monthlyData.map (fun e => e.2.income.value)).sum) ≠ body.totalIncome
      ∧ (body.monthlyData.map (fun e => e.2.income)).foldl JsNum.add 0 ≠ body.totalIncome
      ∧ ((body.monthlyData.map (fun e => e.2.income)).foldl JsNum.add 0).toString = "0.6" :=
  ⟨visualize (findByDate dimesStore 7) "all", by decide!, by decide!, by decide!, by decide!,
    by decide!, by decide!⟩

/-- C26, amended: on the list of transactions that `getVisualizationData`
finds, its `monthlyData` is the mapping that the loop of `getSpendingTrends`
builds from the same list, so that without date filter, where both handlers
read the same list, the two mappings are equal; and when the amounts are whole
numbers with a sum below `2 ^ 53`, the incomes and the expenses of
`monthlyData` add up to `totalIncome` and to `totalExpenses`. -/
theorem monthlyData_eq_trends :
    (∀ (parseDate : String → Option ℤ) (now : ℤ) (s : Store) (uid : ObjectId) (q : VizQuery)
        (transactions : List Transaction),
      vizFind parseDate now s uid q = some transactions →
      ∃ body, getVisualizationData parseDate now s uid q = .ok body
        ∧ body.monthlyData = transactions.foldl addToMonth []
        ∧ ((∀ t ∈ transactions, ∃ n : ℕ, t.amount = n) →
            (transactions.map Transaction.amount).sum < 2 ^ 53 →
            (∀ e ∈ body.monthlyData, e.2.income.isWhole ∧ e.2.expense.isWhole)
            ∧ body.totalIncome
                = JsNum.fin ((body.monthlyData.map (fun e => e.2.income.value)).sum)
            ∧ body.totalExpenses
                = JsNum.fin ((body.monthlyData.map (fun e => e.2.expense.value)).sum)))
    ∧ (∀ (s : Store) (uid : ObjectId),
        getSpendingTrends s uid = (findByDate s uid).foldl addToMonth [])
    ∧ (∀ (parseDate : String → Option ℤ) (now : ℤ) (s : Store) (uid : ObjectId),
        ∃ body, getVisualizationData parseDate now s uid ⟨none, none, none⟩ = .ok body
          ∧ body.monthlyData = getSpendingTrends s uid) := by
  refine ⟨?_, fun _ _ => rfl, ?_⟩
  · intro parseDate now s uid q transactions hfind
    obtain ⟨_, _, _, h4, _⟩ := visualize_totals transactions (vizPeriodLabel q)
    refine ⟨visualize transactions (vizPeriodLabel q),
      getVisualizationData_of_find parseDate now s uid q transactions hfind, h4, ?_⟩
    intro hl hb
    obtain ⟨w1, w2, _, w4, w5, w6⟩ := visualize_whole transactions (vizPeriodLabel q) hl hb
    exact ⟨w4, by rw [w5]; exact w1, by rw [w6]; exact w2⟩
  · intro parseDate now s uid
    refine ⟨visualize (findByDate s uid) (vizPeriodLabel ⟨none, none, none⟩), ?_, ?_⟩
    · simp [getVisualizationData, vizFind, vizDateFilter, truthy]
    · simp only [visualize, getSpendingTrends]
      exact foldl_vizStep_monthlyData _ _

/-- Witness of C26 on the trends data. -/
theorem monthlyData_eq_trends_witness :
    ∃ body, getVisualizationData sampleParseDate 1705276800000 trendStore 7
        ⟨some "week", some "2023-02-01", some "2023-02-28"⟩ = .ok body
      ∧ body.monthlyData = [("2023-02", ⟨2000, 450⟩)] := by
  obtain ⟨body, hbody, hmonths, _⟩ :=
    monthlyData_eq_trends.1 sampleParseDate 1705276800000 trendStore 7
      ⟨some "week", some "2023-02-01", some "2023-02-28"⟩
      [sampleTx 1 TxType.expense 350 "Food" 1676419200000,
        sampleTx 4 TxType.income 2000 "Salary" 1676419200000,
        sampleTx 5 TxType.expense 100 "Fun" 1676505600000] (by decide!)
  exact ⟨body, hbody, hmonths.trans (by decide!)⟩

/-! ## The date filter and the period label of `getVisualizationData` -/

/-- C29: in `getVisualizationData` the date filter and the label are chosen
apart: with startDate and endDate both supplied the filter is the range of the
two dates whatever period is, so that the response summarises the caller's
transactions dated in the range (status 500 when one of the two is no date);
the label is the period when a non-empty one is supplied, "custom" when there
is none and both dates are supplied, and "all" otherwise; a period other than
month and year without both dates sets no date filter, so that all the
transactions of the caller are summarised; and the label of a response is that
of the query. -/
theorem viz_filter_and_label (parseDate : String → Option ℤ) (now : ℤ) (s : Store)
    (uid : ObjectId) (q : VizQuery) :
    (truthy q.startDate = true → truthy q.endDate = true →
      vizDateFilter parseDate now q
          = some (parseDate (q.startDate.getD ""), parseDate (q.endDate.getD ""))
      ∧ (∀ lo hi, parseDate (q.startDate.getD "") = some lo →
          parseDate (q.endDate.getD "") = some hi →
          getVisualizationData parseDate now s uid q
            = .ok (visualize
                ((s.transactions.filter (fun t =>
                  decide (t.user = uid) && decide (lo ≤ t.date) && decide (t.date ≤ hi))).insertionSort
                  (fun a b => a.date ≤ b.date))
                (vizPeriodLabel q)))
      ∧ ((parseDate (q.startDate.getD "") = none ∨ parseDate (q.endDate.getD "") = none) →
          getVisualizationData parseDate now s uid q = .error 500))
    ∧ (∀ p, q.period = some p → p ≠ "" → vizPeriodLabel q = p)
    ∧ (truthy q.period = false → truthy q.startDate = true → truthy q.endDate = true →
      vizPeriodLabel q = "custom")
    ∧ (truthy q.period = false → ¬ (truthy q.startDate = true ∧ truthy q.endDate = true) →
      vizPeriodLabel q = "all")
    ∧ (q.period ≠ some "month" → q.period ≠ some "year" →
      ¬ (truthy q.startDate = true ∧ truthy q.endDate = true) →
      vizDateFilter parseDate now q = none
      ∧ getVisualizationData parseDate now s uid q
        = .ok (visualize (findByDate s uid) (vizPeriodLabel q)))
    ∧ (∀ body, getVisualizationData parseDate now s uid q = .ok body →
      body.period = vizPeriodLabel q) := by
  refine ⟨?_, ?_, ?_, ?_, ?_, ?_⟩
  · intro h1 h2
    have hfilter : vizDateFilter parseDate now q
        = some (parseDate (q.startDate.getD ""), parseDate (q.endDate.getD "")) := by
      simp [vizDateFilter, h1, h2]
    refine ⟨hfilter, ?_, ?_⟩
    · intro lo hi hlo hhi
      simp [getVisualizationData, vizFind, hfilter, hlo, hhi]
    · intro hbad
      rcases hbad with hbad | hbad
      · simp [getVisualizationData, vizFind, hfilter, hbad]
      · cases hlo : parseDate (q.startDate.getD "") <;>
          simp [getVisualizationData, vizFind, hfilter, hbad, hlo]
  · intro p hp hne
    simp [vizPeriodLabel, truthy, hp, hne]
  · intro h0 h1 h2
    simp [vizPeriodLabel, h0, h1, h2]
  · intro h0 h
    have hboth : (truthy q.startDate && truthy q.endDate) = false := by
      cases h1 : truthy q.startDate <;> cases h2 : truthy q.endDate <;> simp_all
    simp [vizPeriodLabel, h0, hboth]
  · intro hm hy h
    have hboth : (truthy q.startDate && truthy q.endDate) = false := by
      cases h1 : truthy q.startDate <;> cases h2 : truthy q.endDate <;> simp_all
    have hfilter : vizDateFilter parseDate now q = none := by
      simp [vizDateFilter, hboth, hm, hy]
    refine ⟨hfilter, ?_⟩
    simp [getVisualizationData, vizFind, hfilter]
  · intro body hbody
    unfold getVisualizationData at hbody
    cases hfind : vizFind parseDate now s uid q with
    | none => simp [hfind] at hbody
    | some transactions =>
      simp only [hfind, VizResponse.ok.injEq] at hbody
      rw [← hbody]
      rfl

/-- Witness of C29 on the trends data: with period "month" and the range of
February 2023 the response, at a time in 2024, has the totals of February 2023,
income 2000 and expenses 450, under the label "month". -/
theorem viz_filter_and_label_witness :
    getVisualizationData sampleParseDate 1705276800000 trendStore 7
        ⟨some "month", some "2023-02-01", some "2023-02-28"⟩
      = .ok
        { totalIncome := 2000
          totalExpenses := 450
          balance := 1550
          categorySummary :=
            ⟨[("Salary", Cell.number 2000)], [("Food", Cell.number 350), ("Fun", Cell.number 100)]⟩
          monthlyData := [("2023-02", ⟨2000, 450⟩)]
          period := "month" }
    ∧ vizPeriodLabel ⟨some "month", some "2023-02-01", some "2023-02-28"⟩ = "month" :=
  ⟨(((viz_filter_and_label sampleParseDate 1705276800000 trendStore 7
      ⟨some "month", some "2023-02-01", some "2023-02-28"⟩).1 (by decide) (by decide)).2.1
      1675209600000 1677542400000 (by decide) (by decide)).trans (by decide!),
    (viz_filter_and_label sampleParseDate 1705276800000 trendStore 7
      ⟨some "month", some "2023-02-01", some "2023-02-28"⟩).2.1 "month" rfl (by decide)⟩

/-! ## Properties of `getBudgetRecommendations` -/

theorem recommendationFor_congr (now : ℤ) (s s' : Store) (uid : ObjectId) (b : Budget)
    (h : s'.transactions = s.transactions) :
    recommendationFor now s' uid b = recommendationFor now s uid b := by
  simp [recommendationFor, findExpensesSince, h]

theorem recommendLoop_snd (now : ℤ) (uid : ObjectId) (bs : List Budget) (s : Store)
    (acc : List Recommendation) :
    (recommendLoop now uid bs s acc).2 = acc ++ bs.map (recommendationFor now s uid) := by
  induction bs generalizing s acc with
  | nil => simp [recommendLoop]
  | cons b bs ih =>
    have hfun : recommendationFor now
        (updateRecommendations s b._id (recommendationFor now s uid b).recommendation) uid
        = recommendationFor now s uid := by
      funext x
      exact recommendationFor_congr now s _ uid x rfl
    simp only [recommendLoop, ih, hfun, List.map_cons, List.append_assoc, List.singleton_append]

theorem recommendationFor_recommendation (now : ℤ) (s : Store) (uid : ObjectId) (b : Budget) :
    (recommendationFor now s uid b).recommendation
      = if JsNum.gt (percentOfBudget now s uid b) 110 = true then
          increaseText b.category (JsMath.ceil (JsNum.sub (percentOfBudget now s uid b) 100))
        else if JsNum.lt (percentOfBudget now s uid b) 70 = true then
          reduceText b.category (JsMath.floor (JsNum.sub 100 (percentOfBudget now s uid b)))
        else alignedText b.category := rfl

theorem foldl_add_ne_nan (l : List ℚ) (a : JsNum) (ha : a ≠ JsNum.nan) :
    l.foldl (fun sum x => JsNum.add sum (JsNum.fin x)) a ≠ JsNum.nan := by
  induction l generalizing a with
  | nil => exact ha
  | cons x l ih =>
    apply ih
    cases a <;> simp_all [JsNum.add, toDouble_ne_nan]

theorem sumAmounts_ne_nan (l : List Transaction) : sumAmounts l ≠ JsNum.nan := by
  rw [sumAmounts_eq_jsSum]
  exact foldl_add_ne_nan _ _ (by simp [OfNat.ofNat])

theorem JsNum.div_fin_ne_nan (a : JsNum) (d : ℚ) (ha : a ≠ JsNum.nan) (hd : d ≠ 0) :
    JsNum.div a (JsNum.fin d) ≠ JsNum.nan := by
  cases a with
  | fin q => simp [JsNum.div, hd, toDouble_ne_nan]
  | posInf =>
    simp only [JsNum.div]
    split_ifs <;> simp
  | negInf =>
    simp only [JsNum.div]
    split_ifs <;> simp
  | nan => exact absurd rfl ha

theorem JsNum.mul_fin_ne_nan (a : JsNum) (d : ℚ) (ha : a ≠ JsNum.nan) (hd : d ≠ 0) :
    JsNum.mul a (JsNum.fin d) ≠ JsNum.nan := by
  cases a with
  | fin q => simp [JsNum.mul, toDouble_ne_nan]
  | posInf =>
    simp only [JsNum.mul, if_neg hd]
    split_ifs <;> simp
  | negInf =>
    simp only [JsNum.mul, if_neg hd]
    split_ifs <;> simp
  | nan => exact absurd rfl ha

theorem percentOfBudget_ne_nan (now : ℤ) (s : Store) (uid : ObjectId) (b : Budget)
    (hne : b.amount ≠ 0) : percentOfBudget now s uid b ≠ JsNum.nan := by
  unfold percentOfBudget monthlyAverage
  rw [JsNum.ofNat_eq_fin 100, JsNum.ofNat_eq_fin 3]
  exact JsNum.mul_fin_ne_nan _ _
    (JsNum.div_fin_ne_nan _ _ (JsNum.div_fin_ne_nan _ _ (sumAmounts_ne_nan _) (by norm_num)) hne)
    (by norm_num)

/-- C10, counterexample: an average of 220 on the Food budget of 100 gives the
Number 220.00000000000003 as `percentOfBudget`, and the text proposes an
increase of 121%, not 120%; an average of exactly 110 on the same budget gives
110.00000000000001, which is above 110, and the text proposes an increase of
11% instead of calling the budget well-aligned. -/
theorem recommendation_names_121 :
    monthlyAverage 1705276800000 foodStore 7 foodBudget = 220
    ∧ foodBudget.amount = 100
    ∧ (percentOfBudget 1705276800000 foodStore 7 foodBudget).toString = "220.00000000000003"
    ∧ (getBudgetRecommendations 1705276800000 foodStore 7).1.map Recommendation.recommendation
      = ["Consider increasing your Food budget by 121% based on your 3-month average spending."]
    ∧ monthlyAverage 1705276800000 elevenStore 7 foodBudget = 110
    ∧ (percentOfBudget 1705276800000 elevenStore 7 foodBudget).toString = "110.00000000000001"
    ∧ (getBudgetRecommendations 1705276800000 elevenStore 7).1.map Recommendation.recommendation
      = ["Consider increasing your Food budget by 11% based on your 3-month average spending."] := by
  refine ⟨by decide!, by decide!, by decide!, by decide!, by decide!, by decide!, by decide!⟩

/-- C10, amended: `getBudgetRecommendations` returns one entry per budget of
the caller, in order, and for a budget with amount > 0 it classifies the Number
percentOfBudget = (monthlyAverage / amount) * 100 that it computes, which is
never NaN: > 110 gives the 'increase' text with ceil of the Number
percentOfBudget - 100, < 70 gives the 'reduce' text with floor of the Number
100 - percentOfBudget, and otherwise, that is for 70 <= percentOfBudget <= 110
with both bounds included, the 'well-aligned' text. -/
theorem getBudgetRecommendations_classification (now : ℤ) (s : Store) (uid : ObjectId) :
    (getBudgetRecommendations now s uid).1
      = (findBudgets s uid).map (recommendationFor now s uid)
    ∧ ∀ b : Budget, 0 < b.amount →
      (recommendationFor now s uid b).category = b.category
      ∧ percentOfBudget now s uid b ≠ JsNum.nan
      ∧ (JsNum.gt (percentOfBudget now s uid b) 110 = true →
          (recommendationFor now s uid b).recommendation
            = "Consider increasing your " ++ b.category ++ " budget by "
              ++ (JsMath.ceil (JsNum.sub (percentOfBudget now s uid b) 100)).toString
              ++ "% based on your 3-month average spending.")
      ∧ (JsNum.lt (percentOfBudget now s uid b) 70 = true →
          (recommendationFor now s uid b).recommendation
            = "You might be able to reduce your " ++ b.category ++ " budget by "
              ++ (JsMath.floor (JsNum.sub 100 (percentOfBudget now s uid b))).toString
              ++ "% based on your 3-month spending patterns.")
      ∧ ((JsNum.ge (percentOfBudget now s uid b) 70 = true
            ∧ JsNum.le (percentOfBudget now s uid b) 110 = true)
          ↔ (JsNum.gt (percentOfBudget now s uid b) 110 = false
            ∧ JsNum.lt (percentOfBudget now s uid b) 70 = false))
      ∧ (JsNum.ge (percentOfBudget now s uid b) 70 = true →
          JsNum.le (percentOfBudget now s uid b) 110 = true →
          (recommendationFor now s uid b).recommendation
            = "Your " ++ b.category ++ " budget is well-aligned with your spending habits.") := by
  constructor
  · simp [getBudgetRecommendations, recommendLoop_snd]
  · intro b hpos
    have hnan := percentOfBudget_ne_nan now s uid b (ne_of_gt hpos)
    have h110 := JsNum.ofNat_eq_fin 110
    have h70 := JsNum.ofNat_eq_fin 70
    refine ⟨rfl, hnan, ?_, ?_, ?_, ?_⟩
    · intro h
      rw [recommendationFor_recommendation, if_pos h]
      rfl
    · intro h
      have hgt : JsNum.gt (percentOfBudget now s uid b) 110 = false := by
        rw [h110, h70] at *
        cases hp : percentOfBudget now s uid b <;>
          simp_all [JsNum.gt, JsNum.lt]
        linarith
      rw [recommendationFor_recommendation, hgt, if_pos h]
      simp only [Bool.false_eq_true, if_false]
      rfl
    · rw [h110, h70]
      cases hp : percentOfBudget now s uid b <;>
        simp_all [JsNum.gt, JsNum.lt, JsNum.ge, JsNum.le, and_comm]
    · intro hge hle
      have hgt : JsNum.gt (percentOfBudget now s uid b) 110 = false := by
        rw [h110, h70] at *
        cases hp : percentOfBudget now s uid b <;>
          simp_all [JsNum.gt, JsNum.lt, JsNum.ge, JsNum.le]
      have hlt : JsNum.lt (percentOfBudget now s uid b) 70 = false := by
        rw [h110, h70] at *
        cases hp : percentOfBudget now s uid b <;>
          simp_all [JsNum.gt, JsNum.lt, JsNum.ge, JsNum.le]
      rw [recommendationFor_recommendation, hgt, hlt]
      simp only [Bool.false_eq_true, if_false]
      rfl

/-- Witness of C10: an average of 220 on a budget of 100 proposes an increase of
121%, an average of 250 one of 150%, and an average of 110 one of 11%. -/
theorem getBudgetRecommendations_classification_witness :
    (recommendationFor 1705276800000 foodStore 7 foodBudget).recommendation
      = "Consider increasing your Food budget by 121% based on your 3-month average spending."
    ∧ (recommendationFor 1705276800000 quarterStore 7 foodBudget).recommendation
      = "Consider increasing your Food budget by 150% based on your 3-month average spending."
    ∧ (recommendationFor 1705276800000 elevenStore 7 foodBudget).recommendation
      = "Consider increasing your Food budget by 11% based on your 3-month average spending." :=
  ⟨((getBudgetRecommendations_classification 1705276800000 foodStore 7).2 foodBudget
      (by decide!)).2.2.1 (by decide!) |>.trans (by decide!),
    ((getBudgetRecommendations_classification 1705276800000 quarterStore 7).2 foodBudget
      (by decide!)).2.2.1 (by decide!) |>.trans (by decide!),
    ((getBudgetRecommendations_classification 1705276800000 elevenStore 7).2 foodBudget
      (by decide!)).2.2.1 (by decide!) |>.trans (by decide!)⟩

/-! ## The average of `getBudgetRecommendations` -/

/-- C11: at 2024-01-15 the only Utilities expense of the caller is a bill of
150 dated 2024-01-20, so no expense lies between three months ago and now;
`getBudgetRecommendations` still reports averageSpending 150 / 3 = 50 and
percentOfBudget round(50 / 300 * 100) = 17 for the budget of 300, because its
query bounds the date from below only. -/
theorem getBudgetRecommendations_counts_future_expense :
    (∀ t ∈ futureBillStore.transactions, 1705276800000 < t.date)
    ∧ ((futureBillStore.transactions.filter
        (fun t => decide (t.user = 7) && decide (t.category = "Utilities")
          && decide (t.type = TxType.expense)
          && decide (threeMonthsBefore 1705276800000 ≤ t.date)
          && decide (t.date ≤ 1705276800000))).map Transaction.amount).sum / 3 = 0
    ∧ (getBudgetRecommendations 1705276800000 futureBillStore 7).1
      = [{ category := "Utilities"
           recommendation := "You might be able to reduce your Utilities budget by 83% based on your 3-month spending patterns."
           currentBudget := 300
           averageSpending := 50
           percentOfBudget := JsInt.int 17 }] := by
  refine ⟨by decide!, by decide!, by decide!⟩

/-! ## Bounds on the percentage of a recommendation -/

theorem toDouble_between {a lo hi : ℚ} (hlo : toDouble lo = JsNum.fin lo)
    (hhi : toDouble hi = JsNum.fin hi) (h1 : lo ≤ a) (h2 : a ≤ hi) :
    ∃ v, toDouble a = JsNum.fin v ∧ lo ≤ v ∧ v ≤ hi := by
  have m1 := toDouble_mono h1
  have m2 := toDouble_mono h2
  rw [hlo] at m1
  rw [hhi] at m2
  cases hv : toDouble a with
  | fin v =>
    rw [hv] at m1 m2
    exact ⟨v, rfl, by simpa [JsNum.le, JsNum.ge] using m1, by simpa [JsNum.le, JsNum.ge] using m2⟩
  | posInf => rw [hv] at m2; simp [JsNum.le, JsNum.ge] at m2
  | negInf => rw [hv] at m1; simp [JsNum.le, JsNum.ge] at m1
  | nan => exact absurd hv (toDouble_ne_nan a)

theorem toDouble_above {a lo : ℚ} (hlo : toDouble lo = JsNum.fin lo) (h1 : lo ≤ a) :
    toDouble a = JsNum.posInf ∨ ∃ v, toDouble a = JsNum.fin v ∧ lo ≤ v := by
  have m1 := toDouble_mono h1
  rw [hlo] at m1
  cases hv : toDouble a with
  | fin v =>
    rw [hv] at m1
    exact Or.inr ⟨v, rfl, by simpa [JsNum.le, JsNum.ge] using m1⟩
  | posInf => exact Or.inl rfl
  | negInf => rw [hv] at m1; simp [JsNum.le, JsNum.ge] at m1
  | nan => exact absurd hv (toDouble_ne_nan a)

theorem toDouble_gt_110 {a : ℚ} (h : JsNum.gt (toDouble a) (JsNum.fin 110) = true) :
    toDouble a = JsNum.posInf ∨ ∃ r, toDouble a = JsNum.fin r ∧ 110 + pow2 (-46) ≤ r := by
  rcases lt_trichotomy a 0 with hneg | hzero | hpos
  · exfalso
    have hm := toDouble_mono hneg.le
    rw [toDouble_zero] at hm
    cases hv : toDouble a <;> rw [hv] at h hm <;>
      simp [JsNum.gt, JsNum.lt, JsNum.le, JsNum.ge] at h hm
    linarith
  · exfalso
    rw [hzero, toDouble_zero] at h
    simp [JsNum.gt, JsNum.lt] at h
    linarith
  · rw [toDouble_of_pos hpos] at h ⊢
    split_ifs at h ⊢ with hfin
    · right
      refine ⟨nearest a, rfl, nearest_gt_110 hpos ?_⟩
      simpa [JsNum.gt, JsNum.lt] using h
    · exact Or.inl rfl

theorem percentOfBudget_ge_zero (now : ℤ) (s : Store) (uid : ObjectId) (b : Budget)
    (hpos : 0 < b.amount)
    (hnonneg : ∀ t ∈ s.transactions, t.type = TxType.expense → 0 ≤ t.amount) :
    JsNum.ge (JsNum.div (monthlyAverage now s uid b) (JsNum.fin b.amount)) (JsNum.fin 0) = true := by
  unfold monthlyAverage
  rw [JsNum.ofNat_eq_fin 3, sumAmounts_eq_jsSum]
  apply JsNum.div_ge_zero _ _ _ hpos
  apply JsNum.div_ge_zero _ _ _ (by norm_num)
  apply foldl_add_ge_zero
  · rw [JsNum.zero_eq_fin]
    simp [JsNum.ge]
  · intro x hx
    obtain ⟨t, ht, rfl⟩ := List.mem_map.1 hx
    unfold findExpensesSince at ht
    obtain ⟨hmem, hp⟩ := List.mem_filter.1 ht
    simp only [Bool.and_eq_true, decide_eq_true_eq] at hp
    exact hnonneg t hmem hp.1.2

/-- C28: for a budget with amount > 0, when no expense amount is negative, the
text of its recommendation is the 'increase' one with a number of at least 11,
the 'reduce' one with a number between 30 and 100, or the 'well-aligned' one;
and when no expense of its category lies in the window the text is the
'reduce' one with 100. -/
theorem recommendation_percent_bounds (now : ℤ) (s : Store) (uid : ObjectId) (b : Budget)
    (hpos : 0 < b.amount)
    (hnonneg : ∀ t ∈ s.transactions, t.type = TxType.expense → 0 ≤ t.amount) :
    ((JsNum.gt (percentOfBudget now s uid b) 110 = true
        ∧ ∃ n : JsInt, JsInt.ge n (JsInt.int 11) = true
          ∧ (recommendationFor now s uid b).recommendation
            = "Consider increasing your " ++ b.category ++ " budget by " ++ n.toString
              ++ "% based on your 3-month average spending.")
      ∨ (JsNum.lt (percentOfBudget now s uid b) 70 = true
        ∧ ∃ n : ℤ, 30 ≤ n ∧ n ≤ 100 ∧ (recommendationFor now s uid b).recommendation
          = "You might be able to reduce your " ++ b.category ++ " budget by "
            ++ (JsInt.int n).toString ++ "% based on your 3-month spending patterns.")
      ∨ (JsNum.ge (percentOfBudget now s uid b) 70 = true
        ∧ JsNum.le (percentOfBudget now s uid b) 110 = true
        ∧ (recommendationFor now s uid b).recommendation
          = "Your " ++ b.category ++ " budget is well-aligned with your spending habits."))
    ∧ (findExpensesSince s uid b.category (threeMonthsBefore now) = [] →
        (recommendationFor now s uid b).recommendation
          = "You might be able to reduce your " ++ b.category ++ " budget by "
            ++ "100" ++ "% based on your 3-month spending patterns.") := by
  have h110 := JsNum.ofNat_eq_fin 110
  have h70 := JsNum.ofNat_eq_fin 70
  have h100 := JsNum.ofNat_eq_fin 100
  have hx0 := percentOfBudget_ge_zero now s uid b hpos hnonneg
  have hp : percentOfBudget now s uid b
      = JsNum.mul (JsNum.div (monthlyAverage now s uid b) (JsNum.fin b.amount)) (JsNum.fin 100) := by
    unfold percentOfBudget
    rw [h100]
  have hp0 : JsNum.ge (percentOfBudget now s uid b) (JsNum.fin 0) = true := by
    rw [hp]
    exact JsNum.mul_ge_zero _ _ hx0 (by norm_num)
  constructor
  · cases hgt : JsNum.gt (percentOfBudget now s uid b) 110 with
    | true =>
      refine Or.inl ⟨rfl, JsMath.ceil (JsNum.sub (percentOfBudget now s uid b) 100), ?_, ?_⟩
      · rw [h100]
        rw [h110] at hgt
        have hcases : percentOfBudget now s uid b = JsNum.posInf
            ∨ ∃ r, percentOfBudget now s uid b = JsNum.fin r ∧ 110 + pow2 (-46) ≤ r := by
          rw [hp] at hgt ⊢
          cases hx : JsNum.div (monthlyAverage now s uid b) (JsNum.fin b.amount) with
          | fin x =>
            rw [hx] at hgt
            exact toDouble_gt_110 hgt
          | posInf => exact Or.inl (by simp [JsNum.mul])
          | negInf => rw [hx] at hx0; simp [JsNum.ge] at hx0
          | nan => rw [hx] at hx0; simp [JsNum.ge] at hx0
        rcases hcases with hinf | ⟨r, hr, hle⟩
        · rw [hinf]
          rfl
        · rw [hr]
          have hfix : toDouble (10 + pow2 (-46)) = JsNum.fin (10 + pow2 (-46)) := by decide!
          rcases toDouble_above hfix (show 10 + pow2 (-46) ≤ r - 100 by linarith) with h | h
          · simp only [JsNum.sub, h]
            rfl
          · obtain ⟨v, hv, hle2⟩ := h
            simp only [JsNum.sub, hv, JsMath.ceil, JsInt.ge, decide_eq_true_eq]
            have hpos2 := pow2_pos (-46)
            have h10 : ((10 : ℤ) : ℚ) < v := by
              push_cast
              linarith
            have := Int.lt_ceil.2 h10
            omega
      · rw [recommendationFor_recommendation, if_pos hgt]
        rfl
    | false =>
      cases hlt : JsNum.lt (percentOfBudget now s uid b) 70 with
      | true =>
        obtain ⟨r, hr, hr0, hr70⟩ : ∃ r, percentOfBudget now s uid b = JsNum.fin r
            ∧ 0 ≤ r ∧ r < 70 := by
          rw [h70] at hlt
          cases hv : percentOfBudget now s uid b with
          | fin r =>
            rw [hv] at hlt hp0
            exact ⟨r, rfl, by simpa [JsNum.ge] using hp0, by simpa [JsNum.lt] using hlt⟩
          | posInf => rw [hv] at hlt; simp [JsNum.lt] at hlt
          | negInf => rw [hv] at hp0; simp [JsNum.ge] at hp0
          | nan => rw [hv] at hp0; simp [JsNum.ge] at hp0
        obtain ⟨v, hv, hv30, hv100⟩ := toDouble_between (show toDouble 30 = JsNum.fin 30 by decide!)
          (show toDouble 100 = JsNum.fin 100 by decide!)
          (show (30 : ℚ) ≤ 100 - r by linarith) (show 100 - r ≤ (100 : ℚ) by linarith)
        refine Or.inr (Or.inl ⟨rfl, ⌊v⌋, ?_, ?_, ?_⟩)
        · apply Int.le_floor.2
          push_cast
          exact hv30
        · have hle : v ≤ ((100 : ℤ) : ℚ) := by
            push_cast
            exact hv100
          exact Int.cast_le.1 ((Int.floor_le _).trans hle)
        · rw [recommendationFor_recommendation, hgt, if_pos hlt]
          simp only [Bool.false_eq_true, if_false]
          rw [h100, hr]
          simp only [JsNum.sub, hv, JsMath.floor]
          rfl
      | false =>
        refine Or.inr (Or.inr ⟨?_, ?_, ?_⟩)
        · rw [h70] at hlt ⊢
          cases hv : percentOfBudget now s uid b <;> rw [hv] at hlt hp0 <;>
            simp_all [JsNum.lt, JsNum.ge]
        · rw [h110] at hgt ⊢
          cases hv : percentOfBudget now s uid b <;> rw [hv] at hgt hp0 <;>
            simp_all [JsNum.gt, JsNum.lt, JsNum.ge, JsNum.le]
        · rw [recommendationFor_recommendation, hgt, hlt]
          simp only [Bool.false_eq_true, if_false]
          rfl
  · intro hempty
    have hzero : percentOfBudget now s uid b = JsNum.fin 0 := by
      unfold percentOfBudget monthlyAverage
      rw [hempty]
      have h1 : JsNum.div (sumAmounts []) 3 = JsNum.fin 0 := by decide!
      rw [h1]
      simp only [JsNum.div, if_neg (ne_of_gt hpos), zero_div, toDouble_zero]
      decide!
    have hgt : JsNum.gt (JsNum.fin 0) 110 = false := by decide!
    have hlt : JsNum.lt (JsNum.fin 0) 70 = true := by decide!
    have hnum : (JsMath.floor (JsNum.sub 100 (JsNum.fin 0))).toString = "100" := by decide!
    rw [recommendationFor_recommendation, hzero, hgt]
    simp only [Bool.false_eq_true, if_false, if_pos hlt, reduceText, hnum]

/-- Witness of C28: the Travel budget, which has no expense in the window, is
told to reduce by 100%. -/
theorem recommendation_percent_bounds_witness :
    (recommendationFor 1705276800000 diningStore 7 travelBudget).recommendation
      = "You might be able to reduce your Travel budget by 100% based on your 3-month spending patterns." :=
  ((recommendation_percent_bounds 1705276800000 diningStore 7 travelBudget (by decide!)
    (by decide!)).2 (by decide!)).trans (by decide!)

/-! ## The virtual `progress` -/

theorem JsNum.le_of_fin {a b : ℚ} (h : a ≤ b) : JsNum.le (JsNum.fin a) (JsNum.fin b) = true := by
  simp [JsNum.le, JsNum.ge, h]

theorem JsNum.le_negInf_toDouble (q : ℚ) : JsNum.le JsNum.negInf (toDouble q) = true := by
  cases h : toDouble q with
  | nan => exact absurd h (toDouble_ne_nan q)
  | _ => rfl

theorem JsNum.le_toDouble_posInf (q : ℚ) : JsNum.le (toDouble q) JsNum.posInf = true := by
  cases h : toDouble q with
  | nan => exact absurd h (toDouble_ne_nan q)
  | _ => rfl

theorem JsNum.div_mono (a b : JsNum) (d : ℚ) (hd : 0 < d) (h : JsNum.le a b = true) :
    JsNum.le (JsNum.div a (JsNum.fin d)) (JsNum.div b (JsNum.fin d)) = true := by
  have hne : d ≠ 0 := ne_of_gt hd
  cases a with
  | fin x =>
    cases b with
    | fin y =>
      have hxy : x ≤ y := by simpa [JsNum.le, JsNum.ge] using h
      simp only [JsNum.div, if_neg hne]
      exact toDouble_mono (div_le_div_of_nonneg_right hxy hd.le)
    | posInf =>
      simp only [JsNum.div, if_neg hne, if_pos hd.le]
      exact JsNum.le_toDouble_posInf _
    | negInf => simp [JsNum.le, JsNum.ge] at h
    | nan => simp [JsNum.le, JsNum.ge] at h
  | posInf =>
    cases b with
    | posInf => simp [JsNum.div, hd.le, JsNum.le, JsNum.ge]
    | _ => simp [JsNum.le, JsNum.ge] at h
  | negInf =>
    cases b with
    | fin y =>
      simp only [JsNum.div, if_neg hne, if_pos hd.le]
      exact JsNum.le_negInf_toDouble _
    | posInf => simp [JsNum.div, hd.le, JsNum.le, JsNum.ge]
    | negInf => simp [JsNum.div, hd.le, JsNum.le, JsNum.ge]
    | nan => simp [JsNum.le, JsNum.ge] at h
  | nan => simp [JsNum.le, JsNum.ge] at h

theorem JsNum.mul_mono (a b : JsNum) (d : ℚ) (hd : 0 < d) (h : JsNum.le a b = true) :
    JsNum.le (JsNum.mul a (JsNum.fin d)) (JsNum.mul b (JsNum.fin d)) = true := by
  have hne : d ≠ 0 := ne_of_gt hd
  cases a with
  | fin x =>
    cases b with
    | fin y =>
      have hxy : x ≤ y := by simpa [JsNum.le, JsNum.ge] using h
      exact toDouble_mono (mul_le_mul_of_nonneg_right hxy hd.le)
    | posInf =>
      simp only [JsNum.mul, if_neg hne, if_pos hd]
      exact JsNum.le_toDouble_posInf _
    | negInf => simp [JsNum.le, JsNum.ge] at h
    | nan => simp [JsNum.le, JsNum.ge] at h
  | posInf =>
    cases b with
    | posInf => simp [JsNum.mul, hd, hne, JsNum.le, JsNum.ge]
    | _ => simp [JsNum.le, JsNum.ge] at h
  | negInf =>
    cases b with
    | fin y =>
      simp only [JsNum.mul, if_neg hne, if_pos hd]
      exact JsNum.le_negInf_toDouble _
    | posInf => simp [JsNum.mul, hd, hne, JsNum.le, JsNum.ge]
    | negInf => simp [JsNum.mul, hd, hne, JsNum.le, JsNum.ge]
    | nan => simp [JsNum.le, JsNum.ge] at h
  | nan => simp [JsNum.le, JsNum.ge] at h

theorem JsMath.round_mono (a b : JsNum) (h : JsNum.le a b = true) :
    JsInt.ge (JsMath.round b) (JsMath.round a) = true := by
  cases a <;> cases b <;> simp_all [JsNum.le, JsNum.ge, JsMath.round, JsInt.ge]
  exact Int.floor_mono (by linarith)

theorem JsInt.min_mono (a b : JsInt) (h : JsInt.ge b a = true) :
    JsInt.ge (JsInt.min (JsInt.int 100) b) (JsInt.min (JsInt.int 100) a) = true := by
  cases a <;> cases b <;> simp_all [JsInt.min, JsInt.ge]

theorem reminderProgress_mono (g g' : Goal) (ht : 0 < g.targetAmount)
    (htarget : g'.targetAmount = g.targetAmount)
    (hsaved : JsNum.le g.savedAmount g'.savedAmount = true) :
    JsNum.le (reminderProgress g) (reminderProgress g') = true := by
  unfold reminderProgress
  rw [htarget, JsNum.ofNat_eq_fin 100]
  exact JsNum.mul_mono _ _ 100 (by norm_num) (JsNum.div_mono _ _ _ ht hsaved)

theorem reminderProgress_ge_zero (g : Goal) (ht : 0 < g.targetAmount)
    (hs : JsNum.ge g.savedAmount 0 = true) :
    JsNum.ge (reminderProgress g) (JsNum.fin 0) = true := by
  unfold reminderProgress
  rw [JsNum.ofNat_eq_fin 100]
  rw [JsNum.zero_eq_fin] at hs
  exact JsNum.mul_ge_zero _ _ (JsNum.div_ge_zero _ _ hs ht) (by norm_num)

theorem reminderProgress_ne_nan (g : Goal) (hne : g.targetAmount ≠ 0)
    (hs : g.savedAmount ≠ JsNum.nan) : reminderProgress g ≠ JsNum.nan := by
  unfold reminderProgress
  rw [JsNum.ofNat_eq_fin 100]
  exact JsNum.mul_fin_ne_nan _ _ (JsNum.div_fin_ne_nan _ _ hs hne) (by norm_num)

/-- C12: for a goal with targetAmount > 0 the virtual `progress` is
min(100, round(savedAmount / targetAmount * 100)), computed on Numbers; that
value is never above 100, lies between 0 and 100 when savedAmount >= 0, and
does not decrease when savedAmount grows with the target unchanged. -/
theorem progress_capped (g : Goal) (ht : 0 < g.targetAmount) :
    g.progress
      = JsInt.min (JsInt.int 100)
          (JsMath.round
            (JsNum.mul (JsNum.div g.savedAmount (JsNum.fin g.targetAmount)) (JsNum.fin 100)))
    ∧ JsInt.lt (JsInt.int 100) g.progress = false
    ∧ (g.savedAmount ≠ JsNum.nan → JsInt.ge (JsInt.int 100) g.progress = true)
    ∧ (JsNum.ge g.savedAmount 0 = true →
        ∃ p : ℤ, g.progress = JsInt.int p ∧ 0 ≤ p ∧ p ≤ 100)
    ∧ ∀ g' : Goal, g'.targetAmount = g.targetAmount →
        JsNum.le g.savedAmount g'.savedAmount = true →
        JsInt.ge g'.progress g.progress = true := by
  have hdef : ∀ x : Goal, x.progress
      = JsInt.min (JsInt.int 100) (JsMath.round (reminderProgress x)) := fun _ => rfl
  refine ⟨?_, ?_, ?_, ?_, ?_⟩
  · rw [hdef, reminderProgress, JsNum.ofNat_eq_fin 100]
  · rw [hdef]
    cases hr : JsMath.round (reminderProgress g) <;> simp [JsInt.min, JsInt.lt]
  · intro hs
    have hnan := reminderProgress_ne_nan g (ne_of_gt ht) hs
    rw [hdef]
    cases hv : reminderProgress g with
    | nan => exact absurd hv hnan
    | fin q => simp [JsMath.round, JsInt.min, JsInt.ge]
    | posInf => simp [JsMath.round, JsInt.min, JsInt.ge]
    | negInf => simp [JsMath.round, JsInt.min, JsInt.ge]
  · intro hs
    have h0 := reminderProgress_ge_zero g ht hs
    rw [hdef]
    cases hv : reminderProgress g with
    | nan => rw [hv] at h0; simp [JsNum.ge] at h0
    | negInf => rw [hv] at h0; simp [JsNum.ge] at h0
    | posInf => exact ⟨100, by simp [JsMath.round, JsInt.min], by norm_num, le_refl _⟩
    | fin q =>
      rw [hv] at h0
      have hq : 0 ≤ q := by simpa [JsNum.ge] using h0
      refine ⟨Min.min 100 ⌊q + 1 / 2⌋, by simp [JsMath.round, JsInt.min], ?_, min_le_left _ _⟩
      exact le_min (by norm_num) (Int.floor_nonneg.2 (by linarith))
  · intro g' htarget hsaved
    rw [hdef, hdef]
    exact JsInt.min_mono _ _ (JsMath.round_mono _ _ (reminderProgress_mono g g' ht htarget hsaved))

/-- Witness of C12: 2000 of 7000 is 29, 150 of 100 is capped at 100, and 23 of
40, which is 57.49999999999999 as a Number, is 57. -/
theorem progress_capped_witness :
    statsGoalA.progress = JsInt.int 29 ∧ overGoal.progress = JsInt.int 100
    ∧ fortyGoal.progress = JsInt.int 57
    ∧ (reminderProgress fortyGoal).toString = "57.49999999999999" :=
  ⟨(progress_capped statsGoalA (by decide!)).1.trans (by decide!),
    (progress_capped overGoal (by decide!)).1.trans (by decide!),
    (progress_capped fortyGoal (by decide!)).1.trans (by decide!), by decide!⟩

/-! ## Properties of `getGoalStatistics` -/

theorem getGoalStatistics_eq (now : ℤ) (s : Store) (uid : ObjectId) :
    getGoalStatistics now s uid
      = goalStatistics now (s.goals.filter (fun g => decide (g.user = uid))) := rfl

/-- C13, counterexample: for one goal with target -100 and 50 saved the target
sum is -100, not 0, and round(50 / -100 * 100) is -50, but `overallProgress`
is 0. -/
theorem goalStatistics_negative_target :
    (goalStatistics 0 [negativeTargetGoal]).totalTarget = JsNum.fin (-100)
    ∧ (goalStatistics 0 [negativeTargetGoal]).totalSaved = 50
    ∧ JsMath.round (JsNum.mul (JsNum.div 50 (JsNum.fin (-100))) 100) = JsInt.int (-50)
    ∧ (goalStatistics 0 [negativeTargetGoal]).overallProgress = JsInt.int 0 := by
  refine ⟨by decide!, by decide!, by decide!, by decide!⟩

/-- C13, amended: `totalSaved` and `totalTarget` are the savedAmount and the
targetAmount of the goals added up as Numbers in the order of the goals;
`overallProgress` is 0 when the target sum is not above 0, so also when it is
negative, and round(totalSaved / totalTarget * 100), computed on Numbers, when
it is above 0, so that the divisor is never 0. -/
theorem goalStatistics_overall (now : ℤ) (goals : List Goal) :
    (goalStatistics now goals).totalSaved
      = (goals.map Goal.savedAmount).foldl JsNum.add 0
    ∧ (goalStatistics now goals).totalTarget = jsSum (goals.map Goal.targetAmount)
    ∧ (JsNum.gt (goalStatistics now goals).totalTarget 0 = false →
        (goalStatistics now goals).overallProgress = JsInt.int 0)
    ∧ (JsNum.gt (goalStatistics now goals).totalTarget 0 = true →
        (goalStatistics now goals).totalTarget ≠ JsNum.fin 0
        ∧ (goalStatistics now goals).overallProgress
          = JsMath.round
              (JsNum.mul
                (JsNum.div (goalStatistics now goals).totalSaved
                  (goalStatistics now goals).totalTarget) 100)) := by
  refine ⟨?_, ?_, ?_, ?_⟩
  · simp only [goalStatistics, List.foldl_map]
  · simp only [goalStatistics, jsSum, List.foldl_map]
  · intro h
    simp only [goalStatistics] at h ⊢
    rw [h]
    rfl
  · intro h
    refine ⟨?_, ?_⟩
    · intro h0
      rw [h0] at h
      revert h
      decide!
    · simp only [goalStatistics] at h ⊢
      rw [h]
      rfl

/-- Witness of C13: saved 2000 + 1500 and target 7000 + 3000 give 3500, 10000
and 35; saved 201 with target 200 gives 100, the Number 100.49999999999999
rounded. -/
theorem goalStatistics_overall_witness :
    (goalStatistics 0 [statsGoalA, statsGoalB]).totalSaved = 3500
    ∧ (goalStatistics 0 [statsGoalA, statsGoalB]).totalTarget = 10000
    ∧ (goalStatistics 0 [statsGoalA, statsGoalB]).overallProgress = JsInt.int 35
    ∧ (goalStatistics 0 [justOverGoal]).overallProgress = JsInt.int 100 :=
  ⟨(goalStatistics_overall 0 [statsGoalA, statsGoalB]).1.trans (by decide!),
    (goalStatistics_overall 0 [statsGoalA, statsGoalB]).2.1.trans (by decide!),
    ((goalStatistics_overall 0 [statsGoalA, statsGoalB]).2.2.2 (by decide!)).2.trans
      (by decide!),
    ((goalStatistics_overall 0 [justOverGoal]).2.2.2 (by decide!)).2.trans (by decide!)⟩

/-- C14: `upcomingDeadlines` lists, in order, the goals chosen by
`upcomingGoals`: at most five, each one a goal of the input with progress < 100
and daysRemaining > 0, sorted by ascending deadline, and the eligible goals
left out all have a deadline at or after that of every goal chosen. -/
theorem upcomingDeadlines_soonest (now : ℤ) (goals : List Goal) :
    (goalStatistics now goals).upcomingDeadlines
      = (upcomingGoals now goals).map
          (fun g => ⟨g._id, g.title, g.daysRemaining now, g.progress⟩)
    ∧ (goalStatistics now goals).upcomingDeadlines.length ≤ 5
    ∧ (∀ g ∈ upcomingGoals now goals,
        g ∈ goals ∧ JsInt.lt g.progress (JsInt.int 100) = true ∧ 0 < g.daysRemaining now)
    ∧ (upcomingGoals now goals).Sorted (fun a b => a.deadline ≤ b.deadline)
    ∧ ∃ rest : List Goal,
        (upcomingGoals now goals ++ rest).Perm
          (goals.filter
            (fun g => JsInt.lt g.progress (JsInt.int 100) && decide (0 < g.daysRemaining now)))
        ∧ ∀ g ∈ rest, ∀ h ∈ upcomingGoals now goals, h.deadline ≤ g.deadline := by
  have hsorted : ((goals.filter
      (fun g => JsInt.lt g.progress (JsInt.int 100)
        && decide (0 < g.daysRemaining now))).insertionSort
      (fun a b => a.deadline ≤ b.deadline)).Sorted (fun a b => a.deadline ≤ b.deadline) :=
    @List.sorted_insertionSort Goal (fun a b => a.deadline ≤ b.deadline) _
      ⟨fun a b => le_total a.deadline b.deadline⟩
      ⟨fun a b c hab hbc => le_trans hab hbc⟩ _
  have hperm := List.perm_insertionSort (fun a b : Goal => a.deadline ≤ b.deadline)
    (goals.filter
      (fun g => JsInt.lt g.progress (JsInt.int 100) && decide (0 < g.daysRemaining now)))
  refine ⟨rfl, ?_, ?_, ?_, ?_⟩
  · simp only [goalStatistics, upcomingGoals, List.length_map, List.length_take]
    exact min_le_left _ _
  · intro g hg
    have hmem := hperm.mem_iff.1 (List.mem_of_mem_take hg)
    rw [List.mem_filter] at hmem
    simpa using hmem
  · exact hsorted.sublist (List.take_sublist _ _)
  · refine ⟨((goals.filter
      (fun g => JsInt.lt g.progress (JsInt.int 100)
        && decide (0 < g.daysRemaining now))).insertionSort
      (fun a b => a.deadline ≤ b.deadline)).drop 5, ?_, ?_⟩
    · unfold upcomingGoals
      rw [List.take_append_drop]
      exact hperm
    · intro g hg h hh
      have hpair := hsorted
      unfold List.Sorted at hpair
      rw [← List.take_append_drop 5 ((goals.filter
        (fun g => JsInt.lt g.progress (JsInt.int 100)
          && decide (0 < g.daysRemaining now))).insertionSort
        (fun a b => a.deadline ≤ b.deadline)), List.pairwise_append] at hpair
      exact hpair.2.2 h hh g hg

/-- Witness of C14: of six eligible goals the five soonest are listed, soonest
first; the complete goal, the overdue goal and the goal due last are not. -/
theorem upcomingDeadlines_soonest_witness :
    (goalStatistics 1705276800000 deadlineGoals).upcomingDeadlines.length ≤ 5
    ∧ (goalStatistics 1705276800000 deadlineGoals).upcomingDeadlines.map
        (fun e => (e.id, e.daysRemaining))
      = [(24, 1), (27, 2), (22, 3), (25, 5), (21, 9)] :=
  ⟨(upcomingDeadlines_soonest 1705276800000 deadlineGoals).2.1, by decide!⟩

/-! ## The category distribution -/

theorem addToCategoryStats_keys (d : Dict CategoryStats) (g : Goal) :
    (addToCategoryStats d g).map Prod.fst
      = if categoryKey g.category ∈ d.map Prod.fst then d.map Prod.fst
        else d.map Prod.fst ++ [categoryKey g.category] := by
  unfold addToCategoryStats
  cases hget : d.get? (categoryKey g.category) with
  | none =>
    have hk : categoryKey g.category ∉ d.map Prod.fst := (Dict.get?_eq_none_iff d _).1 hget
    simp [hget, Dict.keys_set, hk]
  | some e0 =>
    have hk : categoryKey g.category ∈ d.map Prod.fst := Dict.mem_keys_of_get?_some d _ e0 hget
    simp [hget, Dict.keys_set, hk]

theorem addToCategoryStats_get (d : Dict CategoryStats) (g : Goal) (k : String) :
    (((addToCategoryStats d g).get? k).getD ⟨0, 0, 0⟩).count
        = ((d.get? k).getD ⟨0, 0, 0⟩).count + (if categoryKey g.category = k then 1 else 0)
    ∧ (((addToCategoryStats d g).get? k).getD ⟨0, 0, 0⟩).saved
        = (if categoryKey g.category = k then
            JsNum.add ((d.get? k).getD ⟨0, 0, 0⟩).saved g.savedAmount
          else ((d.get? k).getD ⟨0, 0, 0⟩).saved)
    ∧ (((addToCategoryStats d g).get? k).getD ⟨0, 0, 0⟩).target
        = (if categoryKey g.category = k then
            JsNum.add ((d.get? k).getD ⟨0, 0, 0⟩).target (JsNum.fin g.targetAmount)
          else ((d.get? k).getD ⟨0, 0, 0⟩).target) := by
  unfold addToCategoryStats
  by_cases hk : categoryKey g.category = k
  · subst hk
    cases hget : d.get? (categoryKey g.category) with
    | none => simp [Dict.get?_set_self, hget]
    | some e0 => simp [Dict.get?_set_self, hget]
  · have hne : k ≠ categoryKey g.category := fun e => hk e.symm
    cases hget : d.get? (categoryKey g.category) with
    | none => simp [Dict.get?_set_ne _ _ _ _ hne, hk, hget]
    | some e0 => simp [Dict.get?_set_ne _ _ _ _ hne, hk, hget]

theorem foldl_addToCategoryStats_keys (l : List Goal) (d : Dict CategoryStats) :
    (((l.foldl addToCategoryStats d).map Prod.fst).Nodup ↔ (d.map Prod.fst).Nodup)
    ∧ ∀ k, k ∈ (l.foldl addToCategoryStats d).map Prod.fst
        ↔ k ∈ d.map Prod.fst ∨ ∃ g ∈ l, categoryKey g.category = k := by
  induction l generalizing d with
  | nil => simp
  | cons t l ih =>
    obtain ⟨ihnd, ihmem⟩ := ih (addToCategoryStats d t)
    simp only [List.foldl_cons]
    constructor
    · rw [ihnd, addToCategoryStats_keys]
      split_ifs with hk
      · rfl
      · rw [List.nodup_append]
        simp [hk]
    · intro k
      rw [ihmem, addToCategoryStats_keys]
      split_ifs with hk
      · constructor
        · rintro (h | ⟨x, hx, hxk⟩)
          · exact Or.inl h
          · exact Or.inr ⟨x, List.mem_cons_of_mem _ hx, hxk⟩
        · rintro (h | ⟨x, hx, hxk⟩)
          · exact Or.inl h
          · rcases List.mem_cons.1 hx with rfl | hx
            · exact Or.inl (hxk ▸ hk)
            · exact Or.inr ⟨x, hx, hxk⟩
      · constructor
        · rintro (h | ⟨x, hx, hxk⟩)
          · rcases List.mem_append.1 h with h | h
            · exact Or.inl h
            · exact Or.inr ⟨t, List.mem_cons_self _ _, (List.mem_singleton.1 h).symm⟩
          · exact Or.inr ⟨x, List.mem_cons_of_mem _ hx, hxk⟩
        · rintro (h | ⟨x, hx, hxk⟩)
          · exact Or.inl (List.mem_append.2 (Or.inl h))
          · rcases List.mem_cons.1 hx with rfl | hx
            · exact Or.inl (List.mem_append.2 (Or.inr (List.mem_singleton.2 hxk.symm)))
            · exact Or.inr ⟨x, hx, hxk⟩

theorem foldl_addToCategoryStats_get (l : List Goal) (d : Dict CategoryStats) (k : String) :
    (((l.foldl addToCategoryStats d).get? k).getD ⟨0, 0, 0⟩).count
        = ((d.get? k).getD ⟨0, 0, 0⟩).count
          + (l.filter (fun g => decide (categoryKey g.category = k))).length
    ∧ (((l.foldl addToCategoryStats d).get? k).getD ⟨0, 0, 0⟩).saved
        = ((l.filter (fun g => decide (categoryKey g.category = k))).map Goal.savedAmount).foldl
            JsNum.add ((d.get? k).getD ⟨0, 0, 0⟩).saved
    ∧ (((l.foldl addToCategoryStats d).get? k).getD ⟨0, 0, 0⟩).target
        = ((l.filter (fun g => decide (categoryKey g.category = k))).map Goal.targetAmount).foldl
            (fun sum x => JsNum.add sum (JsNum.fin x)) ((d.get? k).getD ⟨0, 0, 0⟩).target := by
  induction l generalizing d with
  | nil => simp
  | cons t l ih =>
    obtain ⟨h1, h2, h3⟩ := addToCategoryStats_get d t k
    obtain ⟨i1, i2, i3⟩ := ih (addToCategoryStats d t)
    simp only [List.foldl_cons]
    by_cases hk : categoryKey t.category = k
    · simp only [hk, if_true] at h1 h2 h3
      simp only [List.filter_cons, hk, decide_True, if_true, List.length_cons, List.map_cons,
        List.foldl_cons]
      exact ⟨by rw [i1, h1]; omega, by rw [i2, h2], by rw [i3, h3]⟩
    · simp only [hk, if_false, add_zero] at h1 h2 h3
      simp only [List.filter_cons, hk, decide_False, Bool.false_eq_true, if_false]
      exact ⟨by rw [i1, h1], by rw [i2, h2], by rw [i3, h3]⟩

theorem addToCategoryStats_count (d : Dict CategoryStats) (g : Goal) :
    ((addToCategoryStats d g).map (fun e => (e.2.count : ℚ))).sum
        = (d.map (fun e => (e.2.count : ℚ))).sum + 1 := by
  unfold addToCategoryStats
  cases hget : d.get? (categoryKey g.category) with
  | none =>
    simp [Dict.sum_set (fun e : CategoryStats => (e.count : ℚ)), Dict.get?_set_self, hget]
  | some e0 =>
    simp only [hget, Option.isNone_some, Bool.false_eq_true, if_false, Option.getD_some,
      Dict.sum_set (fun e : CategoryStats => (e.count : ℚ)), Option.map_some']
    push_cast
    ring

theorem foldl_addToCategoryStats_count (l : List Goal) (d : Dict CategoryStats) :
    ((l.foldl addToCategoryStats d).map (fun e => (e.2.count : ℚ))).sum
        = (d.map (fun e => (e.2.count : ℚ))).sum + l.length := by
  induction l generalizing d with
  | nil => simp
  | cons t l ih =>
    simp only [List.foldl_cons, List.length_cons]
    rw [ih, addToCategoryStats_count]
    push_cast
    ring

theorem addToCategoryStats_whole (d : Dict CategoryStats) (g : Goal) (n m : ℕ)
    (hs : g.savedAmount = JsNum.fin n) (ht : g.targetAmount = m)
    (hd : ∀ e ∈ d, e.2.saved.isWhole ∧ e.2.target.isWhole)
    (hS : (d.map (fun e => e.2.saved.value)).sum + n < 2 ^ 53)
    (hT : (d.map (fun e => e.2.target.value)).sum + m < 2 ^ 53) :
    (∀ e ∈ addToCategoryStats d g, e.2.saved.isWhole ∧ e.2.target.isWhole)
    ∧ ((addToCategoryStats d g).map (fun e => e.2.saved.value)).sum
        = (d.map (fun e => e.2.saved.value)).sum + n
    ∧ ((addToCategoryStats d g).map (fun e => e.2.target.value)).sum
        = (d.map (fun e => e.2.target.value)).sum + m := by
  have hzero : (0 : JsNum).isWhole := ⟨0, by simp; rfl⟩
  have hv0 : (0 : JsNum).value = 0 := rfl
  have hval : ∀ q : ℚ, (JsNum.fin q).value = q := fun _ => rfl
  obtain ⟨d0, e0, hd0, hget0, hmem0, hsumS, hsumT, he0⟩ :
      ∃ (d0 : Dict CategoryStats) (e0 : CategoryStats),
        (if (d.get? (categoryKey g.category)).isNone then
            d.set (categoryKey g.category) ⟨0, 0, 0⟩ else d) = d0
        ∧ d0.get? (categoryKey g.category) = some e0
        ∧ (∀ e ∈ d0, e.2.saved.isWhole ∧ e.2.target.isWhole)
        ∧ (d0.map (fun e => e.2.saved.value)).sum = (d.map (fun e => e.2.saved.value)).sum
        ∧ (d0.map (fun e => e.2.target.value)).sum = (d.map (fun e => e.2.target.value)).sum
        ∧ (e0.saved.isWhole ∧ e0.target.isWhole) := by
    cases hget : d.get? (categoryKey g.category) with
    | none =>
      refine ⟨d.set (categoryKey g.category) ⟨0, 0, 0⟩, ⟨0, 0, 0⟩, by simp,
        Dict.get?_set_self _ _ _, ?_, ?_, ?_, ⟨hzero, hzero⟩⟩
      · intro e he
        rcases Dict.mem_set _ _ _ _ he with h | h
        · rw [h]
          exact ⟨hzero, hzero⟩
        · exact hd e h
      · rw [Dict.sum_set (fun e : CategoryStats => e.saved.value), hget]
        simp [hv0]
      · rw [Dict.sum_set (fun e : CategoryStats => e.target.value), hget]
        simp [hv0]
    | some e0 =>
      exact ⟨d, e0, by simp, hget, hd, rfl, rfl, hd _ (Dict.mem_of_get?_eq_some _ _ _ hget)⟩
  have hmem := Dict.mem_of_get?_eq_some _ _ _ hget0
  have hleS : e0.saved.value ≤ (d0.map (fun e => e.2.saved.value)).sum :=
    value_le_sum (fun e : CategoryStats => e.saved.value) d0
      (fun e he => JsNum.isWhole_value_nonneg (hmem0 e he).1) _ hmem
  have hleT : e0.target.value ≤ (d0.map (fun e => e.2.target.value)).sum :=
    value_le_sum (fun e : CategoryStats => e.target.value) d0
      (fun e he => JsNum.isWhole_value_nonneg (hmem0 e he).2) _ hmem
  obtain ⟨haddS, hwS⟩ := JsNum.add_value_whole he0.1 n (by linarith)
  obtain ⟨haddT, hwT⟩ := JsNum.add_value_whole he0.2 m (by linarith)
  unfold addToCategoryStats
  simp only [hd0, hget0, Option.getD_some, hs, ht]
  refine ⟨?_, ?_, ?_⟩
  · intro e he
    rcases Dict.mem_set _ _ _ _ he with h | h
    · rw [h]
      exact ⟨hwS, hwT⟩
    · exact hmem0 e h
  · rw [Dict.sum_set (fun e : CategoryStats => e.saved.value), hget0, haddS, hsumS]
    simp only [Option.map_some', Option.getD_some, hval]
    ring
  · rw [Dict.sum_set (fun e : CategoryStats => e.target.value), hget0, haddT, hsumT]
    simp only [Option.map_some', Option.getD_some, hval]
    ring

theorem sum_values_nonneg (l : List Goal) (f : Goal → ℚ) (hl : ∀ g ∈ l, ∃ n : ℕ, f g = n) :
    0 ≤ (l.map f).sum := by
  apply List.sum_nonneg
  intro x hx
  obtain ⟨y, hy, rfl⟩ := List.mem_map.1 hx
  obtain ⟨m, hm⟩ := hl y hy
  rw [hm]
  positivity

theorem foldl_addToCategoryStats_whole (l : List Goal) (d : Dict CategoryStats)
    (hls : ∀ g ∈ l, g.savedAmount.isWhole) (hlt : ∀ g ∈ l, ∃ m : ℕ, g.targetAmount = m)
    (hd : ∀ e ∈ d, e.2.saved.isWhole ∧ e.2.target.isWhole)
    (hS : (d.map (fun e => e.2.saved.value)).sum + (l.map (fun g => g.savedAmount.value)).sum
      < 2 ^ 53)
    (hT : (d.map (fun e => e.2.target.value)).sum + (l.map Goal.targetAmount).sum < 2 ^ 53) :
    (∀ e ∈ l.foldl addToCategoryStats d, e.2.saved.isWhole ∧ e.2.target.isWhole)
    ∧ ((l.foldl addToCategoryStats d).map (fun e => e.2.saved.value)).sum
        = (d.map (fun e => e.2.saved.value)).sum + (l.map (fun g => g.savedAmount.value)).sum
    ∧ ((l.foldl addToCategoryStats d).map (fun e => e.2.target.value)).sum
        = (d.map (fun e => e.2.target.value)).sum + (l.map Goal.targetAmount).sum := by
  induction l generalizing d with
  | nil => exact ⟨hd, by simp, by simp⟩
  | cons t l ih =>
    obtain ⟨n, hn⟩ := hls t (List.mem_cons_self _ _)
    obtain ⟨m, hm⟩ := hlt t (List.mem_cons_self _ _)
    have hls2 : ∀ g ∈ l, g.savedAmount.isWhole := fun x hx => hls x (List.mem_cons_of_mem _ hx)
    have hlt2 : ∀ g ∈ l, ∃ m : ℕ, g.targetAmount = m :=
      fun x hx => hlt x (List.mem_cons_of_mem _ hx)
    have hnonS : (0 : ℚ) ≤ (l.map (fun g => g.savedAmount.value)).sum :=
      sum_values_nonneg l _ (fun g hg => by
        obtain ⟨k, hk⟩ := hls2 g hg
        exact ⟨k, by rw [hk]; rfl⟩)
    have hnonT : (0 : ℚ) ≤ (l.map Goal.targetAmount).sum := sum_values_nonneg l _ hlt2
    have hvn : t.savedAmount.value = n := by rw [hn]; rfl
    have hn0 : (0 : ℚ) ≤ n := by positivity
    have hm0 : (0 : ℚ) ≤ m := by positivity
    rw [List.map_cons, List.sum_cons, hvn] at hS
    rw [List.map_cons, List.sum_cons, hm] at hT
    obtain ⟨s1, s2, s3⟩ := addToCategoryStats_whole d t n m hn hm hd (by linarith) (by linarith)
    obtain ⟨i1, i2, i3⟩ := ih (addToCategoryStats d t) hls2 hlt2 s1
      (by rw [s2]; linarith) (by rw [s3]; linarith)
    simp only [List.foldl_cons, List.map_cons, List.sum_cons, hvn, hm]
    exact ⟨i1, by rw [i2, s2, add_assoc], by rw [i3, s3, add_assoc]⟩

theorem foldl_add_saved_whole (l : List Goal) (a : ℕ) (hls : ∀ g ∈ l, g.savedAmount.isWhole)
    (hb : (a : ℚ) + (l.map (fun g => g.savedAmount.value)).sum < 2 ^ 53) :
    l.foldl (fun sum goal => JsNum.add sum goal.savedAmount) (JsNum.fin a)
      = JsNum.fin ((a : ℚ) + (l.map (fun g => g.savedAmount.value)).sum) := by
  have hconv : ∀ (l : List Goal) (v : JsNum), (∀ g ∈ l, g.savedAmount.isWhole) →
      l.foldl (fun sum goal => JsNum.add sum goal.savedAmount) v
        = (l.map (fun g => g.savedAmount.value)).foldl
            (fun sum x => JsNum.add sum (JsNum.fin x)) v := by
    intro l
    induction l with
    | nil => intro v _; rfl
    | cons t l ih =>
      intro v h
      obtain ⟨k, hk⟩ := h t (List.mem_cons_self _ _)
      simp only [List.foldl_cons, List.map_cons]
      rw [ih _ (fun x hx => h x (List.mem_cons_of_mem _ hx)), hk]
      rfl
  rw [hconv l _ hls]
  exact (foldl_add_whole _ a (fun x hx => by
    obtain ⟨g, hg, rfl⟩ := List.mem_map.1 hx
    obtain ⟨k, hk⟩ := hls g hg
    exact ⟨k, by rw [hk]; rfl⟩) hb).1

theorem categoryKey_injective (a b : Option GoalCategory) (h : categoryKey a = categoryKey b) :
    a = b := by
  rcases a with _ | a <;> rcases b with _ | b
  · rfl
  · cases b <;> exact absurd h (by decide)
  · cases a <;> exact absurd h (by decide)
  · cases a <;> cases b <;> first | rfl | exact absurd h (by decide)


/-- C15, counterexample: for a Car goal with 0.1 saved and two Home goals with
0.2 and 0.3 saved, `totalSaved` is 0.6000000000000001 while the categories hold
0.1 and 0.5, whose sum is not `totalSaved`, neither exactly nor added as
Numbers (0.6). -/
theorem category_saved_sums_differ :
    (goalStatistics 0 dimeSavedGoals).totalSaved.toString = "0.6000000000000001"
    ∧ (goalStatistics 0 dimeSavedGoals).categoryDistribution.map
        (fun e => (e.1, e.2.count, e.2.saved.toString)) = [("Car", 1, "0.1"), ("Home", 2, "0.5")]
    ∧ JsNum.fin (((goalStatistics 0 dimeSavedGoals).categoryDistribution.map
        (fun e => e.2.saved.value)).sum) ≠ (goalStatistics 0 dimeSavedGoals).totalSaved
    ∧ ((goalStatistics 0 dimeSavedGoals).categoryDistribution.map
        (fun e => e.2.saved)).foldl JsNum.add 0 ≠ (goalStatistics 0 dimeSavedGoals).totalSaved
    ∧ (((goalStatistics 0 dimeSavedGoals).categoryDistribution.map
        (fun e => e.2.saved)).foldl JsNum.add 0).toString = "0.6" := by
  refine ⟨by decide!, by decide!, by decide!, by decide!, by decide!⟩

/-- C15, amended: `categoryDistribution` has one key per category that occurs
among the goals and no other key; the entry of a category holds the number of
goals of that category and their savedAmount and targetAmount added up as
Numbers in the order of the goals; over all keys the counts add up to
totalGoals, and, when the saved and target amounts are whole numbers with sums
below `2 ^ 53`, the saved sums add up to totalSaved and the target sums to
totalTarget. -/
theorem categoryDistribution_spec (now : ℤ) (goals : List Goal) :
    (((goalStatistics now goals).categoryDistribution).map Prod.fst).Nodup
    ∧ (∀ c : Option GoalCategory,
        categoryKey c ∈ ((goalStatistics now goals).categoryDistribution).map Prod.fst
          ↔ ∃ g ∈ goals, g.category = c)
    ∧ (∀ k ∈ ((goalStatistics now goals).categoryDistribution).map Prod.fst,
        ∃ g ∈ goals, categoryKey g.category = k)
    ∧ (∀ (c : Option GoalCategory) (e : CategoryStats),
        (categoryKey c, e) ∈ (goalStatistics now goals).categoryDistribution →
        e.count = (goals.filter (fun g => decide (g.category = c))).length
        ∧ e.saved
          = ((goals.filter (fun g => decide (g.category = c))).map Goal.savedAmount).foldl
              JsNum.add 0
        ∧ e.target
          = jsSum ((goals.filter (fun g => decide (g.category = c))).map Goal.targetAmount))
    ∧ (((goalStatistics now goals).categoryDistribution).map (fun e => e.2.count)).sum
        = (goalStatistics now goals).totalGoals
    ∧ ((∀ g ∈ goals, g.savedAmount.isWhole) → (∀ g ∈ goals, ∃ m : ℕ, g.targetAmount = m) →
        (goals.map (fun g => g.savedAmount.value)).sum < 2 ^ 53 →
        (goals.map Goal.targetAmount).sum < 2 ^ 53 →
        (∀ e ∈ (goalStatistics now goals).categoryDistribution,
          e.2.saved.isWhole ∧ e.2.target.isWhole)
        ∧ (goalStatistics now goals).totalSaved
          = JsNum.fin (((goalStatistics now goals).categoryDistribution.map
              (fun e => e.2.saved.value)).sum)
        ∧ (goalStatistics now goals).totalTarget
          = JsNum.fin (((goalStatistics now goals).categoryDistribution.map
              (fun e => e.2.target.value)).sum)) := by
  obtain ⟨hnd, hmem⟩ := foldl_addToCategoryStats_keys goals []
  have s1 := foldl_addToCategoryStats_count goals []
  have hnodup : ((goals.foldl addToCategoryStats []).map Prod.fst).Nodup :=
    hnd.2 List.nodup_nil
  have hfilter : ∀ c : Option GoalCategory,
      goals.filter (fun g => decide (categoryKey g.category = categoryKey c))
        = goals.filter (fun g => decide (g.category = c)) := by
    intro c
    apply List.filter_congr
    intro g _
    by_cases h : g.category = c
    · simp [h]
    · have : ¬ categoryKey g.category = categoryKey c :=
        fun e => h (categoryKey_injective _ _ e)
      simp [h, this]
  simp only [List.map_nil, List.sum_nil, zero_add] at s1
  refine ⟨hnodup, ?_, ?_, ?_, ?_, ?_⟩
  · intro c
    simp only [goalStatistics]
    rw [hmem]
    simp only [List.map_nil, List.not_mem_nil, false_or]
    constructor
    · rintro ⟨g, hg, hk⟩
      exact ⟨g, hg, categoryKey_injective _ _ hk⟩
    · rintro ⟨g, hg, hk⟩
      exact ⟨g, hg, by rw [hk]⟩
  · intro k hk
    simp only [goalStatistics] at hk
    rw [hmem] at hk
    simpa using hk
  · intro c e he
    have hget := Dict.get?_of_mem _ hnodup (categoryKey c) e he
    obtain ⟨h1, h2, h3⟩ := foldl_addToCategoryStats_get goals [] (categoryKey c)
    rw [hget, hfilter] at h1 h2 h3
    simp only [Option.getD_some, Dict.get?, Option.getD_none, zero_add] at h1 h2 h3
    exact ⟨h1, h2, h3⟩
  · have hcast : (((((goals.foldl addToCategoryStats []).map
        (fun e => e.2.count)).sum : ℕ) : ℚ)) = (goals.length : ℚ) := by
      rw [Nat.cast_list_sum, List.map_map]
      exact s1
    simp only [goalStatistics]
    exact_mod_cast hcast
  · intro hls hlt hS hT
    obtain ⟨w1, w2, w3⟩ := foldl_addToCategoryStats_whole goals [] hls hlt (by simp)
      (by simpa using hS) (by simpa using hT)
    simp only [List.map_nil, List.sum_nil, zero_add] at w2 w3
    refine ⟨w1, ?_, ?_⟩
    · simp only [goalStatistics]
      rw [w2]
      have := foldl_add_saved_whole goals 0 hls (by simpa using hS)
      simpa [JsNum.zero_eq_fin] using this
    · simp only [goalStatistics]
      rw [w3]
      have := (foldl_add_whole (goals.map Goal.targetAmount) 0 (fun x hx => by
        obtain ⟨g, hg, rfl⟩ := List.mem_map.1 hx
        exact hlt g hg) (by simpa using hT)).1
      simpa [JsNum.zero_eq_fin, List.foldl_map] using this

/-- Witness of C15: a Car goal and two Home goals give the keys Car and Home
with counts 1 and 2 and their sums, which add up to the totals 3650 and
10100. -/
theorem categoryDistribution_spec_witness :
    (goalStatistics 0 [statsGoalA, statsGoalB, overGoal]).categoryDistribution
      = [("Car", ⟨1, 2000, 7000⟩), ("Home", ⟨2, 1650, 3100⟩)]
    ∧ (((goalStatistics 0 [statsGoalA, statsGoalB, overGoal]).categoryDistribution).map
        (fun e => e.2.count)).sum = 3
    ∧ (goalStatistics 0 [statsGoalA, statsGoalB, overGoal]).totalSaved = JsNum.fin 3650
    ∧ (goalStatistics 0 [statsGoalA, statsGoalB, overGoal]).totalTarget = JsNum.fin 10100 := by
  have hls : ∀ g ∈ [statsGoalA, statsGoalB, overGoal], g.savedAmount.isWhole := by
    intro g hg
    simp only [List.mem_cons, List.mem_singleton, List.not_mem_nil, or_false] at hg
    rcases hg with rfl | rfl | rfl
    · exact ⟨2000, by decide!⟩
    · exact ⟨1500, by decide!⟩
    · exact ⟨150, by decide!⟩
  have hlt : ∀ g ∈ [statsGoalA, statsGoalB, overGoal], ∃ m : ℕ, g.targetAmount = m := by
    intro g hg
    simp only [List.mem_cons, List.mem_singleton, List.not_mem_nil, or_false] at hg
    rcases hg with rfl | rfl | rfl
    · exact ⟨7000, by decide!⟩
    · exact ⟨3000, by decide!⟩
    · exact ⟨100, by decide!⟩
  obtain ⟨_, hsaved, htarget⟩ :=
    (categoryDistribution_spec 0 [statsGoalA, statsGoalB, overGoal]).2.2.2.2.2 hls hlt
      (by decide!) (by decide!)
  exact ⟨by decide!,
    (categoryDistribution_spec 0 [statsGoalA, statsGoalB, overGoal]).2.2.2.2.1.trans
      (by decide!),
    hsaved.trans (by decide!), htarget.trans (by decide!)⟩

/-! ## Properties of `checkSpendingPatterns` -/

/-- C16, failing input: user 7 has expenses of 600 and 400 in Food and one of
600 in a category named "constructor"; the total of that category is 600,
which is above 500, but `spending` holds a text under that key, made of the
inherited member and the amount, and the only alert is the one for Food. -/
theorem checkSpendingPatterns_misses_constructor :
    (constructorStore.transactions.filter
        (fun t => decide (t.user = 7) && decide (t.type = TxType.expense)
          && decide (t.category = "constructor"))).map Transaction.amount = [600]
    ∧ spendingByCategory constructorStore 7
      = [("Food", Cell.number 1000),
          ("constructor", Cell.text "function Object() \x7b [native code] \x7d600")]
    ∧ checkSpendingPatterns constructorStore 7 = ["High spending detected in Food: $1000"]
    ∧ checkSpendingPatterns spendingStore 7 = ["High spending detected in Food: $1000"] := by
  refine ⟨by decide!, by decide!, by decide!, by decide!⟩

/-! ## Recurring transactions and reminders -/

theorem timeClip_of_valid (t : ℤ) (h : |t| ≤ 8640000000000000) : timeClip t = some t := by
  simp [timeClip, h]

theorem timeClip_eq_some (t d : ℤ) (h : timeClip t = some d) :
    d = t ∧ |t| ≤ 8640000000000000 := by
  unfold timeClip at h
  split_ifs at h with hv
  exact ⟨(Option.some.inj h).symm, hv⟩

theorem sorted_insertionSort_date (l : List Transaction) :
    (l.insertionSort (fun a b => a.date ≤ b.date)).Sorted (fun a b => a.date ≤ b.date) :=
  @List.sorted_insertionSort Transaction (fun a b => a.date ≤ b.date) _
    ⟨fun a b => le_total a.date b.date⟩ ⟨fun _ _ _ hab hbc => le_trans hab hbc⟩ _

theorem endsOnOrAfter_iff (recurrenceEndDate : Option ℤ) (today : ℤ) :
    endsOnOrAfter recurrenceEndDate today = true
      ↔ ∃ e, recurrenceEndDate = some e ∧ today ≤ e := by
  cases recurrenceEndDate with
  | none => simp [endsOnOrAfter]
  | some e => simp [endsOnOrAfter]

theorem daysAfter_eq_some (today : ℤ) (days : JsInt) (d : ℤ) (h : daysAfter today days = some d) :
    ∃ n : ℤ, days = JsInt.int n ∧ d = today + n * msPerDay
      ∧ |today + n * msPerDay| ≤ 8640000000000000 := by
  cases days with
  | int n =>
    obtain ⟨h1, h2⟩ := timeClip_eq_some _ _ h
    exact ⟨n, rfl, h1, h2⟩
  | posInf => simp [daysAfter] at h
  | negInf => simp [daysAfter] at h
  | nan => simp [daysAfter] at h

theorem getRecurringTransactionNotifications_of_horizon (now : ℤ) (s : Store) (uid : ObjectId)
    (upcomingDays : Option String) (n : ℤ)
    (hn : upcomingDaysThreshold upcomingDays = JsInt.int n)
    (hvalid : |now + n * msPerDay| ≤ 8640000000000000) :
    getRecurringTransactionNotifications now s uid upcomingDays
      = .ok
        { upcoming :=
            (s.transactions.filter
              (fun t => decide (t.user = uid) && t.isRecurring && decide (now ≤ t.date)
                && decide (t.date ≤ now + n * msPerDay))).insertionSort
              (fun a b => a.date ≤ b.date)
          missed :=
            (s.transactions.filter
              (fun t => decide (t.user = uid) && t.isRecurring && decide (t.date < now)
                && endsOnOrAfter t.recurrenceEndDate now)).insertionSort
              (fun a b => a.date ≤ b.date)
          message :=
            "Found "
              ++ toString ((s.transactions.filter
                  (fun t => decide (t.user = uid) && t.isRecurring && decide (now ≤ t.date)
                    && decide (t.date ≤ now + n * msPerDay))).insertionSort
                  (fun a b => a.date ≤ b.date)).length
              ++ " upcoming and "
              ++ toString ((s.transactions.filter
                  (fun t => decide (t.user = uid) && t.isRecurring && decide (t.date < now)
                    && endsOnOrAfter t.recurrenceEndDate now)).insertionSort
                  (fun a b => a.date ≤ b.date)).length
              ++ " missed recurring transactions" } := by
  have hclip := timeClip_of_valid _ hvalid
  simp only [getRecurringTransactionNotifications, hn, daysAfter, hclip]

theorem getRecurringTransactionNotifications_ok (now : ℤ) (s : Store) (uid : ObjectId)
    (upcomingDays : Option String) (body : RecurringNotifications)
    (h : getRecurringTransactionNotifications now s uid upcomingDays = .ok body) :
    ∃ n : ℤ, upcomingDaysThreshold upcomingDays = JsInt.int n
      ∧ |now + n * msPerDay| ≤ 8640000000000000
      ∧ body.upcoming
        = (s.transactions.filter
            (fun t => decide (t.user = uid) && t.isRecurring && decide (now ≤ t.date)
              && decide (t.date ≤ now + n * msPerDay))).insertionSort
            (fun a b => a.date ≤ b.date)
      ∧ body.missed
        = (s.transactions.filter
            (fun t => decide (t.user = uid) && t.isRecurring && decide (t.date < now)
              && endsOnOrAfter t.recurrenceEndDate now)).insertionSort
            (fun a b => a.date ≤ b.date) := by
  cases hd : daysAfter now (upcomingDaysThreshold upcomingDays) with
  | none =>
    simp only [getRecurringTransactionNotifications, hd] at h
    exact Reply.noConfusion h
  | some d =>
    obtain ⟨n, hn, _, hvalid⟩ := daysAfter_eq_some _ _ _ hd
    have := getRecurringTransactionNotifications_of_horizon now s uid upcomingDays n hn hvalid
    rw [this, Reply.ok.injEq] at h
    subst h
    exact ⟨n, hn, hvalid, rfl, rfl⟩

/-- C17, counterexample: at 2024-01-15 the recurring subscription dated
2024-01-10 that has no end date is not listed in `missed`; only the one with an
end date in the future is. -/
theorem recurring_without_end_not_missed :
    openEndedSubscription ∈ recurringStore.transactions
    ∧ openEndedSubscription.user = 7
    ∧ openEndedSubscription.isRecurring = true
    ∧ openEndedSubscription.date < 1705276800000
    ∧ openEndedSubscription.recurrenceEndDate = none
    ∧ getRecurringTransactionNotifications 1705276800000 recurringStore 7 none
      = .ok
        { upcoming := [utilitiesBill]
          missed := [gymSubscription]
          message := "Found 1 upcoming and 1 missed recurring transactions" } := by
  refine ⟨by decide!, by decide!, by decide!, by decide!, by decide!, by decide!⟩

/-- C17, amended: a transaction that has no recurrence end date is never
listed in `missed`, whatever its date; every transaction listed there is a
recurring one dated before today whose end date is set and not before
today. -/
theorem missed_requires_end_date (now : ℤ) (s : Store) (uid : ObjectId)
    (upcomingDays : Option String) (body : RecurringNotifications)
    (h : getRecurringTransactionNotifications now s uid upcomingDays = .ok body) :
    (∀ t ∈ s.transactions, t.recurrenceEndDate = none → t ∉ body.missed)
    ∧ ∀ t ∈ body.missed, t.isRecurring = true ∧ t.date < now
        ∧ ∃ e, t.recurrenceEndDate = some e ∧ now ≤ e := by
  obtain ⟨_, _, _, _, hmissed⟩ :=
    getRecurringTransactionNotifications_ok now s uid upcomingDays body h
  have hmem : ∀ t ∈ body.missed, t.isRecurring = true ∧ t.date < now
      ∧ ∃ e, t.recurrenceEndDate = some e ∧ now ≤ e := by
    intro t ht
    rw [hmissed, (List.perm_insertionSort _ _).mem_iff, List.mem_filter] at ht
    simp only [Bool.and_eq_true, decide_eq_true_eq] at ht
    exact ⟨ht.2.1.1.2, ht.2.1.2, (endsOnOrAfter_iff _ _).1 ht.2.2⟩
  refine ⟨?_, hmem⟩
  intro t _ hnone ht
  obtain ⟨_, _, e, he, _⟩ := hmem t ht
  rw [hnone] at he
  exact Option.noConfusion he

/-- Witness of C17 on the sample store. -/
theorem missed_requires_end_date_witness :
    openEndedSubscription ∉
      ({ upcoming := [utilitiesBill]
         missed := [gymSubscription]
         message := "Found 1 upcoming and 1 missed recurring transactions" } :
        RecurringNotifications).missed :=
  (missed_requires_end_date 1705276800000 recurringStore 7 none _ (by decide!)).1
    openEndedSubscription (by decide!) (by decide!)

/-- C18: let h be the horizon that `getRecurringTransactionNotifications`
reads: 7 when `upcomingDays` is absent, not a number or 0, and the integer that
`parseInt` reads otherwise.  When today plus h days is a valid Date, the
response lists as `upcoming` exactly the caller's recurring transactions with
today <= date <= today + h days and as `missed` exactly those with
date < today and a recurrence end date >= today, each list sorted by ascending
date, and no transaction is in both. -/
theorem recurringNotifications_spec (now : ℤ) (s : Store) (uid : ObjectId)
    (upcomingDays : Option String) (h : ℤ)
    (hh : upcomingDaysThreshold upcomingDays = JsInt.int h)
    (hvalid : |now + h * msPerDay| ≤ 8640000000000000) :
    (upcomingDays = none → h = 7)
    ∧ (∀ v, upcomingDays = some v →
        (parseInt v = JsInt.int h ∧ h ≠ 0)
        ∨ ((parseInt v = JsInt.nan ∨ parseInt v = JsInt.int 0) ∧ h = 7))
    ∧ ∃ body, getRecurringTransactionNotifications now s uid upcomingDays = .ok body
      ∧ body.upcoming
        = (s.transactions.filter
            (fun t => decide (t.user = uid) && t.isRecurring && decide (now ≤ t.date)
              && decide (t.date ≤ now + h * msPerDay))).insertionSort
            (fun a b => a.date ≤ b.date)
      ∧ body.missed
        = (s.transactions.filter
            (fun t => decide (t.user = uid) && t.isRecurring && decide (t.date < now)
              && endsOnOrAfter t.recurrenceEndDate now)).insertionSort
            (fun a b => a.date ≤ b.date)
      ∧ (∀ t, t ∈ body.upcoming ↔ t ∈ s.transactions ∧ t.user = uid ∧ t.isRecurring = true
          ∧ now ≤ t.date ∧ t.date ≤ now + h * msPerDay)
      ∧ body.upcoming.Perm (s.transactions.filter
          (fun t => decide (t.user = uid) && t.isRecurring && decide (now ≤ t.date)
            && decide (t.date ≤ now + h * msPerDay)))
      ∧ (∀ t, t ∈ body.missed ↔ t ∈ s.transactions ∧ t.user = uid ∧ t.isRecurring = true
          ∧ t.date < now ∧ ∃ e, t.recurrenceEndDate = some e ∧ now ≤ e)
      ∧ body.missed.Perm (s.transactions.filter
          (fun t => decide (t.user = uid) && t.isRecurring && decide (t.date < now)
            && endsOnOrAfter t.recurrenceEndDate now))
      ∧ body.upcoming.Sorted (fun a b => a.date ≤ b.date)
      ∧ body.missed.Sorted (fun a b => a.date ≤ b.date)
      ∧ ∀ t, t ∈ body.upcoming → t ∉ body.missed := by
  refine ⟨?_, ?_, ?_⟩
  · intro hnone
    rw [hnone] at hh
    simp only [upcomingDaysThreshold, JsInt.int.injEq] at hh
    exact hh.symm
  · intro v hv
    rw [hv] at hh
    cases hp : parseInt v with
    | nan =>
      simp only [upcomingDaysThreshold, hp, JsInt.int.injEq] at hh
      exact Or.inr ⟨Or.inl rfl, hh.symm⟩
    | int n =>
      by_cases hn : n = 0
      · simp only [upcomingDaysThreshold, hp, hn, if_true, JsInt.int.injEq] at hh
        exact Or.inr ⟨Or.inr (by rw [hn]), hh.symm⟩
      · simp only [upcomingDaysThreshold, hp, hn, if_false, JsInt.int.injEq] at hh
        exact Or.inl ⟨by rw [hh], by rw [← hh]; exact hn⟩
    | posInf =>
      simp only [upcomingDaysThreshold, hp] at hh
      exact JsInt.noConfusion hh
    | negInf =>
      simp only [upcomingDaysThreshold, hp] at hh
      exact JsInt.noConfusion hh
  · have hbody := getRecurringTransactionNotifications_of_horizon now s uid upcomingDays h hh hvalid
    refine ⟨_, hbody, rfl, rfl, ?_, ?_, ?_, ?_, ?_, ?_, ?_⟩
    · intro t
      rw [(List.perm_insertionSort _ _).mem_iff, List.mem_filter]
      simp only [Bool.and_eq_true, decide_eq_true_eq]
      tauto
    · exact List.perm_insertionSort _ _
    · intro t
      rw [(List.perm_insertionSort _ _).mem_iff, List.mem_filter]
      simp only [Bool.and_eq_true, decide_eq_true_eq, endsOnOrAfter_iff]
      tauto
    · exact List.perm_insertionSort _ _
    · exact sorted_insertionSort_date _
    · exact sorted_insertionSort_date _
    · intro t htu htm
      rw [(List.perm_insertionSort _ _).mem_iff, List.mem_filter] at htu htm
      simp only [Bool.and_eq_true, decide_eq_true_eq] at htu htm
      exact absurd htu.2.1.2 (not_le.2 htm.2.1.2)

/-- Witness of C18 at 2024-01-15: with the horizon "3" the bill of 2024-01-20
is not upcoming, with the horizon "10" it is, and in both cases the
subscription of 2024-01-05 that ends in June is missed. -/
theorem recurringNotifications_spec_witness :
    (∃ body, getRecurringTransactionNotifications 1705276800000 recurringStore 7 (some "3")
        = .ok body
      ∧ body.upcoming = [] ∧ body.missed = [gymSubscription])
    ∧ ∃ body, getRecurringTransactionNotifications 1705276800000 recurringStore 7 (some "10")
        = .ok body
      ∧ body.upcoming = [utilitiesBill] ∧ body.missed = [gymSubscription] := by
  obtain ⟨_, _, body3, hbody3, hup3, hmissed3, _⟩ :=
    recurringNotifications_spec 1705276800000 recurringStore 7 (some "3") 3 (by decide!)
      (by decide!)
  obtain ⟨_, _, body10, hbody10, hup10, hmissed10, _⟩ :=
    recurringNotifications_spec 1705276800000 recurringStore 7 (some "10") 10 (by decide!)
      (by decide!)
  exact ⟨⟨body3, hbody3, hup3.trans (by decide!), hmissed3.trans (by decide!)⟩,
    ⟨body10, hbody10, hup10.trans (by decide!), hmissed10.trans (by decide!)⟩⟩

theorem parseInt_ne_empty (v : String) (n : ℤ) (h : parseInt v = JsInt.int n) : v ≠ "" := by
  rintro rfl
  have hnan : parseInt "" = JsInt.nan := by decide
  rw [hnan] at h
  exact JsInt.noConfusion h

theorem upcomingBillReminders_of_horizon (now : ℤ) (s : Store) (uid : ObjectId)
    (daysAhead : Option String) (h : ℤ) (hh : horizonOr daysAhead 7 = JsInt.int h)
    (hvalid : |now + h * msPerDay| ≤ 8640000000000000) :
    upcomingBillReminders now s uid daysAhead
      = .ok ((s.transactions.filter
          (fun t => decide (t.user = uid) && t.isRecurring && decide (now ≤ t.date)
            && decide (t.date ≤ now + h * msPerDay))).map
          (fun bill =>
            { date := toDateString bill.date
              message := "Upcoming bill: " ++ bill.category ++ " - $"
                ++ numberToString bill.amount })) := by
  have hclip := timeClip_of_valid _ hvalid
  simp only [upcomingBillReminders, hh, daysAfter, hclip]

/-- C19: with the horizon h taken from `daysAhead` when it is supplied and 7
otherwise, and today plus h days a valid Date, `upcomingBillReminders` answers
with one reminder, in stored order, for each recurring transaction of the
caller dated from now to now + h days and for nothing else; each message is
"Upcoming bill: {category} - ${amount}". -/
theorem upcomingBillReminders_spec (now : ℤ) (s : Store)
    (uid : ObjectId) (daysAhead : Option String) (h : ℤ)
    (hh : horizonOr daysAhead 7 = JsInt.int h)
    (hvalid : |now + h * msPerDay| ≤ 8640000000000000) :
    (daysAhead = none ∨ daysAhead = some "" → h = 7)
    ∧ (∀ v, daysAhead = some v → v ≠ "" → parseInt v = JsInt.int h)
    ∧ upcomingBillReminders now s uid daysAhead
      = .ok ((s.transactions.filter
          (fun t => decide (t.user = uid) && t.isRecurring && decide (now ≤ t.date)
            && decide (t.date ≤ now + h * msPerDay))).map
          (fun bill =>
            { date := toDateString bill.date
              message := "Upcoming bill: " ++ bill.category ++ " - $"
                ++ numberToString bill.amount })) := by
  refine ⟨?_, ?_, upcomingBillReminders_of_horizon now s uid daysAhead h hh hvalid⟩
  · rintro (hnone | hempty)
    · rw [hnone] at hh
      simpa [horizonOr, truthy] using hh.symm
    · rw [hempty] at hh
      simpa [horizonOr, truthy] using hh.symm
  · intro v hv hne
    rw [hv] at hh
    simpa [horizonOr, truthy, hne] using hh

/-- Witness of C19 at 2024-01-15: the bill five days ahead is returned with
the default horizon, not with `daysAhead = 1`, and again with a `daysAhead`
made of a form feed and the digit 6. -/
theorem upcomingBillReminders_spec_witness :
    upcomingBillReminders 1705276800000 recurringStore 7 none
      = .ok [⟨"Sat Jan 20 2024", "Upcoming bill: Utilities - $150"⟩]
    ∧ upcomingBillReminders 1705276800000 recurringStore 7 (some "1") = .ok []
    ∧ upcomingBillReminders 1705276800000 recurringStore 7 (some "\x0c6")
      = .ok [⟨"Sat Jan 20 2024", "Upcoming bill: Utilities - $150"⟩] :=
  ⟨((upcomingBillReminders_spec 1705276800000 recurringStore 7 none 7
      (by decide!) (by decide!)).2.2).trans (by decide!),
    ((upcomingBillReminders_spec 1705276800000 recurringStore 7 (some "1") 1
      (by decide!) (by decide!)).2.2).trans (by decide!),
    ((upcomingBillReminders_spec 1705276800000 recurringStore 7 (some "\x0c6") 6
      (by decide!) (by decide!)).2.2).trans (by decide!)⟩

/-- C20: the percentage of a goal reminder is savedAmount / targetAmount * 100
rounded to an integer and not capped: for the goal with 150 saved of 100 it is
150 while the virtual `progress` is 100; for every goal with targetAmount > 0
and savedAmount >= 0 the Number savedAmount / targetAmount * 100 is not
negative, the reminder shows it rounded to the nearest integer, as long as it
is below `10 ^ 21`, and `progress` is the smaller of 100 and that integer; and
the handler answers with one reminder carrying that percentage for each goal of
the caller due from now to the threshold date. -/
theorem reminder_progress_uncapped :
    (JsNum.lt (JsNum.fin overGoal.targetAmount) overGoal.savedAmount = true
      ∧ (reminderProgress overGoal).toFixed0 = "150"
      ∧ overGoal.progress = JsInt.int 100)
    ∧ (∀ g : Goal, 0 < g.targetAmount → JsNum.ge g.savedAmount 0 = true →
        g.progress = JsInt.min (JsInt.int 100) (JsMath.round (reminderProgress g))
        ∧ (reminderProgress g = JsNum.posInf ∨ ∃ p : ℚ, reminderProgress g = JsNum.fin p ∧ 0 ≤ p)
        ∧ (reminderProgress g = JsNum.posInf →
            (reminderProgress g).toFixed0 = "Infinity" ∧ g.progress = JsInt.int 100)
        ∧ ∀ p : ℚ, reminderProgress g = JsNum.fin p →
            g.progress = JsInt.int (min 100 ⌊p + 1 / 2⌋)
            ∧ (p < pow10 21 → (reminderProgress g).toFixed0 = Nat.repr ⌊p + 1 / 2⌋.toNat)
            ∧ (pow10 21 ≤ p → g.progress = JsInt.int 100))
    ∧ ∀ (now : ℤ) (s : Store) (uid : ObjectId) (threshold : Option String) (h : ℤ),
        horizonOr threshold 30 = JsInt.int h → |now + h * msPerDay| ≤ 8640000000000000 →
        upcomingGoalReminders now s uid threshold
          = .ok ((s.goals.filter
              (fun g => decide (g.user = uid) && decide (now ≤ g.deadline)
                && decide (g.deadline ≤ now + h * msPerDay))).map
              (fun g =>
                { date := toDateString g.deadline
                  message := "Goal \"" ++ g.title ++ "\": $" ++ g.savedAmount.toString
                    ++ " of $" ++ numberToString g.targetAmount
                    ++ " (" ++ (reminderProgress g).toFixed0 ++ "%)" })) := by
  refine ⟨⟨by decide!, by decide!, by decide!⟩, ?_, ?_⟩
  · intro g ht hs
    have h0 := reminderProgress_ge_zero g ht hs
    have hdef : g.progress = JsInt.min (JsInt.int 100) (JsMath.round (reminderProgress g)) := rfl
    refine ⟨hdef, ?_, ?_, ?_⟩
    · cases hv : reminderProgress g with
      | fin p =>
        rw [hv] at h0
        exact Or.inr ⟨p, rfl, by simpa [JsNum.ge] using h0⟩
      | posInf => exact Or.inl rfl
      | negInf => rw [hv] at h0; simp [JsNum.ge] at h0
      | nan => rw [hv] at h0; simp [JsNum.ge] at h0
    · intro hinf
      rw [hdef, hinf]
      exact ⟨rfl, rfl⟩
    · intro p hp
      rw [hp] at h0
      have hp0 : 0 ≤ p := by simpa [JsNum.ge] using h0
      have hfloor : (0 : ℤ) ≤ ⌊p + 1 / 2⌋ := Int.floor_nonneg.2 (by linarith)
      refine ⟨?_, ?_, ?_⟩
      · rw [hdef, hp]
        rfl
      · intro hlt
        rw [hp]
        simp only [JsNum.toFixed0, abs_of_nonneg hp0, if_neg (not_le.2 hlt),
          if_neg (not_lt.2 hp0), String.empty_append]
      · intro hbig
        rw [hdef, hp]
        have h21 : (100 : ℚ) ≤ pow10 21 := by decide!
        have h100 : (100 : ℤ) ≤ ⌊p + 1 / 2⌋ := by
          apply Int.le_floor.2
          push_cast
          linarith
        simp only [JsMath.round, JsInt.min, min_eq_left h100]
  · intro now s uid threshold h hh hvalid
    have hclip := timeClip_of_valid _ hvalid
    simp only [upcomingGoalReminders, hh, daysAfter, hclip]

/-- Witness of C20 at 2024-01-15: the reminders of three goals show 50%, 150%
and, for 201 saved of 200, 100%, while the virtual `progress` of the three is
50, 100 and 100. -/
theorem reminder_progress_uncapped_witness :
    upcomingGoalReminders 1705276800000 goalReminderStore 7 (some "12")
      = .ok
        [⟨"Thu Jan 18 2024", "Goal \"B\": $1500 of $3000 (50%)"⟩,
          ⟨"Thu Jan 25 2024", "Goal \"O\": $150 of $100 (150%)"⟩,
          ⟨"Thu Jan 25 2024", "Goal \"J\": $201 of $200 (100%)"⟩]
    ∧ goalReminderStore.goals.map Goal.progress = [JsInt.int 50, JsInt.int 100, JsInt.int 100]
    ∧ justOverGoal.progress
        = JsInt.min (JsInt.int 100) (JsMath.round (reminderProgress justOverGoal)) :=
  ⟨(reminder_progress_uncapped.2.2 1705276800000 goalReminderStore 7 (some "12") 12
      (by decide!) (by decide!)).trans (by decide!),
    by decide!,
    (reminder_progress_uncapped.2.1 justOverGoal (by decide!) (by decide!)).1⟩

/-! ## The horizon 0 of the two reminders -/

/-- C30: a supplied horizon of 0 is read differently by the two handlers.
`getRecurringTransactionNotifications` takes 7 when `upcomingDays` is absent,
is not a number or is 0, and then answers as it does without the parameter;
`upcomingBillReminders` takes 0 when `daysAhead` is 0, so that only the bills
dated at this very instant are returned, and takes 7 when `daysAhead` is
absent; every other integer is the horizon of both. -/
theorem zero_horizon (now : ℤ) (s : Store) (uid : ObjectId) :
    upcomingDaysThreshold none = JsInt.int 7
    ∧ horizonOr none 7 = JsInt.int 7
    ∧ (∀ v, parseInt v = JsInt.nan → upcomingDaysThreshold (some v) = JsInt.int 7)
    ∧ (∀ v, parseInt v = JsInt.int 0 →
        upcomingDaysThreshold (some v) = JsInt.int 7 ∧ horizonOr (some v) 7 = JsInt.int 0)
    ∧ (∀ v n, parseInt v = JsInt.int n → n ≠ 0 →
        upcomingDaysThreshold (some v) = JsInt.int n ∧ horizonOr (some v) 7 = JsInt.int n)
    ∧ (∀ v, parseInt v = JsInt.int 0 ∨ parseInt v = JsInt.nan →
        getRecurringTransactionNotifications now s uid (some v)
          = getRecurringTransactionNotifications now s uid none)
    ∧ (∀ v, parseInt v = JsInt.int 0 → |now| ≤ 8640000000000000 →
        upcomingBillReminders now s uid (some v)
          = .ok ((s.transactions.filter
              (fun t => decide (t.user = uid) && t.isRecurring && decide (now ≤ t.date)
                && decide (t.date ≤ now))).map
              (fun bill =>
                { date := toDateString bill.date
                  message := "Upcoming bill: " ++ bill.category ++ " - $"
                    ++ numberToString bill.amount })))
    ∧ (∀ v, v ≠ "" → parseInt v = JsInt.nan →
        upcomingBillReminders now s uid (some v) = .error 500) := by
  refine ⟨rfl, by simp [horizonOr, truthy], ?_, ?_, ?_, ?_, ?_, ?_⟩
  · intro v hv
    simp [upcomingDaysThreshold, hv]
  · intro v hv
    have hne := parseInt_ne_empty v 0 hv
    exact ⟨by simp [upcomingDaysThreshold, hv], by simp [horizonOr, truthy, hne, hv]⟩
  · intro v n hv hn
    have hne := parseInt_ne_empty v n hv
    exact ⟨by simp [upcomingDaysThreshold, hv, hn], by simp [horizonOr, truthy, hne, hv]⟩
  · intro v hv
    have h7 : upcomingDaysThreshold (some v) = upcomingDaysThreshold none := by
      rcases hv with hv | hv <;> simp [upcomingDaysThreshold, hv]
    simp only [getRecurringTransactionNotifications, h7]
  · intro v hv hvalid
    have hne := parseInt_ne_empty v 0 hv
    have hh : horizonOr (some v) 7 = JsInt.int 0 := by simp [horizonOr, truthy, hne, hv]
    have := upcomingBillReminders_of_horizon now s uid (some v) 0 hh (by simpa using hvalid)
    simpa using this
  · intro v hne hv
    have hh : horizonOr (some v) 7 = JsInt.nan := by simp [horizonOr, truthy, hne, hv]
    simp only [upcomingBillReminders, hh, daysAfter]

/-- Witness of C30 at 2024-01-15 with the value "0": the recurring
notifications still list the bill of 2024-01-20 as upcoming, and the bill
reminders list nothing; a value made of a form feed and the digit 6 is the
horizon 6 of both. -/
theorem zero_horizon_witness :
    parseInt "0" = JsInt.int 0
    ∧ getRecurringTransactionNotifications 1705276800000 recurringStore 7 (some "0")
      = .ok
        { upcoming := [utilitiesBill]
          missed := [gymSubscription]
          message := "Found 1 upcoming and 1 missed recurring transactions" }
    ∧ upcomingBillReminders 1705276800000 recurringStore 7 (some "0") = .ok []
    ∧ parseInt "\x0c6" = JsInt.int 6
    ∧ upcomingDaysThreshold (some "\x0c6") = JsInt.int 6
    ∧ horizonOr (some "\x0c6") 7 = JsInt.int 6 :=
  ⟨by decide!,
    ((zero_horizon 1705276800000 recurringStore 7).2.2.2.2.2.1 "0"
      (Or.inl (by decide!))).trans (by decide!),
    ((zero_horizon 1705276800000 recurringStore 7).2.2.2.2.2.2.1 "0"
      (by decide!) (by decide!)).trans (by decide!),
    by decide!,
    ((zero_horizon 1705276800000 recurringStore 7).2.2.2.2.1 "\x0c6" 6 (by decide!)
      (by decide)).1,
    ((zero_horizon 1705276800000 recurringStore 7).2.2.2.2.1 "\x0c6" 6 (by decide!)
      (by decide)).2⟩

/-! ## Ownership checks of update and delete -/

theorem findById_none {α : Type} (getId : α → ObjectId) (l : List α) (id : ObjectId)
    (h : ∀ x ∈ l, getId x ≠ id) : findById getId l id = none := by
  unfold findById
  rw [List.find?_eq_none]
  intro x hx
  simpa using h x hx

theorem findById_append {α : Type} (getId : α → ObjectId) (pre post : List α) (t : α)
    (id : ObjectId) (hpre : ∀ x ∈ pre, getId x ≠ id) (ht : getId t = id) :
    findById getId (pre ++ t :: post) id = some t := by
  induction pre with
  | nil => simp [findById, ht]
  | cons x pre ih =>
    have hx : getId x ≠ id := hpre x (List.mem_cons_self _ _)
    have := ih (fun y hy => hpre y (List.mem_cons_of_mem _ hy))
    simpa [findById, hx] using this

theorem replaceById_append {α : Type} (getId : α → ObjectId) (pre post : List α) (t u : α)
    (id : ObjectId) (hpre : ∀ x ∈ pre, getId x ≠ id) (ht : getId t = id) :
    replaceById getId id u (pre ++ t :: post) = pre ++ u :: post := by
  induction pre with
  | nil => simp [replaceById, ht]
  | cons x pre ih =>
    have hx : getId x ≠ id := hpre x (List.mem_cons_self _ _)
    simp [replaceById, hx, ih (fun y hy => hpre y (List.mem_cons_of_mem _ hy))]

theorem deleteById_append {α : Type} (getId : α → ObjectId) (pre post : List α) (t : α)
    (id : ObjectId) (hpre : ∀ x ∈ pre, getId x ≠ id) (ht : getId t = id) :
    deleteById getId id (pre ++ t :: post) = pre ++ post := by
  induction pre with
  | nil => simp [deleteById, ht]
  | cons x pre ih =>
    have hx : getId x ≠ id := hpre x (List.mem_cons_self _ _)
    simp [deleteById, hx, ih (fun y hy => hpre y (List.mem_cons_of_mem _ hy))]

theorem updateTransaction_cases (castObjectId : String → Option ObjectId) (s : Store)
    (caller : ObjectId) (id : String) (body : TransactionPatch) :
    (castObjectId id = none → updateTransaction castObjectId s caller id body = (.thrown 500, s))
    ∧ ∀ oid, castObjectId id = some oid →
      ((∀ x ∈ s.transactions, x._id ≠ oid) →
        updateTransaction castObjectId s caller id body = (.message 404 "Transaction not found", s))
      ∧ ∀ pre t post, s.transactions = pre ++ t :: post → (∀ x ∈ pre, x._id ≠ oid) → t._id = oid →
        (t.user ≠ caller →
          updateTransaction castObjectId s caller id body = (.message 401 "Not authorized", s))
        ∧ (t.user = caller → updateTransaction castObjectId s caller id body
            = (.json 200 (body.apply t), { s with transactions := pre ++ body.apply t :: post })) := by
  constructor
  · intro hcast
    simp [updateTransaction, hcast]
  · intro oid hcast
    constructor
    · intro h
      simp [updateTransaction, hcast, findById_none _ _ _ h]
    · intro pre t post hs hpre ht
      have hfind := findById_append Transaction._id pre post t oid hpre ht
      have hrep := replaceById_append Transaction._id pre post t (body.apply t) oid hpre ht
      constructor
      · intro hu
        simp [updateTransaction, hcast, hs, hfind, hu]
      · intro hu
        simp [updateTransaction, hcast, hs, hfind, hu, hrep]

theorem deleteTransaction_cases (castObjectId : String → Option ObjectId) (s : Store)
    (caller : ObjectId) (id : String) :
    (castObjectId id = none → deleteTransaction castObjectId s caller id = (.thrown 500, s))
    ∧ ∀ oid, castObjectId id = some oid →
      ((∀ x ∈ s.transactions, x._id ≠ oid) →
        deleteTransaction castObjectId s caller id = (.message 404 "Transaction not found", s))
      ∧ ∀ pre t post, s.transactions = pre ++ t :: post → (∀ x ∈ pre, x._id ≠ oid) → t._id = oid →
        (t.user ≠ caller →
          deleteTransaction castObjectId s caller id = (.message 401 "Not authorized", s))
        ∧ (t.user = caller → deleteTransaction castObjectId s caller id
            = (.message 200 "Transaction removed", { s with transactions := pre ++ post })) := by
  constructor
  · intro hcast
    simp [deleteTransaction, hcast]
  · intro oid hcast
    constructor
    · intro h
      simp [deleteTransaction, hcast, findById_none _ _ _ h]
    · intro pre t post hs hpre ht
      have hfind := findById_append Transaction._id pre post t oid hpre ht
      have hdel := deleteById_append Transaction._id pre post t oid hpre ht
      constructor
      · intro hu
        simp [deleteTransaction, hcast, hs, hfind, hu]
      · intro hu
        simp [deleteTransaction, hcast, hs, hfind, hu, hdel]

theorem updateBudget_cases (castObjectId : String → Option ObjectId) (s : Store)
    (caller : ObjectId) (id : String) (body : BudgetPatch) :
    (castObjectId id = none → updateBudget castObjectId s caller id body = (.thrown 500, s))
    ∧ ∀ oid, castObjectId id = some oid →
      ((∀ x ∈ s.budgets, x._id ≠ oid) →
        updateBudget castObjectId s caller id body = (.message 404 "Budget not found", s))
      ∧ ∀ pre t post, s.budgets = pre ++ t :: post → (∀ x ∈ pre, x._id ≠ oid) → t._id = oid →
        (t.user ≠ caller →
          updateBudget castObjectId s caller id body = (.message 401 "Not authorized", s))
        ∧ (t.user = caller → updateBudget castObjectId s caller id body
            = (.json 200 (body.apply t), { s with budgets := pre ++ body.apply t :: post })) := by
  constructor
  · intro hcast
    simp [updateBudget, hcast]
  · intro oid hcast
    constructor
    · intro h
      simp [updateBudget, hcast, findById_none _ _ _ h]
    · intro pre t post hs hpre ht
      have hfind := findById_append Budget._id pre post t oid hpre ht
      have hrep := replaceById_append Budget._id pre post t (body.apply t) oid hpre ht
      constructor
      · intro hu
        simp [updateBudget, hcast, hs, hfind, hu]
      · intro hu
        simp [updateBudget, hcast, hs, hfind, hu, hrep]

theorem deleteBudget_cases (castObjectId : String → Option ObjectId) (s : Store)
    (caller : ObjectId) (id : String) :
    (castObjectId id = none → deleteBudget castObjectId s caller id = (.thrown 500, s))
    ∧ ∀ oid, castObjectId id = some oid →
      ((∀ x ∈ s.budgets, x._id ≠ oid) →
        deleteBudget castObjectId s caller id = (.message 404 "Budget not found", s))
      ∧ ∀ pre t post, s.budgets = pre ++ t :: post → (∀ x ∈ pre, x._id ≠ oid) → t._id = oid →
        (t.user ≠ caller →
          deleteBudget castObjectId s caller id = (.message 401 "Not authorized", s))
        ∧ (t.user = caller → deleteBudget castObjectId s caller id
            = (.message 200 "Budget removed", { s with budgets := pre ++ post })) := by
  constructor
  · intro hcast
    simp [deleteBudget, hcast]
  · intro oid hcast
    constructor
    · intro h
      simp [deleteBudget, hcast, findById_none _ _ _ h]
    · intro pre t post hs hpre ht
      have hfind := findById_append Budget._id pre post t oid hpre ht
      have hdel := deleteById_append Budget._id pre post t oid hpre ht
      constructor
      · intro hu
        simp [deleteBudget, hcast, hs, hfind, hu]
      · intro hu
        simp [deleteBudget, hcast, hs, hfind, hu, hdel]

theorem updateGoal_cases (castObjectId : String → Option ObjectId) (s : Store)
    (caller : ObjectId) (id : String) (body : GoalPatch) :
    (castObjectId id = none → updateGoal castObjectId s caller id body = (.thrown 500, s))
    ∧ ∀ oid, castObjectId id = some oid →
      ((∀ x ∈ s.goals, x._id ≠ oid) →
        updateGoal castObjectId s caller id body = (.message 404 "Goal not found", s))
      ∧ ∀ pre t post, s.goals = pre ++ t :: post → (∀ x ∈ pre, x._id ≠ oid) → t._id = oid →
        (t.user ≠ caller →
          updateGoal castObjectId s caller id body = (.message 401 "Not authorized", s))
        ∧ (t.user = caller → updateGoal castObjectId s caller id body
            = (.json 200 (body.apply t), { s with goals := pre ++ body.apply t :: post })) := by
  constructor
  · intro hcast
    simp [updateGoal, hcast]
  · intro oid hcast
    constructor
    · intro h
      simp [updateGoal, hcast, findById_none _ _ _ h]
    · intro pre t post hs hpre ht
      have hfind := findById_append Goal._id pre post t oid hpre ht
      have hrep := replaceById_append Goal._id pre post t (body.apply t) oid hpre ht
      constructor
      · intro hu
        simp [updateGoal, hcast, hs, hfind, hu]
      · intro hu
        simp [updateGoal, hcast, hs, hfind, hu, hrep]

theorem deleteGoal_cases (castObjectId : String → Option ObjectId) (s : Store)
    (caller : ObjectId) (id : String) :
    (castObjectId id = none → deleteGoal castObjectId s caller id = (.thrown 500, s))
    ∧ ∀ oid, castObjectId id = some oid →
      ((∀ x ∈ s.goals, x._id ≠ oid) →
        deleteGoal castObjectId s caller id = (.message 404 "Goal not found", s))
      ∧ ∀ pre t post, s.goals = pre ++ t :: post → (∀ x ∈ pre, x._id ≠ oid) → t._id = oid →
        (t.user ≠ caller →
          deleteGoal castObjectId s caller id = (.message 401 "Not authorized", s))
        ∧ (t.user = caller → deleteGoal castObjectId s caller id
            = (.message 200 "Goal removed", { s with goals := pre ++ post })) := by
  constructor
  · intro hcast
    simp [deleteGoal, hcast]
  · intro oid hcast
    constructor
    · intro h
      simp [deleteGoal, hcast, findById_none _ _ _ h]
    · intro pre t post hs hpre ht
      have hfind := findById_append Goal._id pre post t oid hpre ht
      have hdel := deleteById_append Goal._id pre post t oid hpre ht
      constructor
      · intro hu
        simp [deleteGoal, hcast, hs, hfind, hu]
      · intro hu
        simp [deleteGoal, hcast, hs, hfind, hu, hdel]

/-- C21, counterexample: no transaction of the store has an id that the text
"99" denotes, since the text is no ObjectId; the cast of the route parameter
fails, and update and delete answer 500, not 404. -/
theorem malformed_id_gives_500 :
    sampleCastObjectId "99" = none
    ∧ deleteTransaction sampleCastObjectId trendStore 7 "99" = (.thrown 500, trendStore)
    ∧ updateTransaction sampleCastObjectId trendStore 7 "99"
        ⟨none, none, some 75, none, none, none, none, none, none, none⟩
      = (.thrown 500, trendStore)
    ∧ sampleCastObjectId "000000000000000000000063" = some 99
    ∧ deleteTransaction sampleCastObjectId trendStore 7 "000000000000000000000063"
      = (.message 404 "Transaction not found", trendStore) := by
  refine ⟨by decide!, by decide!, by decide!, by decide!, by decide!⟩

/-- C21, amended: for update and delete of a Transaction, a Budget or a Goal:
when the id of the request is no ObjectId the response is 500 and the store is
unchanged; when it is one and no document has it the response is 404 and the
store is unchanged; when the document with the id belongs to another user the
response is 401 "Not authorized" and the store is unchanged; when it belongs to
the caller exactly that document is replaced by its updated version, or
removed, and every other document and collection stays as it was. -/
theorem owner_guarded_writes (castObjectId : String → Option ObjectId) (s : Store)
    (caller : ObjectId) (id : String) :
    (∀ body : TransactionPatch,
      ((castObjectId id = none → updateTransaction castObjectId s caller id body = (.thrown 500, s))
      ∧ ∀ oid, castObjectId id = some oid →
        ((∀ x ∈ s.transactions, x._id ≠ oid) →
          updateTransaction castObjectId s caller id body = (.message 404 "Transaction not found", s))
        ∧ ∀ pre t post, s.transactions = pre ++ t :: post → (∀ x ∈ pre, x._id ≠ oid) → t._id = oid →
          (t.user ≠ caller →
            updateTransaction castObjectId s caller id body = (.message 401 "Not authorized", s))
          ∧ (t.user = caller → updateTransaction castObjectId s caller id body
              = (.json 200 (body.apply t), { s with transactions := pre ++ body.apply t :: post }))))
    ∧
    (((castObjectId id = none → deleteTransaction castObjectId s caller id = (.thrown 500, s))
      ∧ ∀ oid, castObjectId id = some oid →
        ((∀ x ∈ s.transactions, x._id ≠ oid) →
          deleteTransaction castObjectId s caller id = (.message 404 "Transaction not found", s))
        ∧ ∀ pre t post, s.transactions = pre ++ t :: post → (∀ x ∈ pre, x._id ≠ oid) → t._id = oid →
          (t.user ≠ caller →
            deleteTransaction castObjectId s caller id = (.message 401 "Not authorized", s))
          ∧ (t.user = caller → deleteTransaction castObjectId s caller id
              = (.message 200 "Transaction removed", { s with transactions := pre ++ post }))))
    ∧
    (∀ body : BudgetPatch,
      ((castObjectId id = none → updateBudget castObjectId s caller id body = (.thrown 500, s))
      ∧ ∀ oid, castObjectId id = some oid →
        ((∀ x ∈ s.budgets, x._id ≠ oid) →
          updateBudget castObjectId s caller id body = (.message 404 "Budget not found", s))
        ∧ ∀ pre t post, s.budgets = pre ++ t :: post → (∀ x ∈ pre, x._id ≠ oid) → t._id = oid →
          (t.user ≠ caller →
            updateBudget castObjectId s caller id body = (.message 401 "Not authorized", s))
          ∧ (t.user = caller → updateBudget castObjectId s caller id body
              = (.json 200 (body.apply t), { s with budgets := pre ++ body.apply t :: post }))))
    ∧
    (((castObjectId id = none → deleteBudget castObjectId s caller id = (.thrown 500, s))
      ∧ ∀ oid, castObjectId id = some oid →
        ((∀ x ∈ s.budgets, x._id ≠ oid) →
          deleteBudget castObjectId s caller id = (.message 404 "Budget not found", s))
        ∧ ∀ pre t post, s.budgets = pre ++ t :: post → (∀ x ∈ pre, x._id ≠ oid) → t._id = oid →
          (t.user ≠ caller →
            deleteBudget castObjectId s caller id = (.message 401 "Not authorized", s))
          ∧ (t.user = caller → deleteBudget castObjectId s caller id
              = (.message 200 "Budget removed", { s with budgets := pre ++ post }))))
    ∧
    (∀ body : GoalPatch,
      ((castObjectId id = none → updateGoal castObjectId s caller id body = (.thrown 500, s))
      ∧ ∀ oid, castObjectId id = some oid →
        ((∀ x ∈ s.goals, x._id ≠ oid) →
          updateGoal castObjectId s caller id body = (.message 404 "Goal not found", s))
        ∧ ∀ pre t post, s.goals = pre ++ t :: post → (∀ x ∈ pre, x._id ≠ oid) → t._id = oid →
          (t.user ≠ caller →
            updateGoal castObjectId s caller id body = (.message 401 "Not authorized", s))
          ∧ (t.user = caller → updateGoal castObjectId s caller id body
              = (.json 200 (body.apply t), { s with goals := pre ++ body.apply t :: post }))))
    ∧
    (((castObjectId id = none → deleteGoal castObjectId s caller id = (.thrown 500, s))
      ∧ ∀ oid, castObjectId id = some oid →
        ((∀ x ∈ s.goals, x._id ≠ oid) →
          deleteGoal castObjectId s caller id = (.message 404 "Goal not found", s))
        ∧ ∀ pre t post, s.goals = pre ++ t :: post → (∀ x ∈ pre, x._id ≠ oid) → t._id = oid →
          (t.user ≠ caller →
            deleteGoal castObjectId s caller id = (.message 401 "Not authorized", s))
          ∧ (t.user = caller → deleteGoal castObjectId s caller id
              = (.message 200 "Goal removed", { s with goals := pre ++ post })))) :=
  ⟨fun body => updateTransaction_cases castObjectId s caller id body,
    deleteTransaction_cases castObjectId s caller id,
    fun body => updateBudget_cases castObjectId s caller id body,
    deleteBudget_cases castObjectId s caller id,
    fun body => updateGoal_cases castObjectId s caller id body,
    deleteGoal_cases castObjectId s caller id⟩

/-- Witness of C21 on the trends data: user 7 cannot delete the transaction of
user 8, gets 404 for an ObjectId that no transaction has and 500 for the text
"99", and an update of the own transaction 3 changes that transaction only. -/
theorem owner_guarded_writes_witness :
    deleteTransaction sampleCastObjectId trendStore 7 "000000000000000000000006"
      = (.message 401 "Not authorized", trendStore)
    ∧ deleteTransaction sampleCastObjectId trendStore 7 "000000000000000000000063"
      = (.message 404 "Transaction not found", trendStore)
    ∧ deleteTransaction sampleCastObjectId trendStore 7 "99" = (.thrown 500, trendStore)
    ∧ (updateTransaction sampleCastObjectId trendStore 7 "000000000000000000000003"
        ⟨none, none, some 75, none, none, none, none, none, none, none⟩).2.transactions.map
        (fun t => (t._id, t.amount))
      = [(1, 350), (2, 2000), (3, 75), (4, 2000), (5, 100), (6, 1500)] :=
  ⟨(((owner_guarded_writes sampleCastObjectId trendStore 7 "000000000000000000000006").2.1.2 6
      (by decide!)).2 (trendStore.transactions.take 5)
      (trendStore.transactions.getD 5 (sampleTx 0 TxType.income 0 "" 0)) []
      (by decide!) (by decide!) (by decide!)).1 (by decide!),
    ((owner_guarded_writes sampleCastObjectId trendStore 7 "000000000000000000000063").2.1.2 99
      (by decide!)).1 (by decide!),
    (owner_guarded_writes sampleCastObjectId trendStore 7 "99").2.1.1 (by decide!),
    by
      have h := ((((owner_guarded_writes sampleCastObjectId trendStore 7
        "000000000000000000000003").1
        ⟨none, none, some 75, none, none, none, none, none, none, none⟩).2 3 (by decide!)).2
        (trendStore.transactions.take 2)
        (trendStore.transactions.getD 2 (sampleTx 0 TxType.income 0 "" 0))
        (trendStore.transactions.drop 3) (by decide!) (by decide!) (by decide!)).2 (by decide!)
      rw [h]
      decide!⟩

/-! ## Properties of `addTransaction` -/

theorem truthy_eq_false_iff (value : Option String) :
    truthy value = false ↔ value = none ∨ value = some "" := by
  cases value with
  | none => simp [truthy]
  | some v => simp [truthy]

theorem validateType_eq_none_iff (type : String) :
    validateType type = none ↔ type ≠ "income" ∧ type ≠ "expense" := by
  unfold validateType
  by_cases h1 : type = "income"
  · simp [h1]
  · by_cases h2 : type = "expense"
    · simp [h1, h2]
    · simp [h1, h2]

theorem validatePattern_eq_none_iff (pattern : Option String) :
    validatePattern pattern = none
      ↔ ∃ p, pattern = some p ∧ p ≠ "daily" ∧ p ≠ "weekly" ∧ p ≠ "monthly" := by
  cases pattern with
  | none => simp [validatePattern]
  | some p =>
    simp only [validatePattern]
    by_cases h1 : p = "daily"
    · simp [h1]
    · by_cases h2 : p = "weekly"
      · simp [h1, h2]
      · by_cases h3 : p = "monthly"
        · simp [h1, h2, h3]
        · simp [h1, h2, h3]

theorem addTransaction_bad_request_iff (newId : ObjectId) (now : ℤ) (s : Store)
    (caller : ObjectId) (body : TransactionBody) :
    addTransaction newId now s caller body
        = (.message 400 "Please provide all required fields", s)
      ↔ (body.type = none ∨ body.type = some "") ∨ (body.amount = none ∨ body.amount = some 0)
          ∨ (body.category = none ∨ body.category = some "") := by
  unfold addTransaction
  by_cases hc : (!truthy body.type || (body.amount = none || body.amount = some 0)
      || !truthy body.category) = true
  · rw [if_pos hc]
    simp only [true_iff]
    simp only [Bool.or_eq_true, Bool.not_eq_true', truthy_eq_false_iff, Bool.decide_or,
      decide_eq_true_eq] at hc
    tauto
  · rw [if_neg hc]
    have hc' := hc
    simp only [Bool.or_eq_true, Bool.not_eq_true', truthy_eq_false_iff, Bool.decide_or,
      decide_eq_true_eq] at hc'
    constructor
    · intro h
      exfalso
      cases hty : validateType (body.type.getD "") with
      | none => simp [hty] at h
      | some ty =>
        cases hpat : validatePattern body.recurrencePattern with
        | none => simp [hty, hpat] at h
        | some pat => simp [hty, hpat] at h
    · intro h
      exact absurd (by tauto) hc'

theorem addTransaction_valid (newId : ObjectId) (now : ℤ) (s : Store) (caller : ObjectId)
    (body : TransactionBody) (ty category : String) (amount : ℚ)
    (hty : body.type = some ty) (hty0 : ty ≠ "") (ham : body.amount = some amount)
    (ham0 : amount ≠ 0) (hcat : body.category = some category) (hcat0 : category ≠ "")
    (type : TxType) (pattern : Option Recurrence)
    (hvt : validateType ty = some type)
    (hvp : validatePattern body.recurrencePattern = some pattern) :
    addTransaction newId now s caller body
      = (.json 201
          { _id := newId, user := caller, type := type, amount := amount, category := category,
            description := body.description, date := now, tags := body.tags.getD [],
            isRecurring := body.isRecurring.getD false, recurrencePattern := pattern,
            recurrenceEndDate := body.recurrenceEndDate },
        { s with
          transactions := s.transactions ++
            [{ _id := newId, user := caller, type := type, amount := amount,
               category := category, description := body.description, date := now,
               tags := body.tags.getD [], isRecurring := body.isRecurring.getD false,
               recurrencePattern := pattern, recurrenceEndDate := body.recurrenceEndDate }] }) := by
  simp [addTransaction, hty, hty0, ham, ham0, hcat, hcat0, truthy, hvt, hvp]

theorem addTransaction_invalid (newId : ObjectId) (now : ℤ) (s : Store) (caller : ObjectId)
    (body : TransactionBody) (ty category : String) (amount : ℚ)
    (hty : body.type = some ty) (hty0 : ty ≠ "") (ham : body.amount = some amount)
    (ham0 : amount ≠ 0) (hcat : body.category = some category) (hcat0 : category ≠ "")
    (hbad : validateType ty = none ∨ validatePattern body.recurrencePattern = none) :
    addTransaction newId now s caller body = (.thrown 500, s) := by
  rcases hbad with h | h
  · simp [addTransaction, hty, hty0, ham, ham0, hcat, hcat0, truthy, h]
  · cases hvt : validateType ty with
    | none => simp [addTransaction, hty, hty0, ham, ham0, hcat, hcat0, truthy, hvt]
    | some type => simp [addTransaction, hty, hty0, ham, ham0, hcat, hcat0, truthy, hvt, h]

theorem typeName_of_validateType (ty : String) (type : TxType)
    (h : validateType ty = some type) : typeName type = ty := by
  unfold validateType at h
  split_ifs at h with h1 h2
  · cases h
    exact h1.symm
  · cases h
    exact h2.symm

theorem recurrenceName_of_validatePattern (p : String) (pattern : Option Recurrence)
    (h : validatePattern (some p) = some pattern) :
    ∃ r, pattern = some r ∧ recurrenceName r = p := by
  simp only [validatePattern] at h
  split_ifs at h with h1 h2 h3
  · cases h
    exact ⟨Recurrence.daily, rfl, h1.symm⟩
  · cases h
    exact ⟨Recurrence.weekly, rfl, h2.symm⟩
  · cases h
    exact ⟨Recurrence.monthly, rfl, h3.symm⟩

theorem exists_of_valid_request (body : TransactionBody) (ty : String)
    (hvt : ty = "income" ∨ ty = "expense")
    (hvp : body.recurrencePattern = none ∨ body.recurrencePattern = some "daily"
      ∨ body.recurrencePattern = some "weekly" ∨ body.recurrencePattern = some "monthly") :
    ∃ type pattern, validateType ty = some type
      ∧ validatePattern body.recurrencePattern = some pattern := by
  have h1 : validateType ty ≠ none := by
    rw [Ne, validateType_eq_none_iff]
    rcases hvt with h | h <;> simp [h]
  have h2 : validatePattern body.recurrencePattern ≠ none := by
    rw [Ne, validatePattern_eq_none_iff]
    rintro ⟨p, hp, hd, hw, hm⟩
    rcases hvp with h | h | h | h <;> rw [hp] at h <;> simp_all
  obtain ⟨type, htype⟩ := Option.ne_none_iff_exists'.1 h1
  obtain ⟨pattern, hpattern⟩ := Option.ne_none_iff_exists'.1 h2
  exact ⟨type, pattern, htype, hpattern⟩

/-- Counterexample to C22 as stated: a request that provides type, amount and
category is answered 400 when the amount is 0, and 500 when the type is not one
of the schema's two; neither stores anything. -/
theorem addTransaction_provided_but_rejected :
    addTransaction 9 1705276800000 manualStore 7
        { movieRequest with amount := some 0 }
      = (.message 400 "Please provide all required fields", manualStore)
    ∧ addTransaction 9 1705276800000 manualStore 7
        { movieRequest with type := some "transfer" }
      = (.thrown 500, manualStore) := by
  refine ⟨by decide!, by decide!⟩

/-- C22 (amended): `addTransaction` answers 400 "Please provide all required
fields" and stores nothing if and only if type, amount or category is absent or
falsy (an empty string, an amount of 0); when all three are present and truthy
and the document passes the schema's enum validators it appends exactly one
transaction owned by the caller and answers 201 with it; when a validator
fails it answers 500 and stores nothing. -/
theorem addTransaction_outcomes (newId : ObjectId) (now : ℤ) (s : Store) (caller : ObjectId)
    (body : TransactionBody) :
    (addTransaction newId now s caller body
        = (.message 400 "Please provide all required fields", s)
      ↔ (body.type = none ∨ body.type = some "") ∨ (body.amount = none ∨ body.amount = some 0)
          ∨ (body.category = none ∨ body.category = some ""))
    ∧ ∀ (ty category : String) (amount : ℚ),
        body.type = some ty → ty ≠ "" → body.amount = some amount → amount ≠ 0 →
        body.category = some category → category ≠ "" →
        ((ty = "income" ∨ ty = "expense") →
          (body.recurrencePattern = none ∨ body.recurrencePattern = some "daily"
            ∨ body.recurrencePattern = some "weekly"
            ∨ body.recurrencePattern = some "monthly") →
          ∃ doc : Transaction, doc._id = newId ∧ doc.user = caller
            ∧ addTransaction newId now s caller body
              = (.json 201 doc, { s with transactions := s.transactions ++ [doc] }))
        ∧ ((ty ≠ "income" ∧ ty ≠ "expense")
            ∨ (∃ p, body.recurrencePattern = some p ∧ p ≠ "daily" ∧ p ≠ "weekly"
                ∧ p ≠ "monthly") →
          addTransaction newId now s caller body = (.thrown 500, s)) := by
  refine ⟨addTransaction_bad_request_iff newId now s caller body, ?_⟩
  intro ty category amount hty hty0 ham ham0 hcat hcat0
  constructor
  · intro hvt hvp
    obtain ⟨type, pattern, h1, h2⟩ := exists_of_valid_request body ty hvt hvp
    exact ⟨_, rfl, rfl,
      addTransaction_valid newId now s caller body ty category amount hty hty0 ham ham0 hcat
        hcat0 type pattern h1 h2⟩
  · intro hbad
    apply addTransaction_invalid newId now s caller body ty category amount hty hty0 ham ham0
      hcat hcat0
    rcases hbad with h | h
    · exact Or.inl ((validateType_eq_none_iff ty).2 h)
    · exact Or.inr ((validatePattern_eq_none_iff _).2 h)

/-- Witness of C22 (amended): a request without amount is answered 400 and
stores nothing, and the full request is stored once with status 201. -/
theorem addTransaction_outcomes_witness :
    addTransaction 9 1705276800000 manualStore 7 { movieRequest with amount := none }
      = (.message 400 "Please provide all required fields", manualStore)
    ∧ ∃ doc : Transaction, doc._id = 9 ∧ doc.user = 7
      ∧ addTransaction 9 1705276800000 manualStore 7 movieRequest
        = (.json 201 doc,
            { manualStore with transactions := manualStore.transactions ++ [doc] }) :=
  ⟨(addTransaction_outcomes 9 1705276800000 manualStore 7
      { movieRequest with amount := none }).1.2 (by decide!),
    ((addTransaction_outcomes 9 1705276800000 manualStore 7 movieRequest).2 "expense"
      "Entertainment" 50 (by decide!) (by decide!) (by decide!) (by decide!) (by decide!)
      (by decide!)).1 (by decide!) (by decide!)⟩

/-- Counterexample to C23 as stated: the request supplies the date 2023-01-15,
and the transaction stored at 2024-01-15 and read back by its id carries the
date 2024-01-15. -/
theorem addTransaction_ignores_date :
    movieRequest.date = some 1673740800000
    ∧ (addTransaction 9 1705276800000 manualStore 7 movieRequest).1 = .json 201 movieTransaction
    ∧ findById Transaction._id
        (addTransaction 9 1705276800000 manualStore 7 movieRequest).2.transactions 9
      = some movieTransaction
    ∧ movieTransaction.date = 1705276800000 := by
  refine ⟨by decide!, by decide!, by decide!, by decide!⟩

/-- C23 (amended): for a valid create request and an id that is new to the
store, the transaction stored by `addTransaction` is the one found under that
id, and it carries the supplied type, amount, category, description, tags,
isRecurring, recurrencePattern and recurrenceEndDate; the date is not read from
the request, the stored date is the time of creation. -/
theorem addTransaction_round_trip (newId : ObjectId) (now : ℤ) (s : Store) (caller : ObjectId)
    (body : TransactionBody) (ty category : String) (amount : ℚ)
    (hfresh : ∀ t ∈ s.transactions, t._id ≠ newId)
    (hty : body.type = some ty) (ham : body.amount = some amount) (ham0 : amount ≠ 0)
    (hcat : body.category = some category) (hcat0 : category ≠ "")
    (hvt : ty = "income" ∨ ty = "expense")
    (hvp : body.recurrencePattern = none ∨ body.recurrencePattern = some "daily"
      ∨ body.recurrencePattern = some "weekly" ∨ body.recurrencePattern = some "monthly") :
    ∃ doc : Transaction,
      (addTransaction newId now s caller body).1 = .json 201 doc
      ∧ findById Transaction._id (addTransaction newId now s caller body).2.transactions newId
        = some doc
      ∧ doc.user = caller
      ∧ typeName doc.type = ty
      ∧ doc.amount = amount
      ∧ doc.category = category
      ∧ doc.description = body.description
      ∧ (∀ tags, body.tags = some tags → doc.tags = tags)
      ∧ (∀ b, body.isRecurring = some b → doc.isRecurring = b)
      ∧ (∀ p, body.recurrencePattern = some p →
          ∃ r, doc.recurrencePattern = some r ∧ recurrenceName r = p)
      ∧ (∀ e, body.recurrenceEndDate = some e → doc.recurrenceEndDate = some e)
      ∧ doc.date = now := by
  have hty0 : ty ≠ "" := by
    rcases hvt with h | h <;> rw [h] <;> decide
  obtain ⟨type, pattern, h1, h2⟩ := exists_of_valid_request body ty hvt hvp
  have hadd := addTransaction_valid newId now s caller body ty category amount hty hty0 ham
    ham0 hcat hcat0 type pattern h1 h2
  refine ⟨_, by rw [hadd], ?_, rfl, typeName_of_validateType ty type h1, rfl, rfl, rfl, ?_, ?_,
    ?_, ?_, rfl⟩
  · rw [hadd]
    have := findById_append Transaction._id s.transactions []
      { _id := newId, user := caller, type := type, amount := amount, category := category,
        description := body.description, date := now, tags := body.tags.getD [],
        isRecurring := body.isRecurring.getD false, recurrencePattern := pattern,
        recurrenceEndDate := body.recurrenceEndDate } newId hfresh rfl
    exact this
  · intro tags htags
    simp [htags]
  · intro b hb
    simp [hb]
  · intro p hp
    rw [hp] at h2
    exact recurrenceName_of_validatePattern p pattern h2
  · intro e he
    exact he

/-- Witness of C23 (amended) on the full request. -/
theorem addTransaction_round_trip_witness :
    ∃ doc : Transaction,
      (addTransaction 9 1705276800000 manualStore 7 movieRequest).1 = .json 201 doc
      ∧ findById Transaction._id
          (addTransaction 9 1705276800000 manualStore 7 movieRequest).2.transactions 9
        = some doc
      ∧ doc.amount = 50 ∧ doc.category = "Entertainment" ∧ doc.date = 1705276800000 := by
  obtain ⟨doc, h1, h2, _, _, h5, h6, _, _, _, _, _, h12⟩ :=
    addTransaction_round_trip 9 1705276800000 manualStore 7 movieRequest "expense"
      "Entertainment" 50 (by decide!) (by decide!) (by decide!) (by decide!) (by decide!)
      (by decide!) (by decide!) (by decide!)
  exact ⟨doc, h1, h2, h5, h6, h12⟩

/-! ## Properties of `getFilteredReport` -/

theorem truthy_eq_true_iff (value : Option String) :
    truthy value = true ↔ ∃ v, value = some v ∧ v ≠ "" := by
  cases value with
  | none => simp [truthy]
  | some v => simp [truthy]

theorem reportDateFilter_spec (parseDate : String → Option ℤ) (q : ReportQuery)
    (hdate : truthy q.startDate = true → truthy q.endDate = true →
      ∃ lo hi, parseDate (q.startDate.getD "") = some lo
        ∧ parseDate (q.endDate.getD "") = some hi) :
    ∃ f, reportDateFilter parseDate q = some f
      ∧ ∀ t : Transaction, f t = true ↔
          ∀ lo hi, truthy q.startDate = true → truthy q.endDate = true →
            parseDate (q.startDate.getD "") = some lo →
            parseDate (q.endDate.getD "") = some hi → lo ≤ t.date ∧ t.date ≤ hi := by
  unfold reportDateFilter
  by_cases hboth : (truthy q.startDate && truthy q.endDate) = true
  · have hb := hboth
    rw [Bool.and_eq_true] at hb
    obtain ⟨lo, hi, hlo, hhi⟩ := hdate hb.1 hb.2
    refine ⟨fun t => decide (lo ≤ t.date) && decide (t.date ≤ hi), by simp [hboth, hlo, hhi], ?_⟩
    intro t
    simp only [Bool.and_eq_true, decide_eq_true_eq]
    constructor
    · intro h lo' hi' _ _ hlo' hhi'
      rw [hlo] at hlo'
      rw [hhi] at hhi'
      cases hlo'
      cases hhi'
      exact h
    · intro h
      exact h lo hi hb.1 hb.2 hlo hhi
  · refine ⟨fun _ => true, by simp [hboth], ?_⟩
    intro t
    simp only [true_iff]
    intro lo hi hs he _ _
    exact absurd (by simp [hs, he]) hboth

theorem amountBound_spec (toNumber : String → Option ℚ) (value : Option String)
    (hvalue : truthy value = true → ∃ v, toNumber (value.getD "") = some v) :
    ∃ bound, amountBound toNumber value = some bound
      ∧ ∀ v, bound = some v ↔ truthy value = true ∧ toNumber (value.getD "") = some v := by
  unfold amountBound
  by_cases ht : truthy value = true
  · obtain ⟨v, hv⟩ := hvalue ht
    refine ⟨some v, by simp [ht, hv], ?_⟩
    intro w
    simp [ht, hv]
  · refine ⟨none, by simp [ht], ?_⟩
    intro w
    simp [ht]

theorem reportTextFilter_iff (q : ReportQuery) (t : Transaction) :
    reportTextFilter q t = true ↔
      (∀ c, q.category = some c → c ≠ "" → t.category = c)
      ∧ (∀ tags, q.tags = some tags → tags ≠ "" → ∃ tag ∈ tags.splitOn ",", tag ∈ t.tags)
      ∧ (∀ ty, q.type = some ty → ty ≠ "" → typeName t.type = ty) := by
  unfold reportTextFilter
  rw [Bool.and_eq_true, Bool.and_eq_true]
  have h1 : (if truthy q.category = true then decide (t.category = q.category.getD "") else true)
      = true ↔ ∀ c, q.category = some c → c ≠ "" → t.category = c := by
    cases hq : q.category with
    | none => simp [truthy]
    | some c =>
      by_cases hc : c = ""
      · simp [truthy, hc]
      · simp [truthy, hc]
  have h2 : (if truthy q.tags = true then
        ((q.tags.getD "").splitOn ",").any (fun tag => decide (tag ∈ t.tags)) else true) = true
      ↔ ∀ tags, q.tags = some tags → tags ≠ "" → ∃ tag ∈ tags.splitOn ",", tag ∈ t.tags := by
    cases hq : q.tags with
    | none => simp [truthy]
    | some c =>
      by_cases hc : c = ""
      · simp [truthy, hc]
      · simp [truthy, hc]
  have h3 : (if truthy q.type = true then decide (typeName t.type = q.type.getD "") else true)
      = true ↔ ∀ ty, q.type = some ty → ty ≠ "" → typeName t.type = ty := by
    cases hq : q.type with
    | none => simp [truthy]
    | some c =>
      by_cases hc : c = ""
      · simp [truthy, hc]
      · simp [truthy, hc]
  rw [h1, h2, h3]
  tauto

/-- Counterexample to C24 as stated: with `startDate = 2023-02-01` alone the
report still returns the caller's two transactions of 2023-01-15, which lie
before the start date. -/
theorem getFilteredReport_lone_start_date :
    sampleParseDate "2023-02-01" = some 1675209600000
    ∧ (∃ result, getFilteredReport sampleParseDate sampleToNumber trendStore 7
          { emptyReportQuery with startDate := some "2023-02-01" } = .ok result
        ∧ result.map (fun t => (t._id, t.date))
          = [(5, 1676505600000), (1, 1676419200000), (4, 1676419200000),
              (2, 1673740800000), (3, 1673740800000)])
    ∧ (1673740800000 : ℤ) < 1675209600000 := by
  refine ⟨by decide, ⟨_, rfl, by decide!⟩, by decide⟩

/-- C24 (amended): when the supplied dates and amounts parse,
`getFilteredReport` returns exactly the caller's transactions that satisfy
every filter in force, sorted by descending date: the date range is in force
only when both `startDate` and `endDate` are supplied, each amount bound when
it is supplied, and category, tags and type when supplied. -/
theorem getFilteredReport_spec (parseDate : String → Option ℤ) (toNumber : String → Option ℚ)
    (s : Store) (uid : ObjectId) (q : ReportQuery)
    (hdate : truthy q.startDate = true → truthy q.endDate = true →
      ∃ lo hi, parseDate (q.startDate.getD "") = some lo
        ∧ parseDate (q.endDate.getD "") = some hi)
    (hmin : truthy q.minAmount = true → ∃ v, toNumber (q.minAmount.getD "") = some v)
    (hmax : truthy q.maxAmount = true → ∃ v, toNumber (q.maxAmount.getD "") = some v) :
    ∃ result, getFilteredReport parseDate toNumber s uid q = .ok result
      ∧ (∀ t, t ∈ result ↔ t ∈ s.transactions ∧ t.user = uid
            ∧ satisfiesReportQuery parseDate toNumber q t)
      ∧ (∃ p : Transaction → Bool, result.Perm (s.transactions.filter p)
          ∧ ∀ t, p t = true ↔ t.user = uid ∧ satisfiesReportQuery parseDate toNumber q t)
      ∧ result.Sorted (fun a b => b.date ≤ a.date) := by
  obtain ⟨f, hf, hfspec⟩ := reportDateFilter_spec parseDate q hdate
  obtain ⟨lower, hlower, hlspec⟩ := amountBound_spec toNumber q.minAmount hmin
  obtain ⟨upper, hupper, huspec⟩ := amountBound_spec toNumber q.maxAmount hmax
  have hp : ∀ t : Transaction,
      (decide (t.user = uid) && f t && reportTextFilter q t
        && atLeast lower t.amount && atMost upper t.amount) = true
      ↔ t.user = uid ∧ satisfiesReportQuery parseDate toNumber q t := by
    intro t
    have hl : atLeast lower t.amount = true
        ↔ ∀ v, truthy q.minAmount = true → toNumber (q.minAmount.getD "") = some v →
            v ≤ t.amount := by
      cases hlow : lower with
      | none =>
        simp only [atLeast, true_iff]
        intro v h1 h2
        have := (hlspec v).2 ⟨h1, h2⟩
        rw [hlow] at this
        exact Option.noConfusion this
      | some w =>
        simp only [atLeast, decide_eq_true_eq]
        constructor
        · intro h v h1 h2
          have := (hlspec v).2 ⟨h1, h2⟩
          rw [hlow] at this
          cases this
          exact h
        · intro h
          exact h w ((hlspec w).1 hlow).1 ((hlspec w).1 hlow).2
    have hu : atMost upper t.amount = true
        ↔ ∀ v, truthy q.maxAmount = true → toNumber (q.maxAmount.getD "") = some v →
            t.amount ≤ v := by
      cases hup : upper with
      | none =>
        simp only [atMost, true_iff]
        intro v h1 h2
        have := (huspec v).2 ⟨h1, h2⟩
        rw [hup] at this
        exact Option.noConfusion this
      | some w =>
        simp only [atMost, decide_eq_true_eq]
        constructor
        · intro h v h1 h2
          have := (huspec v).2 ⟨h1, h2⟩
          rw [hup] at this
          cases this
          exact h
        · intro h
          exact h w ((huspec w).1 hup).1 ((huspec w).1 hup).2
    rw [Bool.and_eq_true, Bool.and_eq_true, Bool.and_eq_true, Bool.and_eq_true, hl, hu,
      hfspec t, reportTextFilter_iff, decide_eq_true_eq]
    unfold satisfiesReportQuery
    tauto
  have hresp : getFilteredReport parseDate toNumber s uid q
      = .ok ((s.transactions.filter
          (fun t => decide (t.user = uid) && f t && reportTextFilter q t
            && atLeast lower t.amount && atMost upper t.amount)).insertionSort
          (fun a b => b.date ≤ a.date)) := by
    simp only [getFilteredReport, hf, hlower, hupper]
  refine ⟨_, hresp, ?_, ⟨_, List.perm_insertionSort _ _, hp⟩, ?_⟩
  · intro t
    rw [(List.perm_insertionSort _ _).mem_iff, List.mem_filter, hp t]
  · exact @List.sorted_insertionSort Transaction (fun a b => b.date ≤ a.date) _
      ⟨fun a b => le_total b.date a.date⟩ ⟨fun _ _ _ hab hbc => le_trans hbc hab⟩ _

/-- Witness of C24 (amended): the range 2023-02-01 to 2023-02-28 with type
expense and amounts from 300 to 400 leaves the Food expense of 350. -/
theorem getFilteredReport_spec_witness :
    ∃ result, getFilteredReport sampleParseDate sampleToNumber trendStore 7
        { emptyReportQuery with
          startDate := some "2023-02-01", endDate := some "2023-02-28", type := some "expense",
          minAmount := some "300", maxAmount := some "400" } = .ok result
      ∧ result.map Transaction._id = [1] := by
  obtain ⟨result, hresult, _⟩ := getFilteredReport_spec sampleParseDate sampleToNumber
    trendStore 7
    { emptyReportQuery with
      startDate := some "2023-02-01", endDate := some "2023-02-28", type := some "expense",
      minAmount := some "300", maxAmount := some "400" }
    (fun _ _ => ⟨1675209600000, 1677542400000, by decide, by decide⟩)
    (fun _ => ⟨300, by decide!⟩) (fun _ => ⟨400, by decide!⟩)
  refine ⟨result, hresult, ?_⟩
  have hconcrete : getFilteredReport sampleParseDate sampleToNumber trendStore 7
      { emptyReportQuery with
        startDate := some "2023-02-01", endDate := some "2023-02-28", type := some "expense",
        minAmount := some "300", maxAmount := some "400" }
      = .ok [sampleTx 1 TxType.expense 350 "Food" 1676419200000] := by decide!
  rw [hconcrete, Reply.ok.injEq] at hresult
  rw [← hresult]
  rfl

/-! ## The virtual `daysRemaining` -/

/-- C25: `daysRemaining` is max(0, ceil((deadline - now) / 1 day)); it is never
negative, it is 0 exactly when the deadline is not after now, and it is at
least 1 when the deadline is after now. -/
theorem daysRemaining_spec (now : ℤ) (g : Goal) :
    g.daysRemaining now = max 0 ⌈((g.deadline - now : ℤ) : ℚ) / 86400000⌉
    ∧ 0 ≤ g.daysRemaining now
    ∧ (g.daysRemaining now = 0 ↔ g.deadline ≤ now)
    ∧ (now < g.deadline → 1 ≤ g.daysRemaining now) := by
  have hdef : g.daysRemaining now = max 0 ⌈((g.deadline - now : ℤ) : ℚ) / 86400000⌉ := by
    simp only [Goal.daysRemaining]
    norm_num
  have hfuture : now < g.deadline → 1 ≤ g.daysRemaining now := by
    intro h
    rw [hdef]
    have hpos : (0 : ℚ) < ((g.deadline - now : ℤ) : ℚ) / 86400000 := by
      apply div_pos
      · exact_mod_cast sub_pos.2 h
      · norm_num
    have : 0 < ⌈((g.deadline - now : ℤ) : ℚ) / 86400000⌉ := Int.ceil_pos.2 hpos
    exact le_max_of_le_right this
  have hpast : g.deadline ≤ now → g.daysRemaining now = 0 := by
    intro h
    rw [hdef]
    apply max_eq_left
    rw [Int.ceil_le]
    apply div_nonpos_of_nonpos_of_nonneg
    · exact_mod_cast sub_nonpos.2 h
    · norm_num
  refine ⟨hdef, ?_, ⟨?_, hpast⟩, hfuture⟩
  · rw [hdef]
    exact le_max_left _ _
  · intro hzero
    by_contra hnot
    have := hfuture (not_le.1 hnot)
    omega

/-- Witness of C25 at 2024-01-15: a deadline 36 hours ahead gives 2, one a
millisecond ahead gives 1, the present instant and the past give 0. -/
theorem daysRemaining_spec_witness :
    ({ statsGoalA with deadline := 1705276800000 + 129600000 } : Goal).daysRemaining
        1705276800000 = 2
    ∧ 1 ≤ ({ statsGoalA with deadline := 1705276800001 } : Goal).daysRemaining 1705276800000
    ∧ ({ statsGoalA with deadline := 1705276800000 } : Goal).daysRemaining 1705276800000 = 0
    ∧ ({ statsGoalA with deadline := 0 } : Goal).daysRemaining 1705276800000 = 0 :=
  ⟨by decide!,
    (daysRemaining_spec 1705276800000 { statsGoalA with deadline := 1705276800001 }).2.2.2
      (by decide),
    (daysRemaining_spec 1705276800000 { statsGoalA with deadline := 1705276800000 }).2.2.1.2
      (by decide),
    (daysRemaining_spec 1705276800000 { statsGoalA with deadline := 0 }).2.2.1.2 (by decide)⟩

end FinTrack
